import Mathlib

/-!
# p2box: host lifecycle, driver resolution and provisioner detection

A shallow embedding of `libmachine/host/host.go`, `libmachine/libmachine.go`,
`libmachine/provision/provisioner.go`, `libmachine/provision/systemd.go`,
`libmachine/mcnutils/b2p.go`, `commands/rm.go` and `commands/create.go`.

Go code that talks to a driver, a guest or the store is embedded as a state
transformer over a `World`: the state of everything outside the program (`ext`),
the two package-level variables of `provision` (`detector`, `provisioners`), and a
ghost `trace` recording every call that crosses the driver / provisioner boundary,
so that "the primitive is invoked exactly once" is a statement about the trace.
A Go `error` is an `Option GoError` (`none` is `nil`); a nil-pointer dereference is
the `none` result of the `Go` monad.
-/

namespace state

/-- Machine states of `libmachine/state`, a closed enumeration. -/
inductive State
  | None | Running | Paused | Saved | Stopped | Stopping | Starting | Error | Timeout
  deriving DecidableEq, Repr

end state

namespace pkgaction

/-- Package actions of `libmachine/provision/pkgaction`. -/
inductive PackageAction
  | Install | Remove | Upgrade | Purge
  deriving DecidableEq, Repr

end pkgaction

/-- Go `error` values, by dynamic type. `errorString` is what `errors.New` and
`fmt.Errorf` build; `foreign` is an error of any type defined outside these packages. -/
inductive GoError
  | ErrHostAlreadyInState (Name : String) (State : state.State)
  | ErrHostDoesNotExist (Name : String)
  | ErrHostAlreadyExists (Name : String)
  | ErrDuringPreCreate (Cause : GoError)
  | ErrDetectionFailed
  | ErrPluginBinaryNotFound (drivername : String) (driverPath : String)
  | NotFound (Name : String)
  | errorString (s : String)
  | foreign (dynType : String) (msg : String)
  deriving DecidableEq, Repr

/-- The Go interface type `error`: `none` is `nil`. -/
abbrev error := Option GoError

/-- Calls that cross the boundary of the embedded code, in the order they are made. -/
inductive Event
  | GetState (reported : state.State)
  | Start | Stop | Kill | Restart | Remove | Create | PreCreateCheck
  | DetectProvisioner
  | WaitForPodman
  | WaitForSSH
  | SSHCommand (command : String)
  | Package (name : String) (action : pkgaction.PackageAction)
  | APINewHost (driverName : String)
  | APICreate (name : String)
  | APILoad (name : String)
  | APISave (name : String)
  | APIExists (name : String)
  | APIRemove (name : String)
  | GetCreateFlags
  | SetConfigFromFlags
  | ShowHelp
  | ConfirmInput
  | BootstrapCertificates
  | Provision
  | CreateSSHClient
  deriving DecidableEq, Repr

namespace mcnflag

/-- A value of Go type `interface{}` as the flag machinery passes it around. -/
inductive FlagValue
  | bool (b : Bool)
  | int (n : Int)
  | string (s : String)
  | stringSlice (l : List String)
  deriving DecidableEq, Repr

/-- A driver flag (`mcnflag.Flag`): its name, `String()`, and its default, `Default()`,
which may be nil. -/
structure Flag where
  name : String
  default : Option FlagValue
  deriving DecidableEq, Repr

end mcnflag

namespace drivers

/-- Method table of a concrete backend (an RPC plugin client, the fake driver of the
tests): the part of the `drivers.Driver` capability set used by the embedded code.
Every primitive transforms the external state; the two name queries only read it. -/
structure DriverOps (σ : Type) where
  DriverName : σ → String
  GetMachineName : σ → String
  GetState : σ → (state.State × error) × σ
  Start : σ → error × σ
  Stop : σ → error × σ
  Kill : σ → error × σ
  Restart : σ → error × σ
  Remove : σ → error × σ
  Create : σ → error × σ
  PreCreateCheck : σ → error × σ
  GetCreateFlags : σ → List mcnflag.Flag := fun _ => []
  SetConfigFromFlags : List (String × mcnflag.FlagValue) → σ → error × σ := fun _ s => (none, s)

/-- A non-nil `drivers.Driver` interface value: a concrete backend, the error
stand-in `errdriver.Driver` carrying the requested name, or a `SerialDriver`
decorating another driver. -/
inductive Driver (σ : Type)
  | backend (ops : DriverOps σ)
  | errdriver (Name : String)
  | serial (inner : Driver σ)

end drivers

open drivers in
/-- Modelled from the spec: `errdriver.Driver` and `drivers.SerialDriver` are not
under src/. Per §4.5 every method of the stand-in returns the same "driver plugin
not found" error carrying the requested name (its state query reports `Error`
alongside it); per §4.2 the serial decorator delegates to the inner driver, the
lock it takes being invisible to a single sequential caller. -/
def drivers.Driver.getState {σ : Type} : Driver σ → σ → (state.State × error) × σ
  | .backend ops, s => ops.GetState s
  | .errdriver n, s => ((state.State.Error, some (GoError.NotFound n)), s)
  | .serial d, s => d.getState s

/-- The lifecycle primitives of the capability set. -/
inductive drivers.Verb
  | Start | Stop | Kill | Restart | Remove | Create | PreCreateCheck
  deriving DecidableEq, Repr

/-- The trace event a primitive leaves. -/
def drivers.Verb.event : drivers.Verb → Event
  | .Start => Event.Start
  | .Stop => Event.Stop
  | .Kill => Event.Kill
  | .Restart => Event.Restart
  | .Remove => Event.Remove
  | .Create => Event.Create
  | .PreCreateCheck => Event.PreCreateCheck

/-- The backend's method for a primitive. -/
def drivers.DriverOps.prim {σ : Type} (ops : drivers.DriverOps σ) :
    drivers.Verb → σ → error × σ
  | .Start => ops.Start
  | .Stop => ops.Stop
  | .Kill => ops.Kill
  | .Restart => ops.Restart
  | .Remove => ops.Remove
  | .Create => ops.Create
  | .PreCreateCheck => ops.PreCreateCheck

open drivers in
/-- Modelled from the spec: the primitives of `errdriver.Driver` and
`drivers.SerialDriver` (not under src/), as for `getState`. -/
def drivers.Driver.prim {σ : Type} : Driver σ → Verb → σ → error × σ
  | .backend ops, v, s => ops.prim v s
  | .errdriver n, _, s => (some (GoError.NotFound n), s)
  | .serial d, v, s => d.prim v s

open drivers in
/-- Modelled from the spec: `DriverName()`, `GetCreateFlags()` and
`SetConfigFromFlags()` of `errdriver.Driver` and `drivers.SerialDriver` (not under
src/). The stand-in reports the family name "not-found" and no flags, and fails to be
configured with its not-found error; the decorator delegates. -/
def drivers.Driver.driverName {σ : Type} : Driver σ → σ → String
  | .backend ops, s => ops.DriverName s
  | .errdriver _, _ => "not-found"
  | .serial d, s => d.driverName s

open drivers in
/-- The flags a driver offers for creation; see `driverName` for the modelled variants. -/
def drivers.Driver.createFlags {σ : Type} : Driver σ → σ → List mcnflag.Flag
  | .backend ops, s => ops.GetCreateFlags s
  | .errdriver _, _ => []
  | .serial d, s => d.createFlags s

open drivers in
/-- Configuring a driver from flag values; see `driverName` for the modelled variants. -/
def drivers.Driver.setConfig {σ : Type} :
    Driver σ → List (String × mcnflag.FlagValue) → σ → error × σ
  | .backend ops, opts, s => ops.SetConfigFromFlags opts s
  | .errdriver n, _, s => (some (GoError.NotFound n), s)
  | .serial d, opts, s => d.setConfig opts s

namespace auth

/-- Certificate paths (`libmachine/auth.Options`). -/
structure Options where
  CertDir : String
  CaCertPath : String
  CaPrivateKeyPath : String
  CaCertRemotePath : String
  ServerCertPath : String
  ServerKeyPath : String
  ClientKeyPath : String
  ServerCertRemotePath : String
  ServerKeyRemotePath : String
  ClientCertPath : String
  ServerCertSANs : List String
  StorePath : String
  deriving DecidableEq, Repr

end auth

namespace engine

/-- Engine daemon options (`libmachine/engine.Options`). -/
structure Options where
  ArbitraryFlags : List String
  Env : List String
  InsecureRegistry : List String
  Labels : List String
  RegistryMirror : List String
  StorageDriver : String
  TLSVerify : Bool
  InstallURL : String
  deriving DecidableEq, Repr

end engine

namespace provision

/-- Parsed `/etc/os-release` of the guest (`provision.OsRelease`). -/
structure OsRelease where
  Name : String
  Version : String
  ID : String
  IDLike : String
  PrettyName : String
  VersionID : String
  deriving DecidableEq, Repr

/-- Methods of the `Provisioner` interface over provisioner objects of type `P`.
Injecting the os-release info and the compatibility test act on the object alone;
a package action is a remote command and transforms the external state. -/
structure ProvisionerMethods (σ P : Type) where
  SetOsReleaseInfo : OsRelease → P → P
  CompatibleWithHost : P → Bool
  Package : P → String → pkgaction.PackageAction → σ → error × σ
  Provision : P → auth.Options → engine.Options → σ → error × σ := fun _ _ _ s => (none, s)

/-- A registry entry: `RegisteredProvisioner{New}`. -/
structure RegisteredProvisioner (σ P : Type) where
  New : Option (drivers.Driver σ) → P

/-- Implementations of the `Detector` interface: the two of the package, and any
other strategy a caller installs. -/
inductive Detector (σ P : Type)
  | StandardDetector
  | FakeDetector (Provisioner : Option P)
  | custom (detect : Option (drivers.Driver σ) → σ → (Option P × error) × σ)

end provision

/-- Everything the embedded code uses that is not under src/, taken as parameters:
the poll bound and expiry error of `mcnutils.WaitFor`, the command-channel helpers
of `drivers`, the os-release parser, the guest wait `provision.WaitForPodman`, the
provisioner method table, the order in which the Go runtime ranges over the
registry map, the `Error()` text of an error value, and the constants
`version.ConfigVersion`, `drivers.DefaultEngineInstallURL` and `filepath.Join`. -/
structure Env (σ P : Type) where
  maxAttempts : Nat
  ErrWaitTimeout : GoError
  WaitForSSH : Option (drivers.Driver σ) → σ → error × σ
  RunSSHCommandFromDriver : Option (drivers.Driver σ) → String → σ → (String × error) × σ
  NewOsRelease : String → Except GoError provision.OsRelease
  WaitForPodman : Option P → σ → error × σ
  methods : provision.ProvisionerMethods σ P
  rangeOrder : List (String × provision.RegisteredProvisioner σ P) →
    List (String × provision.RegisteredProvisioner σ P)
  ErrorText : GoError → String
  ConfigVersion : Int
  DefaultEngineInstallURL : String
  Join : String → String → String
  BootstrapCertificates : Option auth.Options → σ → error × σ := fun _ s => (none, s)
  CreateSSHClient : Option (drivers.Driver σ) → σ → error × σ := fun _ s => (none, s)
  SSHOutput : String → σ → (String × error) × σ := fun _ s => (("", none), s)

/-- The mutable state a call runs in. -/
structure World (σ P : Type) where
  ext : σ
  trace : List Event
  detector : provision.Detector σ P
  provisioners : List (String × provision.RegisteredProvisioner σ P)

/-- Go code: a state transformer over the world that either returns a value or
panics (`none`). -/
def Go (σ P α : Type) : Type := World σ P → Option (α × World σ P)

namespace Go

variable {σ P α β : Type}

/-- Return a value without touching the world. -/
def ret (a : α) : Go σ P α := fun w => some (a, w)

/-- Sequencing; a panic propagates. -/
def andThen (x : Go σ P α) (f : α → Go σ P β) : Go σ P β := fun w =>
  match x w with
  | none => none
  | some (a, w') => f a w'

instance : Monad (Go σ P) where
  pure := ret
  bind := andThen

/-- A runtime panic. -/
def panic : Go σ P α := fun _ => none

/-- Append an event to the ghost trace. -/
def log (e : Event) : Go σ P Unit := fun w => some ((), { w with trace := w.trace ++ [e] })

/-- Run a transformer of the external state. -/
def liftExt (f : σ → α × σ) : Go σ P α := fun w =>
  some ((f w.ext).1, { w with ext := (f w.ext).2 })

/-- Read the world. -/
def get : Go σ P (World σ P) := fun w => some (w, w)

end Go

namespace drivers

variable {σ P : Type}

/-- The call `d.GetState()` on an interface value: a nil interface panics; the
reported state is recorded in the trace. -/
def Driver.GetState (d : Option (Driver σ)) : Go σ P (state.State × error) :=
  match d with
  | none => Go.panic
  | some d => do
    let r ← Go.liftExt d.getState
    Go.log (Event.GetState r.1)
    pure r

/-- The call of a lifecycle primitive on an interface value. -/
def Driver.call (d : Option (Driver σ)) (v : Verb) : Go σ P error :=
  match d with
  | none => Go.panic
  | some d => do
    Go.log v.event
    Go.liftExt (d.prim v)

/-- Modelled from the spec: `drivers.MachineInState` is not under src/. It builds the
predicate the lifecycle verbs poll: one state query, true when the driver reports
the desired state (§4.3 "if the driver already reports the target state"). -/
def MachineInState (d : Option (Driver σ)) (desiredState : state.State) : Go σ P Bool := do
  let r ← Driver.GetState d
  pure (r.1 == desiredState)

end drivers

namespace mcnutils

variable {σ P : Type}

/-- The polling loop with `n` attempts left. -/
def waitLoop (timeoutErr : GoError) (f : Go σ P Bool) : Nat → Go σ P error
  | 0 => pure (some timeoutErr)
  | n + 1 => do
    if (← f) then pure none else waitLoop timeoutErr f n

/-- Modelled from the spec: `mcnutils.WaitFor` is not under src/. It polls the
predicate on a fixed interval until it holds or a bounded overall timeout elapses,
and expiry is an error (§4.3 postcondition); the bound is `maxAttempts` polls. -/
def WaitFor (env : Env σ P) (f : Go σ P Bool) : Go σ P error :=
  waitLoop env.ErrWaitTimeout f env.maxAttempts

end mcnutils

namespace provision

variable {σ P : Type}

/-- The assignment `m[name] = p` on a Go map kept as an association list. -/
def mapSet (name : String) (p : RegisteredProvisioner σ P) :
    List (String × RegisteredProvisioner σ P) → List (String × RegisteredProvisioner σ P)
  | [] => [(name, p)]
  | (k, v) :: rest => if k = name then (name, p) :: rest else (k, v) :: mapSet name p rest

/-- Embedding of `Register`: `provisioners[name] = p`. -/
def Register (name : String) (p : RegisteredProvisioner σ P) : Go σ P Unit := fun w =>
  some ((), { w with provisioners := mapSet name p w.provisioners })

/-- Embedding of `SetDetector`: `detector = newDetector`. -/
def SetDetector (newDetector : Detector σ P) : Go σ P Unit := fun w =>
  some ((), { w with detector := newDetector })

/-- Embedding of `(*FakeDetector).DetectProvisioner`. -/
def FakeDetector.DetectProvisioner (Provisioner : Option P) (_d : Option (drivers.Driver σ)) :
    Go σ P (Option P × error) :=
  pure (Provisioner, none)

/-- The `for _, p := range provisioners` loop of the standard detector over the
entries in the order the runtime yields them. -/
def detectLoop (m : ProvisionerMethods σ P) (d : Option (drivers.Driver σ))
    (osReleaseInfo : OsRelease) :
    List (String × RegisteredProvisioner σ P) → Option P × error
  | [] => (none, some GoError.ErrDetectionFailed)
  | (_, p) :: rest =>
    let provisioner := m.SetOsReleaseInfo osReleaseInfo (p.New d)
    if m.CompatibleWithHost provisioner then (some provisioner, none)
    else detectLoop m d osReleaseInfo rest

/-- Embedding of `StandardDetector.DetectProvisioner`. -/
def StandardDetector.DetectProvisioner (env : Env σ P) (d : Option (drivers.Driver σ)) :
    Go σ P (Option P × error) := do
  Go.log Event.WaitForSSH
  let err ← Go.liftExt (env.WaitForSSH d)
  match err with
  | some e => pure (none, some e)
  | none =>
    Go.log (Event.SSHCommand "cat /etc/os-release")
    let r ← Go.liftExt (env.RunSSHCommandFromDriver d "cat /etc/os-release")
    match r.2 with
    | some e =>
      pure (none, some (GoError.errorString ("Error getting SSH command: " ++ env.ErrorText e)))
    | none =>
      match env.NewOsRelease r.1 with
      | .error e =>
        pure (none, some (GoError.errorString
          ("Error parsing /etc/os-release file: " ++ env.ErrorText e)))
      | .ok osReleaseInfo =>
        let w ← Go.get
        pure (detectLoop env.methods d osReleaseInfo (env.rangeOrder w.provisioners))

/-- Embedding of the package-level `DetectProvisioner`: dispatch on the installed
detector. -/
def DetectProvisioner (env : Env σ P) (d : Option (drivers.Driver σ)) :
    Go σ P (Option P × error) := do
  Go.log Event.DetectProvisioner
  let w ← Go.get
  match w.detector with
  | .StandardDetector => StandardDetector.DetectProvisioner env d
  | .FakeDetector p => FakeDetector.DetectProvisioner p d
  | .custom detect => Go.liftExt (detect d)

/-- The call `provision.WaitForPodman(provisioner)`; the function is not under src/
and is the `WaitForPodman` parameter of the environment. -/
def WaitForPodman (env : Env σ P) (provisioner : Option P) : Go σ P error := do
  Go.log Event.WaitForPodman
  Go.liftExt (env.WaitForPodman provisioner)

/-- The call `provisioner.Package(name, action)` on an interface value. -/
def Provisioner.Package (env : Env σ P) (provisioner : Option P) (name : String)
    (action : pkgaction.PackageAction) : Go σ P error :=
  match provisioner with
  | none => Go.panic
  | some p => do
    Go.log (Event.Package name action)
    Go.liftExt (env.methods.Package p name action)

end provision

namespace host

/-- Embedding of `host.Options`. -/
structure Options where
  Driver : String
  Memory : Int
  Disk : Int
  EngineOptions : Option engine.Options
  AuthOptions : Option auth.Options
  deriving DecidableEq, Repr

/-- Embedding of `host.Host`; a nil `Driver` interface is `none`. -/
structure Host (σ : Type) where
  ConfigVersion : Int
  Driver : Option (drivers.Driver σ)
  DriverName : String
  HostOptions : Option Options
  Name : String
  RawDriver : List UInt8

variable {σ P : Type}

/-- Embedding of `(*Host).runActionForState`. -/
def Host.runActionForState (env : Env σ P) (h : Host σ) (action : Go σ P error)
    (desiredState : state.State) : Go σ P error := do
  if (← drivers.MachineInState h.Driver desiredState) then
    pure (some (GoError.ErrHostAlreadyInState h.Name desiredState))
  else
    match (← action) with
    | some err => pure (some err)
    | none => mcnutils.WaitFor env (drivers.MachineInState h.Driver desiredState)

/-- Embedding of `(*Host).WaitForPodman`. -/
def Host.WaitForPodman (env : Env σ P) (h : Host σ) : Go σ P error := do
  let r ← provision.DetectProvisioner env h.Driver
  match r.2 with
  | some err => pure (some err)
  | none => provision.WaitForPodman env r.1

/-- Embedding of `(*Host).Start`. -/
def Host.Start (env : Env σ P) (h : Host σ) : Go σ P error := do
  match (← h.runActionForState env (drivers.Driver.call h.Driver .Start) state.State.Running) with
  | some err => pure (some err)
  | none => h.WaitForPodman env

/-- Embedding of `(*Host).Stop`. -/
def Host.Stop (env : Env σ P) (h : Host σ) : Go σ P error := do
  match (← h.runActionForState env (drivers.Driver.call h.Driver .Stop) state.State.Stopped) with
  | some err => pure (some err)
  | none => pure none

/-- Embedding of `(*Host).Kill`. -/
def Host.Kill (env : Env σ P) (h : Host σ) : Go σ P error := do
  match (← h.runActionForState env (drivers.Driver.call h.Driver .Kill) state.State.Stopped) with
  | some err => pure (some err)
  | none => pure none

/-- Embedding of `(*Host).Restart`. -/
def Host.Restart (env : Env σ P) (h : Host σ) : Go σ P error := do
  if (← drivers.MachineInState h.Driver state.State.Stopped) then
    match (← h.Start env) with
    | some err => pure (some err)
    | none => h.WaitForPodman env
  else if (← drivers.MachineInState h.Driver state.State.Running) then
    match (← drivers.Driver.call h.Driver .Restart) with
    | some err => pure (some err)
    | none =>
      match (← mcnutils.WaitFor env (drivers.MachineInState h.Driver state.State.Running)) with
      | some err => pure (some err)
      | none => h.WaitForPodman env
  else
    h.WaitForPodman env

/-- Embedding of `(*Host).Upgrade`. The final `return err` returns the variable
bound by the detection step, which is nil at that point. -/
def Host.Upgrade (env : Env σ P) (h : Host σ) : Go σ P error := do
  let r ← drivers.Driver.GetState h.Driver
  match r.2 with
  | some err => pure (some err)
  | none =>
    let started ← (if r.1 ≠ state.State.Running then h.Start env else pure none)
    match started with
    | some err => pure (some err)
    | none =>
      let p ← provision.DetectProvisioner env h.Driver
      match p.2 with
      | some err => pure (some err)
      | none =>
        match (← provision.Provisioner.Package env p.1 "podman" pkgaction.PackageAction.Upgrade) with
        | some err => pure (some err)
        | none => pure p.2

/-- Embedding of `(*Host).AuthOptions`. -/
def Host.AuthOptions (h : Host σ) : Option auth.Options :=
  match h.HostOptions with
  | none => none
  | some o => o.AuthOptions

/-- The three verbs that go through `runActionForState`. -/
inductive LifecycleVerb
  | Start | Stop | Kill
  deriving DecidableEq, Repr

/-- The driver primitive a verb hands to `runActionForState`. -/
def LifecycleVerb.prim : LifecycleVerb → drivers.Verb
  | .Start => drivers.Verb.Start
  | .Stop => drivers.Verb.Stop
  | .Kill => drivers.Verb.Kill

/-- The desired state a verb hands to `runActionForState`. -/
def LifecycleVerb.target : LifecycleVerb → state.State
  | .Start => state.State.Running
  | .Stop => state.State.Stopped
  | .Kill => state.State.Stopped

/-- The `Host` method of a verb. -/
def Host.perform (env : Env σ P) (h : Host σ) : LifecycleVerb → Go σ P error
  | .Start => h.Start env
  | .Stop => h.Stop env
  | .Kill => h.Kill env

end host

namespace libmachine

variable {σ P : Type}

/-- Embedding of `libmachine.Client`. The embedded `*persist.Filestore` and the
`clientDriverFactory` are not under src/; the three of their methods that `NewHost` and
`Load` call are fields. A successful resolution yields a live backend, a successful
store load yields a host. -/
structure Client (σ : Type) where
  certsDir : String
  IsDebug : Bool
  GithubAPIToken : String
  GetMachinesDir : String
  FilestoreLoad : String → σ → Except GoError (host.Host σ) × σ
  NewRPCClientDriver : String → List UInt8 → σ → Except GoError (drivers.DriverOps σ) × σ
  FilestoreSave : host.Host σ → σ → error × σ := fun _ s => (none, s)

/-- Embedding of `(*Client).NewHost`. -/
def Client.NewHost (env : Env σ P) (api : Client σ) (driverName : String)
    (rawDriver : List UInt8) : Go σ P (Option (host.Host σ) × error) := do
  match (← Go.liftExt (api.NewRPCClientDriver driverName rawDriver)) with
  | .error err => pure (none, some err)
  | .ok driver =>
    let w ← Go.get
    pure (some {
      ConfigVersion := env.ConfigVersion
      Name := driver.GetMachineName w.ext
      Driver := some (drivers.Driver.backend driver)
      DriverName := driver.DriverName w.ext
      HostOptions := some {
        Driver := ""
        Memory := 0
        Disk := 0
        AuthOptions := some {
          CertDir := api.certsDir
          CaCertPath := env.Join api.certsDir "ca.pem"
          CaPrivateKeyPath := env.Join api.certsDir "ca-key.pem"
          ClientCertPath := env.Join api.certsDir "cert.pem"
          ClientKeyPath := env.Join api.certsDir "key.pem"
          ServerCertPath := env.Join api.GetMachinesDir "server.pem"
          ServerKeyPath := env.Join api.GetMachinesDir "server-key.pem"
          CaCertRemotePath := ""
          ServerCertRemotePath := ""
          ServerKeyRemotePath := ""
          ServerCertSANs := []
          StorePath := "" }
        EngineOptions := some {
          InstallURL := env.DefaultEngineInstallURL
          StorageDriver := "overlay2"
          TLSVerify := true
          ArbitraryFlags := []
          Env := []
          InsecureRegistry := []
          Labels := []
          RegistryMirror := [] } }
      RawDriver := [] }, none)

/-- Embedding of `(*Client).Load`. -/
def Client.Load (api : Client σ) (name : String) : Go σ P (Option (host.Host σ) × error) := do
  match (← Go.liftExt (api.FilestoreLoad name)) with
  | .error err => pure (none, some err)
  | .ok h =>
    match (← Go.liftExt (api.NewRPCClientDriver h.DriverName h.RawDriver)) with
    | .error err =>
      match err with
      | .ErrPluginBinaryNotFound _ _ =>
        pure (some { h with Driver := some (drivers.Driver.errdriver h.DriverName) }, none)
      | _ => pure (none, some err)
    | .ok d =>
      if h.DriverName = "virtualbox" then
        pure (some { h with Driver := some (drivers.Driver.serial (drivers.Driver.backend d)) }, none)
      else
        pure (some { h with Driver := some (drivers.Driver.backend d) }, none)

/-- The call `api.Save(h)`, the `Save` of the embedded file store. -/
def Client.Save (api : Client σ) (h : host.Host σ) : Go σ P error := do
  Go.log (Event.APISave h.Name)
  Go.liftExt (api.FilestoreSave h)

/-- The call `provisioner.Provision(auth, engine)` on an interface value. -/
def Client.provision (env : Env σ P) (provisioner : Option P) (a : Option auth.Options)
    (e : Option engine.Options) : Go σ P error :=
  match provisioner, a, e with
  | some p, some a, some e => do
    Go.log Event.Provision
    Go.liftExt (env.methods.Provision p a e)
  | _, _, _ => Go.panic

/-- The end of `performCreate`: the check of the connection to the guest. The SSH
client creator installed in `host` and the client it returns are not repository
code under src/; they are the parameters `CreateSSHClient` and `SSHOutput`. -/
def Client.checkConnection (env : Env σ P) (h : host.Host σ) : Go σ P error := do
  Go.log Event.CreateSSHClient
  match (← Go.liftExt (env.CreateSSHClient h.Driver)) with
  | some err => pure (some (GoError.errorString ("Error creating SSH client: " ++ env.ErrorText err)))
  | none =>
    Go.log (Event.SSHCommand "podman --version")
    let r ← Go.liftExt (env.SSHOutput "podman --version")
    match r.2 with
    | some err =>
      pure (some (GoError.errorString ("Error getting podman version: " ++ env.ErrorText err)))
    | none => pure none

/-- The part of `performCreate` that follows the driver's `Create` and the second
save: wait for the machine, detect its provisioner, provision it, check the
connection. -/
def Client.finishCreate (env : Env σ P) (h : host.Host σ) : Go σ P error :=
  match h.Driver with
  | none => Go.panic
  | some d => do
    let w ← Go.get
    if d.driverName w.ext = "none" || d.driverName w.ext = "ci-test" then pure none
    else
      match (← mcnutils.WaitFor env (drivers.MachineInState h.Driver state.State.Running)) with
      | some err =>
        pure (some (GoError.errorString
          ("Error waiting for machine to be running: " ++ env.ErrorText err)))
      | none =>
        let r ← provision.DetectProvisioner env h.Driver
        match r.2 with
        | some err => pure (some (GoError.errorString ("Error detecting OS: " ++ env.ErrorText err)))
        | none =>
          match h.HostOptions with
          | none => Go.panic
          | some o =>
            match (← Client.provision env r.1 o.AuthOptions o.EngineOptions) with
            | some err =>
              pure (some (GoError.errorString ("Error running provisioning: " ++ env.ErrorText err)))
            | none => Client.checkConnection env h

/-- Embedding of `(*Client).performCreate`. -/
def Client.performCreate (env : Env σ P) (api : Client σ) (h : host.Host σ) : Go σ P error := do
  match (← drivers.Driver.call h.Driver drivers.Verb.Create) with
  | some err =>
    pure (some (GoError.errorString
      ("Error in driver during machine creation: " ++ env.ErrorText err)))
  | none =>
    match (← api.Save h) with
    | some err =>
      pure (some (GoError.errorString
        ("Error saving host to store after attempting creation: " ++ env.ErrorText err)))
    | none => Client.finishCreate env h

/-- Embedding of `(*Client).Create`. `cert.BootstrapCertificates` is not under src/
and is a parameter of the environment. -/
def Client.Create (env : Env σ P) (api : Client σ) (h : host.Host σ) : Go σ P error := do
  Go.log Event.BootstrapCertificates
  match (← Go.liftExt (env.BootstrapCertificates h.AuthOptions)) with
  | some err =>
    pure (some (GoError.errorString ("Error generating certificates: " ++ env.ErrorText err)))
  | none =>
    match (← drivers.Driver.call h.Driver drivers.Verb.PreCreateCheck) with
    | some err => pure (some (GoError.ErrDuringPreCreate err))
    | none =>
      match (← api.Save h) with
      | some err =>
        pure (some (GoError.errorString
          ("Error saving host to store before attempting creation: " ++ env.ErrorText err)))
      | none =>
        match (← api.performCreate env h) with
        | some err =>
          pure (some (GoError.errorString ("Error creating machine: " ++ env.ErrorText err)))
        | none => pure none

end libmachine

/-! ## The systemd provisioner: engine configuration and service management -/

namespace serviceaction

/-- Service actions of `libmachine/provision/serviceaction`. -/
inductive ServiceAction
  | Restart | Start | Stop | Enable | Disable | DaemonReload
  deriving DecidableEq, Repr

end serviceaction

namespace provision

variable {σ P : Type}

/-- Embedding of `provision.EngineConfigContext`. -/
structure EngineConfigContext where
  AuthOptions : auth.Options
  EngineOptions : engine.Options
  EngineOptionsDir : String
  deriving DecidableEq, Repr

/-- The `provision.EngineOptions` result of engine-configuration generation. -/
structure EngineOptions where
  EngineOptionsString : String
  EngineOptionsPath : String
  deriving DecidableEq, Repr

/-- Implementations of the `SSHCommander` interface: the generic one, which runs the
command through the driver, and any other (the tests install a fake). -/
inductive SSHCommanderImpl (σ : Type)
  | GenericSSHCommander (Driver : Option (drivers.Driver σ))
  | custom (run : String → σ → (String × error) × σ)

/-- The fields of `GenericProvisioner` that the systemd provisioner uses; the type
declaration itself is not under src/. -/
structure GenericProvisioner (σ : Type) where
  SSHCommander : SSHCommanderImpl σ
  OsReleaseID : String
  Packages : List String
  Driver : Option (drivers.Driver σ)
  DaemonOptionsFile : String
  AuthOptions : auth.Options
  EngineOptions : engine.Options

/-- Embedding of `SystemdProvisioner`, which embeds `GenericProvisioner`. -/
structure SystemdProvisioner (σ : Type) extends GenericProvisioner σ

/-- The zero value of `auth.Options`. -/
def zeroAuthOptions : auth.Options :=
  { CertDir := "", CaCertPath := "", CaPrivateKeyPath := "", CaCertRemotePath := "",
    ServerCertPath := "", ServerKeyPath := "", ClientKeyPath := "", ServerCertRemotePath := "",
    ServerKeyRemotePath := "", ClientCertPath := "", ServerCertSANs := [], StorePath := "" }

/-- The zero value of `engine.Options`. -/
def zeroEngineOptions : engine.Options :=
  { ArbitraryFlags := [], Env := [], InsecureRegistry := [], Labels := [], RegistryMirror := [],
    StorageDriver := "", TLSVerify := false, InstallURL := "" }

/-- Embedding of `NewSystemdProvisioner`. -/
def NewSystemdProvisioner (osReleaseID : String) (d : Option (drivers.Driver σ)) :
    SystemdProvisioner σ :=
  { SSHCommander := SSHCommanderImpl.GenericSSHCommander d
    OsReleaseID := osReleaseID
    Packages := []
    Driver := d
    DaemonOptionsFile := ""
    AuthOptions := zeroAuthOptions
    EngineOptions := zeroEngineOptions }

/-- The text the template `engineConfigTmpl` of `GenerateEngineOptions` executes to
on a context: literal text between the actions is copied, a field action prints the
string, a `range` prints its body once per element, and `printf "%q"` is Go quoting,
the `quote` parameter (`strconv.Quote` is not repository code). -/
def engineConfigTmpl (quote : String → String) (ctx : EngineConfigContext) : String :=
  "--storage-driver " ++ ctx.EngineOptions.StorageDriver ++
  " --tlsverify --tlscacert " ++ ctx.AuthOptions.CaCertRemotePath ++
  " --tlscert " ++ ctx.AuthOptions.ServerCertRemotePath ++
  " --tlskey " ++ ctx.AuthOptions.ServerKeyRemotePath ++ " " ++
  String.join (ctx.EngineOptions.Labels.map fun l => "--label " ++ l ++ " ") ++
  String.join (ctx.EngineOptions.InsecureRegistry.map fun r => "--insecure-registry " ++ r ++ " ") ++
  String.join (ctx.EngineOptions.RegistryMirror.map fun m => "--registry-mirror " ++ m ++ " ") ++
  String.join (ctx.EngineOptions.ArbitraryFlags.map fun f => "--" ++ f ++ " ") ++
  "\nEnvironment=" ++
  String.join (ctx.EngineOptions.Env.map fun e => quote e ++ " ") ++
  "\n"

/-- Embedding of `(*SystemdProvisioner).GenerateEngineOptions`: the result pair and
the provisioner as the call leaves it. The template is a constant that parses, and the
error of `Execute` is dropped by the source, so the error returned is nil. -/
def SystemdProvisioner.GenerateEngineOptions (quote : String → String)
    (p : SystemdProvisioner σ) :
    Go σ P ((Option EngineOptions × error) × SystemdProvisioner σ) :=
  match p.Driver with
  | none => Go.panic
  | some d => do
    let w ← Go.get
    let driverNameLabel := "provider=" ++ d.driverName w.ext
    let p1 : SystemdProvisioner σ :=
      { p with EngineOptions :=
          { p.EngineOptions with Labels := p.EngineOptions.Labels ++ [driverNameLabel] } }
    let engineConfigContext : EngineConfigContext :=
      { AuthOptions := p1.AuthOptions
        EngineOptions := p1.EngineOptions
        EngineOptionsDir := "" }
    pure ((some { EngineOptionsString := engineConfigTmpl quote engineConfigContext
                  EngineOptionsPath := p1.DaemonOptionsFile }, none), p1)

/-- The call `p.SSHCommand(args)` on a provisioner: the command is recorded in the
trace and run by the provisioner's commander. -/
def GenericProvisioner.SSHCommand (env : Env σ P) (p : GenericProvisioner σ) (args : String) :
    Go σ P (String × error) := do
  Go.log (Event.SSHCommand args)
  match p.SSHCommander with
  | .GenericSSHCommander d => Go.liftExt (env.RunSSHCommandFromDriver d args)
  | .custom run => Go.liftExt (run args)

/-- Embedding of `(*SystemdProvisioner).Service`; `actionString` is the `String()`
method of `ServiceAction`, which is not under src/. -/
def SystemdProvisioner.Service (env : Env σ P) (actionString : serviceaction.ServiceAction → String)
    (p : SystemdProvisioner σ) (name : String) (action : serviceaction.ServiceAction) :
    Go σ P error := do
  let reloadDaemon :=
    match action with
    | .Start => true
    | .Restart => true
    | _ => false
  let reloaded ←
    (if reloadDaemon then do
      let r ← p.toGenericProvisioner.SSHCommand env "sudo systemctl daemon-reload"
      pure r.2
    else pure none)
  match reloaded with
  | some err => pure (some err)
  | none =>
    let command := "sudo systemctl -f " ++ actionString action ++ " " ++ name
    let r ← p.toGenericProvisioner.SSHCommand env command
    match r.2 with
    | some err => pure (some err)
    | none => pure none

end provision

/-! ## Commands: `rm` and `create` -/

namespace host

/-- A character of the class `[a-zA-Z0-9\-\.]`. -/
def isHostNameChar (c : Char) : Bool := c.isAlphanum || c == '-' || c == '.'

/-- Embedding of `ValidateHostName`: a match of the anchored pattern
`^[a-zA-Z0-9][a-zA-Z0-9\-\.]*$`, in which `$` matches only at the end of the text. -/
def ValidateHostName (name : String) : Bool :=
  match name.toList with
  | [] => false
  | c :: cs => c.isAlphanum && cs.all isHostNameChar

end host

namespace mcnerror

/-- Embedding of `mcnerror.ErrInvalidHostname`. -/
def ErrInvalidHostname : GoError :=
  GoError.errorString "Invalid hostname specified. Allowed hostname chars are: 0-9a-zA-Z . -"

end mcnerror

/-- The `Error()` text of an error value: the message itself for `errors.New` and
`fmt.Errorf` values, the formats of `mcnerror/errors.go` for the typed errors defined
there whose text needs only Go quoting (`quote`, the `%q` verb), and `text` for every
error type whose `Error` method is not under src/. -/
def GoError.Error (quote : String → String) (text : GoError → String) : GoError → String
  | .errorString s => s
  | .ErrHostDoesNotExist n =>
    "Podman machine " ++ quote n ++ " does not exist. Use \"podman-machine ls\" to list " ++
    "machines. Use \"podman-machine create\" to add a new one."
  | .ErrHostAlreadyExists n => "Podman machine " ++ quote n ++ " already exists"
  | .ErrDuringPreCreate c =>
    "Error with pre-create check: " ++ quote (GoError.Error quote text c)
  | e => text e

namespace libmachine

/-- The `libmachine.API` interface as the commands use it: each method transforms the
external state. -/
structure API (σ : Type) where
  NewHost : String → List UInt8 → σ → (Option (host.Host σ) × error) × σ
  Create : host.Host σ → σ → error × σ
  Load : String → σ → (Option (host.Host σ) × error) × σ
  Save : host.Host σ → σ → error × σ
  Exists : String → σ → (Bool × error) × σ
  Remove : String → σ → error × σ
  GetMachinesDir : String

variable {σ P : Type}

/-- The call `api.NewHost(driverName, rawDriver)`, recorded in the trace. -/
def API.callNewHost (api : API σ) (driverName : String) (rawDriver : List UInt8) :
    Go σ P (Option (host.Host σ) × error) := do
  Go.log (Event.APINewHost driverName)
  Go.liftExt (api.NewHost driverName rawDriver)

/-- The call `api.Create(h)`, recorded in the trace. -/
def API.callCreate (api : API σ) (h : host.Host σ) : Go σ P error := do
  Go.log (Event.APICreate h.Name)
  Go.liftExt (api.Create h)

/-- The call `api.Load(name)`, recorded in the trace. -/
def API.callLoad (api : API σ) (name : String) : Go σ P (Option (host.Host σ) × error) := do
  Go.log (Event.APILoad name)
  Go.liftExt (api.Load name)

/-- The call `api.Save(h)`, recorded in the trace. -/
def API.callSave (api : API σ) (h : host.Host σ) : Go σ P error := do
  Go.log (Event.APISave h.Name)
  Go.liftExt (api.Save h)

/-- The call `api.Exists(name)`, recorded in the trace. -/
def API.callExists (api : API σ) (name : String) : Go σ P (Bool × error) := do
  Go.log (Event.APIExists name)
  Go.liftExt (api.Exists name)

/-- The call `api.Remove(name)`, recorded in the trace. -/
def API.callRemove (api : API σ) (name : String) : Go σ P error := do
  Go.log (Event.APIRemove name)
  Go.liftExt (api.Remove name)

end libmachine

namespace drivers

variable {σ P : Type}

/-- The call `d.GetCreateFlags()` on an interface value. -/
def Driver.GetCreateFlags (d : Option (Driver σ)) : Go σ P (List mcnflag.Flag) :=
  match d with
  | none => Go.panic
  | some d => do
    Go.log Event.GetCreateFlags
    let w ← Go.get
    pure (d.createFlags w.ext)

/-- The call `d.SetConfigFromFlags(opts)` on an interface value. -/
def Driver.SetConfigFromFlags (d : Option (Driver σ)) (opts : List (String × mcnflag.FlagValue)) :
    Go σ P error :=
  match d with
  | none => Go.panic
  | some d => do
    Go.log Event.SetConfigFromFlags
    Go.liftExt (d.setConfig opts)

end drivers

namespace commands

variable {σ P : Type}

/-- The `CommandLine` interface as the commands use it: the positional arguments and
the flag accessors. `Generic name` is the value `Get()` returns when the flag is a
`flag.Getter`, and `none` when it is not. -/
structure CommandLine where
  Args : List String
  BoolFlag : String → Bool
  StringFlag : String → String
  GlobalString : String → String
  StringSlice : String → List String
  FlagNames : List String
  Generic : String → Option mcnflag.FlagValue
  IsSet : String → Bool

/-- What the commands use that is neither under src/ nor part of the two interfaces:
the `Error()` text of foreign errors, Go quoting (`%q`), the `%v` rendering of a string
slice, the interactive confirmation, `ErrNoMachineSpecified`, `json.Marshal` of the
bare driver data for a machine name and store path, `filepath.Join`, and the two
inputs of `mcndirs`: the `MACHINE_STORAGE_PATH` variable and the home directory. -/
structure Deps (σ : Type) where
  ErrorText : GoError → String
  Quote : String → String
  FormatV : List String → String
  confirmInput : String → σ → (Bool × error) × σ
  ErrNoMachineSpecified : GoError
  Marshal : String → String → List UInt8 × error
  Join : List String → String
  BaseDir : String
  HomeDir : String

/-- The `Error()` text of an error under `deps`. -/
def Deps.Error (deps : Deps σ) (e : GoError) : String :=
  GoError.Error deps.Quote deps.ErrorText e

/-- Embedding of `mcndirs.GetBaseDir`. -/
def GetBaseDir (deps : Deps σ) : String :=
  if deps.BaseDir = "" then deps.Join [deps.HomeDir, ".local", "machine"] else deps.BaseDir

/-- Embedding of `mcndirs.GetMachineDir`. -/
def GetMachineDir (deps : Deps σ) : String := deps.Join [GetBaseDir deps, "machines"]

/-- Embedding of `mcndirs.GetMachineCertDir`. -/
def GetMachineCertDir (deps : Deps σ) : String := deps.Join [GetBaseDir deps, "certs"]

/-- Embedding of `commands.errNoMachineName`. -/
def errNoMachineName : GoError := GoError.errorString "Error: No machine name specified"

/-- The call `c.ShowHelp()`, recorded in the trace. -/
def ShowHelp : Go σ P Unit := Go.log Event.ShowHelp

/-- Embedding of `removeRemoteMachine`. -/
def removeRemoteMachine (hostName : String) (api : libmachine.API σ) : Go σ P error := do
  let r ← api.callLoad hostName
  match r.2 with
  | some loaderr => pure (some loaderr)
  | none =>
    match r.1 with
    | none => Go.panic
    | some currentHost => drivers.Driver.call currentHost.Driver drivers.Verb.Remove

/-- Embedding of `removeLocalMachine`. -/
def removeLocalMachine (hostName : String) (api : libmachine.API σ) : Go σ P error := do
  let r ← api.callExists hostName
  if !r.1 then pure (some (GoError.errorString (hostName ++ " does not exist.")))
  else api.callRemove hostName

/-- Embedding of `collectError`; logging the message in force mode is not modelled. -/
def collectError (message : String) (_force : Bool) (errorOccurred : List String) :
    List String :=
  errorOccurred ++ [message]

/-- Embedding of `userConfirm`. -/
def userConfirm (deps : Deps σ) (confirm : Bool) (force : Bool) : Go σ P Bool :=
  if confirm || force then pure true
  else do
    Go.log Event.ConfirmInput
    let r ← Go.liftExt (deps.confirmInput "Are you sure?")
    match r.2 with
    | some _ => pure false
    | none => pure r.1

/-- The body of the loop of `cmdRm` for one host name. -/
def cmdRm.body (deps : Deps σ) (force : Bool) (api : libmachine.API σ) (hostName : String)
    (errorOccurred : List String) : Go σ P (List String) := do
  let err ← removeRemoteMachine hostName api
  let errorOccurred1 :=
    match err with
    | some e =>
      collectError ("Error removing host " ++ deps.Quote hostName ++ ": " ++ deps.Error e)
        force errorOccurred
    | none => errorOccurred
  if err = none || force then
    let removeErr ← removeLocalMachine hostName api
    match removeErr with
    | some _ => pure (collectError ("Can't remove \"" ++ hostName ++ "\"") force errorOccurred1)
    | none => pure errorOccurred1
  else pure errorOccurred1

/-- The loop `for _, hostName := range c.Args()` of `cmdRm`. -/
def cmdRm.loop (deps : Deps σ) (force : Bool) (api : libmachine.API σ) :
    List String → List String → Go σ P (List String)
  | [], errorOccurred => pure errorOccurred
  | hostName :: rest, errorOccurred => do
    let errorOccurred1 ← cmdRm.body deps force api hostName errorOccurred
    cmdRm.loop deps force api rest errorOccurred1

/-- Embedding of `cmdRm`. -/
def cmdRm (deps : Deps σ) (c : CommandLine) (api : libmachine.API σ) : Go σ P error :=
  if c.Args.length = 0 then do
    ShowHelp
    pure (some deps.ErrNoMachineSpecified)
  else do
    let force := c.BoolFlag "force"
    let confirm := c.BoolFlag "y"
    if !(← userConfirm deps confirm force) then pure none
    else do
      let errorOccurred ← cmdRm.loop deps force api c.Args []
      if errorOccurred.length > 0 && !force then
        pure (some (GoError.errorString (String.intercalate "\n" errorOccurred)))
      else pure none

/-- The assignment `m[key] = v` on a Go map kept as an association list. -/
def goMapSet {α : Type} (key : String) (v : α) : List (String × α) → List (String × α)
  | [] => [(key, v)]
  | (k, x) :: rest => if k = key then (key, v) :: rest else (k, x) :: goMapSet key v rest

/-- Embedding of `getDriverOpts`: the values of `rpcdriver.RPCFlags`. -/
def getDriverOpts (c : CommandLine) (mcnflags : List mcnflag.Flag) :
    List (String × mcnflag.FlagValue) :=
  let defaults := mcnflags.foldl
    (fun values f =>
      match f.default with
      | some v => goMapSet f.name v values
      | none => goMapSet f.name (mcnflag.FlagValue.bool false) values) []
  c.FlagNames.foldl
    (fun values name =>
      match c.Generic name with
      | some v => goMapSet name v values
      | none =>
        if c.IsSet name then goMapSet name (mcnflag.FlagValue.stringSlice (c.StringSlice name)) values
        else values) defaults

/-- Embedding of `tlsPath`. -/
def tlsPath (deps : Deps σ) (c : CommandLine) (flag : String) (defaultName : String) : String :=
  if c.GlobalString flag ≠ "" then c.GlobalString flag
  else deps.Join [GetMachineCertDir deps, defaultName]

/-- The `host.Options` that `cmdCreateInner` builds for machine `name`. -/
def createHostOptions (deps : Deps σ) (c : CommandLine) (name : String) : host.Options :=
  { Driver := ""
    Memory := 0
    Disk := 0
    AuthOptions := some
      { CertDir := GetMachineCertDir deps
        CaCertPath := tlsPath deps c "tls-ca-cert" "ca.pem"
        CaPrivateKeyPath := tlsPath deps c "tls-ca-key" "ca-key.pem"
        ClientCertPath := tlsPath deps c "tls-client-cert" "cert.pem"
        ClientKeyPath := tlsPath deps c "tls-client-key" "key.pem"
        ServerCertPath := deps.Join [GetMachineDir deps, name, "server.pem"]
        ServerKeyPath := deps.Join [GetMachineDir deps, name, "server-key.pem"]
        StorePath := deps.Join [GetMachineDir deps, name]
        ServerCertSANs := c.StringSlice "tls-san"
        CaCertRemotePath := ""
        ServerCertRemotePath := ""
        ServerKeyRemotePath := "" }
    EngineOptions := some
      { ArbitraryFlags := c.StringSlice "engine-opt"
        Env := c.StringSlice "engine-env"
        InsecureRegistry := c.StringSlice "engine-insecure-registry"
        Labels := c.StringSlice "engine-label"
        RegistryMirror := c.StringSlice "engine-registry-mirror"
        StorageDriver := c.StringFlag "engine-storage-driver"
        TLSVerify := true
        InstallURL := c.StringFlag "engine-install-url" } }

/-- The part of `cmdCreateInner` that follows the existence check: configure the
driver from the flags, create, save. -/
def cmdCreateInner.create (deps : Deps σ) (c : CommandLine) (api : libmachine.API σ)
    (h : host.Host σ) : Go σ P error := do
  let mcnFlags ← drivers.Driver.GetCreateFlags h.Driver
  let driverOpts := getDriverOpts c mcnFlags
  match (← drivers.Driver.SetConfigFromFlags h.Driver driverOpts) with
  | some err =>
    pure (some (GoError.errorString
      ("Error setting machine configuration from flags provided: " ++ deps.Error err)))
  | none =>
    match (← api.callCreate h) with
    | some err => pure (some (GoError.errorString ("Error performing create: " ++ deps.Error err)))
    | none =>
      match (← api.callSave h) with
      | some err =>
        pure (some (GoError.errorString ("Error attempting to save store: " ++ deps.Error err)))
      | none => pure none

/-- The part of `cmdCreateInner` that follows the validation of the name: marshal the
bare driver data, obtain the host, set its options, check that it does not exist. -/
def cmdCreateInner.newHost (deps : Deps σ) (c : CommandLine) (api : libmachine.API σ)
    (name : String) : Go σ P error :=
  match deps.Marshal name (c.GlobalString "storage-path") with
  | (_, some err) =>
    pure (some (GoError.errorString
      ("Error attempting to marshal bare driver data: " ++ deps.Error err)))
  | (rawDriver, none) => do
    let driverName := c.StringFlag "driver"
    let r ← api.callNewHost driverName rawDriver
    match r.2 with
    | some err => pure (some (GoError.errorString ("Error getting new host: " ++ deps.Error err)))
    | none =>
      match r.1 with
      | none => Go.panic
      | some h0 =>
        let h : host.Host σ := { h0 with HostOptions := some (createHostOptions deps c name) }
        let ex ← api.callExists h.Name
        match ex.2 with
        | some err =>
          pure (some (GoError.errorString ("Error checking if host exists: " ++ deps.Error err)))
        | none =>
          if ex.1 then pure (some (GoError.ErrHostAlreadyExists h.Name))
          else cmdCreateInner.create deps c api h

/-- Embedding of `cmdCreateInner`. -/
def cmdCreateInner (deps : Deps σ) (c : CommandLine) (api : libmachine.API σ) : Go σ P error :=
  if c.Args.length > 1 then
    pure (some (GoError.errorString
      ("Invalid command line. Found extra arguments " ++ deps.FormatV (c.Args.drop 1))))
  else
    let name := c.Args.headD ""
    if name = "" then do
      ShowHelp
      pure (some errNoMachineName)
    else
      let validName := host.ValidateHostName name
      if !validName then
        pure (some (GoError.errorString
          ("Error creating machine: " ++ deps.Error mcnerror.ErrInvalidHostname)))
      else cmdCreateInner.newHost deps c api name

end commands

/-! ## String helpers of the standard library, the ISO version and the flag lookup

A Go string is embedded as a Lean string, taken to be valid UTF-8. In `version` a
position counts characters: the text searched for is ASCII, so the slice taken at the
position found by the search is the slice Go takes at the corresponding byte position.
In `flagHackLookup` the slice `flagName[1:3]` is taken at fixed byte positions and need
not be the encoding of a text: it is kept as its bytes (numbers below 256), and the
tests made on it compare the bytes of their arguments. -/

namespace strings

/-- The first position at which `substr` starts in `s`, if any. -/
def indexOf (substr : List Char) : List Char → Option Nat
  | [] => if substr = [] then some 0 else none
  | c :: cs =>
    if substr.isPrefixOf (c :: cs) then some 0
    else (indexOf substr cs).map (· + 1)

/-- Model of `strings.Index` of the Go standard library: the index of the first
instance of `substr` in `s`, or -1 if `substr` is not present in `s`. -/
def Index (s substr : String) : Int :=
  match indexOf substr.toList s.toList with
  | some i => i
  | none => -1

/-- Model of `strings.Contains`, on the bytes of its arguments: whether `substr`
occurs within `s`. -/
def Contains (s substr : List Nat) : Bool :=
  match s with
  | [] => substr.isEmpty
  | b :: bs => substr.isPrefixOf (b :: bs) || Contains bs substr

/-- Model of `strings.HasPrefix`, on the bytes of its arguments. -/
def HasPrefix (s pre : List Nat) : Bool := pre.isPrefixOf s

/-- The pieces of `s` between the instances of a non-empty separator; `skip` characters
of an instance just found are still to be passed over, `piece` is the piece so far. -/
def splitLoop (sep : List Char) : List Char → Nat → List Char → List (List Char)
  | [], _, piece => [piece]
  | _ :: cs, skip + 1, piece => splitLoop sep cs skip piece
  | c :: cs, 0, piece =>
    if sep.isPrefixOf (c :: cs) then piece :: splitLoop sep cs (sep.length - 1) []
    else splitLoop sep cs 0 (piece ++ [c])

/-- Model of `strings.Split` of the Go standard library: the substrings of `s`
separated by `sep`; with an empty `sep`, the characters of `s`. -/
def Split (s sep : String) : List String :=
  if sep.toList = [] then s.toList.map fun c => String.mk [c]
  else (splitLoop sep.toList s.toList 0 []).map String.mk

end strings

/-- The slice expression `s[i:]`; out of range is a run-time panic (`none`). -/
def goSliceFrom (s : String) (i : Int) : Option String :=
  if 0 ≤ i ∧ i ≤ s.length then some (String.mk (s.toList.drop i.toNat)) else none

/-- The bytes of a character in UTF-8, the encoding of the text of a Go string. -/
def utf8Bytes (c : Char) : List Nat :=
  if c.toNat < 0x80 then [c.toNat]
  else if c.toNat < 0x800 then [0xC0 + c.toNat / 0x40, 0x80 + c.toNat % 0x40]
  else if c.toNat < 0x10000 then
    [0xE0 + c.toNat / 0x1000, 0x80 + c.toNat / 0x40 % 0x40, 0x80 + c.toNat % 0x40]
  else
    [0xF0 + c.toNat / 0x40000, 0x80 + c.toNat / 0x1000 % 0x40, 0x80 + c.toNat / 0x40 % 0x40,
      0x80 + c.toNat % 0x40]

/-- The bytes of a text in UTF-8. -/
def utf8 (l : List Char) : List Nat := (l.map utf8Bytes).flatten

/-- The bytes of the Go string holding the text `s`; `len(s)` is their number. -/
def goBytes (s : String) : List Nat := utf8 s.toList

/-- The slice expression `s[i:j]`: the bytes of `s` from byte position `i` up to byte
position `j`, whether or not they encode a text; out of range (`j` beyond `len(s)`, or
`i` beyond `j`) is a run-time panic (`none`). -/
def goSlice (s : String) (i j : Nat) : Option (List Nat) :=
  if i ≤ j ∧ j ≤ (goBytes s).length then some (((goBytes s).take j).drop i) else none

namespace mcnutils

/-- Embedding of the constant `versionPrefix`. -/
def versionPrefix : String := "-v"

/-- Embedding of `b2pISO`. -/
structure b2pISO where
  commonIsoPath : String
  volumeIDOffset : Int
  volumeIDLength : Int
  deriving DecidableEq, Repr

/-- What `version` uses of the standard library, taken as parameters: `os.Open` on the
file system at the time of the call, `(*os.File).ReadAt` for a buffer of the given
length at the given offset (the bytes read, as the Go string `string(isoMetadata)`;
an error when fewer bytes than the buffer holds could be read), and
`strings.TrimSpace`. -/
structure FileDeps (File : Type) where
  Open : String → Except GoError File
  ReadAt : File → Nat → Int → Except GoError String
  TrimSpace : String → String

/-- Embedding of `(*b2pISO).version`; `none` is a run-time panic (a negative buffer
length, a slice out of range). The text between the quotes of the error message is
`versionPrefix` as `%q` prints it. -/
def b2pISO.version {File : Type} (deps : FileDeps File) (b : Option b2pISO) :
    Option (String × error) :=
  match b with
  | none => some ("", none)
  | some b =>
    match deps.Open b.commonIsoPath with
    | .error err => some ("", some err)
    | .ok iso =>
      if b.volumeIDLength < 0 then none
      else
        match deps.ReadAt iso b.volumeIDLength.toNat b.volumeIDOffset with
        | .error err => some ("", some err)
        | .ok isoMetadata =>
          let trimmedVersion := deps.TrimSpace isoMetadata
          let versionIndex := strings.Index trimmedVersion versionPrefix
          if versionIndex = -1 then
            some ("", some (GoError.errorString
              "Did not find prefix \"-v\" in version string"))
          else
            match goSliceFrom trimmedVersion (versionIndex + 1) with
            | none => none
            | some vers => some (vers, none)

end mcnutils

namespace commands

/-- The loop of `flagHackLookup` over `os.Args`, from argument `arg` on: `rest` holds
the arguments after it, so `i+1 < len(os.Args)` is `rest ≠ []` and `os.Args[i+1]` its
head. `flagPrefix` is the byte slice `flagName[1:3]`; `arg == flagPrefix` compares the
bytes of `arg` with it and `flagPrefix+"="` appends the byte of `=`. Indexing the split
at 1 out of range is a run-time panic (`none`). -/
def flagHackLookup.loop (flagPrefix : List Nat) (flagName : String) :
    List String → Option String
  | [] => some ""
  | arg :: rest =>
    if strings.Contains (goBytes arg) flagPrefix then
      match (if goBytes arg = flagPrefix || arg = flagName then rest.head? else none) with
      | some next => some next
      | none =>
        if strings.HasPrefix (goBytes arg) (flagPrefix ++ goBytes "=") ||
            strings.HasPrefix (goBytes arg) (goBytes (flagName ++ "=")) then
          (strings.Split arg "=").get? 1
        else flagHackLookup.loop flagPrefix flagName rest
    else flagHackLookup.loop flagPrefix flagName rest

/-- Embedding of `flagHackLookup`, over the process arguments `osArgs`. -/
def flagHackLookup (osArgs : List String) (flagName : String) : Option String :=
  match goSlice flagName 1 3 with
  | none => none
  | some flagPrefix => flagHackLookup.loop flagPrefix flagName osArgs

end commands

/-! ## Concurrent calls through the serial wrapper -/

namespace serial

variable {σ ι : Type}

/-- How far a capability call made by one of several concurrent callers has got. -/
inductive Phase
  | idle
  | holding
  | running
  | finished (result : error)
  | returned (result : error)
  deriving DecidableEq, Repr

/-- The phases in which a call through the serial wrapper owns the lock. -/
def Phase.holds : Phase → Bool
  | .holding => true
  | .running => true
  | .finished _ => true
  | _ => false

/-- A capability call: the driver value it is made on and the method of the capability
set it invokes, given as what that method does on the driver the call reaches. -/
structure Call (σ : Type) where
  driver : drivers.Driver σ
  method : drivers.Driver σ → σ → error × σ

/-- The process while several callers, indexed by `ι`, each make one call: the external
state, the caller that owns the lock of the serial wrapper, if any, and the phase of
each call. -/
structure System (σ ι : Type) where
  ext : σ
  lock : Option ι
  phase : ι → Phase

/-- Before any call has started: the lock is free. -/
def start (s0 : σ) : System σ ι :=
  { ext := s0, lock := none, phase := fun _ => Phase.idle }

/-- Modelled from the spec: `drivers.SerialDriver` and its lock are not under src/. Per
§4.2 every capability method of the wrapper acquires a single lock shared by every
wrapped instance (not per instance) before delegating to the inner driver, and releases
it unconditionally on return, including on error. One step of caller `i`: through the
wrapper the call acquires the lock when it is free (and otherwise stays blocked), enters
the inner driver's method, leaves it with its result, then releases the lock and returns
that result; on any other driver the call enters the method and returns from it. The
underlying driver call is executing in phase `running`. -/
def advance [DecidableEq ι] (calls : ι → Call σ) (i : ι) (s : System σ ι) : System σ ι :=
  match (calls i).driver with
  | .serial inner =>
    match s.phase i with
    | .idle =>
      if s.lock = none then
        { s with lock := some i, phase := Function.update s.phase i Phase.holding }
      else s
    | .holding => { s with phase := Function.update s.phase i Phase.running }
    | .running =>
      { s with
        ext := ((calls i).method inner s.ext).2
        phase := Function.update s.phase i (Phase.finished ((calls i).method inner s.ext).1) }
    | .finished r => { s with lock := none, phase := Function.update s.phase i (Phase.returned r) }
    | .returned _ => s
  | d =>
    match s.phase i with
    | .idle => { s with phase := Function.update s.phase i Phase.running }
    | .running =>
      { s with
        ext := ((calls i).method d s.ext).2
        phase := Function.update s.phase i (Phase.returned ((calls i).method d s.ext).1) }
    | _ => s

/-- The process after the callers took steps in the order of `schedule`. -/
def run [DecidableEq ι] (calls : ι → Call σ) (schedule : List ι) (s : System σ ι) : System σ ι :=
  schedule.foldl (fun s i => advance calls i s) s

end serial

/-- A driver value that is a serial wrapper. -/
def drivers.Driver.isSerial {σ : Type} : drivers.Driver σ → Bool
  | .serial _ => true
  | _ => false

/-! ## Fixtures: the fake driver, detector and provisioners of the test suite -/

namespace fixture

/-- The fake driver of the tests (`fakedriver.Driver`): the external state is its
`MockState`; every primitive succeeds and sets the state it stands for. -/
def fakedriver : drivers.DriverOps state.State where
  DriverName := fun _ => "Driver"
  GetMachineName := fun _ => "fake"
  GetState := fun s => ((s, none), s)
  Start := fun _ => (none, state.State.Running)
  Stop := fun _ => (none, state.State.Stopped)
  Kill := fun _ => (none, state.State.Stopped)
  Restart := fun _ => (none, state.State.Running)
  Remove := fun s => (none, s)
  Create := fun s => (none, s)
  PreCreateCheck := fun s => (none, s)

/-- A provisioner object in the manner of the generic one: the distribution id it
was built for and the injected os-release info. -/
structure Prov where
  OsReleaseID : String
  OsReleaseInfo : Option provision.OsRelease
  deriving DecidableEq, Repr

/-- Methods of the fixture provisioner: compatible when the injected `ID` is its own. -/
def methods : provision.ProvisionerMethods state.State Prov where
  SetOsReleaseInfo := fun info p => { p with OsReleaseInfo := some info }
  CompatibleWithHost := fun p =>
    match p.OsReleaseInfo with
    | some info => info.ID == p.OsReleaseID
    | none => false
  Package := fun _ _ _ s => (none, s)

/-- The os-release record with a given `ID`. -/
def osRelease (id : String) : provision.OsRelease :=
  { Name := "", Version := "", ID := id, IDLike := "", PrettyName := "", VersionID := "" }

/-- An environment in which the command channel is reachable, the guest reports
`ID=fedora`, the guest wait returns `guestWait`, and a state wait polls `n` times. -/
def env (n : Nat) (guestWait : error) : Env state.State Prov where
  maxAttempts := n
  ErrWaitTimeout := GoError.errorString "Maximum number of retries exceeded"
  WaitForSSH := fun _ s => (none, s)
  RunSSHCommandFromDriver := fun _ _ s => (("ID=fedora", none), s)
  NewOsRelease := fun out =>
    if out = "ID=fedora" then .ok (osRelease "fedora") else .error (GoError.errorString "parse")
  WaitForPodman := fun _ s => (guestWait, s)
  methods := methods
  rangeOrder := fun l => l
  ErrorText := fun _ => "error"
  ConfigVersion := 3
  DefaultEngineInstallURL := ""
  Join := fun a b => a ++ "/" ++ b

/-- A registry entry building a fixture provisioner for a distribution id. -/
def entry (key id : String) : String × provision.RegisteredProvisioner state.State Prov :=
  (key, { New := fun _ => { OsReleaseID := id, OsReleaseInfo := none } })

/-- A world: the machine in state `s`, an empty trace, detector `det` installed and
the Centos and Fedora provisioners registered. -/
def world (s : state.State) (det : provision.Detector state.State Prov) :
    World state.State Prov :=
  { ext := s, trace := [], detector := det,
    provisioners := [entry "Centos" "centos", entry "Fedora" "fedora"] }

/-- A host on driver `ops`. -/
def hostOn (name : String) (ops : drivers.DriverOps state.State) : host.Host state.State :=
  { ConfigVersion := 3, Driver := some (drivers.Driver.backend ops), DriverName := "fakedriver",
    HostOptions := none, Name := name, RawDriver := [] }

/-- The detector the tests install: it always hands out one fixed provisioner. -/
def fakeDetector : provision.Detector state.State Prov :=
  provision.Detector.FakeDetector (some { OsReleaseID := "fake", OsReleaseInfo := none })

/-- A client whose store holds, under every name, a host of the driver family of that
name, and whose factory resolves the families "virtualbox" and "fakedriver" to the fake
driver, fails the handshake of "broken", and finds no plugin binary for any other. -/
def client : libmachine.Client state.State where
  certsDir := "/certs"
  IsDebug := false
  GithubAPIToken := ""
  GetMachinesDir := "/machines"
  FilestoreLoad := fun name s =>
    (.ok { ConfigVersion := 3, Driver := none, DriverName := name, HostOptions := none,
           Name := name, RawDriver := [] }, s)
  NewRPCClientDriver := fun driverName _ s =>
    if driverName = "virtualbox" ∨ driverName = "fakedriver" then (.ok fakedriver, s)
    else if driverName = "broken" then (.error (GoError.errorString "handshake failed"), s)
    else (.error (GoError.ErrPluginBinaryNotFound driverName "podman-machine-driver"), s)

/-- The host the fixture store holds under `name`. -/
def stored (name : String) : host.Host state.State :=
  { ConfigVersion := 3, Driver := none, DriverName := name, HostOptions := none,
    Name := name, RawDriver := [] }

/-- The environment `env n none` with an unreachable command channel. -/
def envUnreachable (n : Nat) : Env state.State Prov :=
  { env n none with
    WaitForSSH := fun _ s => (some (GoError.errorString "ssh unreachable"), s) }

/-- Quoting of a string without special characters. -/
def quote (s : String) : String := "\"" ++ s ++ "\""

/-- A systemd provisioner on the fake driver with storage driver "overlay2", the
label "a" and the arbitrary flag "x"; its commander fails every command whose text
is `failing`. -/
def systemd (failing : String) : provision.SystemdProvisioner state.State :=
  { provision.NewSystemdProvisioner "fedora" (some (drivers.Driver.backend fakedriver)) with
    SSHCommander := provision.SSHCommanderImpl.custom fun args s =>
      if args = failing then (("", some (GoError.errorString "exit status 1")), s)
      else (("", none), s)
    DaemonOptionsFile := "/etc/systemd/system/podman.service.d/10-machine.conf"
    EngineOptions :=
      { provision.zeroEngineOptions with
        StorageDriver := "overlay2"
        Labels := ["a"]
        ArbitraryFlags := ["x"] } }

/-- The action names of the service manager. -/
def actionString : serviceaction.ServiceAction → String
  | .Restart => "restart"
  | .Start => "start"
  | .Stop => "stop"
  | .Enable => "enable"
  | .Disable => "disable"
  | .DaemonReload => "daemon-reload"

/-- A driver over a local store of host names; its `Remove` fails when `fails`. -/
def storeDriver (fails : Bool) : drivers.DriverOps (List String) where
  DriverName := fun _ => "Driver"
  GetMachineName := fun _ => "fake"
  GetState := fun s => ((state.State.Running, none), s)
  Start := fun s => (none, s)
  Stop := fun s => (none, s)
  Kill := fun s => (none, s)
  Restart := fun s => (none, s)
  Remove := fun s =>
    (if fails then some (GoError.errorString "remote removal failed") else none, s)
  Create := fun s => (none, s)
  PreCreateCheck := fun s => (none, s)

/-- The host the fixture store holds under `name`; the remote removal of the host
named "A" fails. -/
def storeHost (name : String) : host.Host (List String) :=
  { ConfigVersion := 3, Driver := some (drivers.Driver.backend (storeDriver (name == "A"))),
    DriverName := "fakedriver", HostOptions := none, Name := name, RawDriver := [] }

/-- An API over a local store that is the list of the names it holds, in the manner
of the fake API of the tests. -/
def api : libmachine.API (List String) where
  NewHost := fun _ _ s => ((some (storeHost "new"), none), s)
  Create := fun _ s => (none, s)
  Load := fun name s =>
    if name ∈ s then ((some (storeHost name), none), s)
    else ((none, some (GoError.ErrHostDoesNotExist name)), s)
  Save := fun h s => (none, if h.Name ∈ s then s else s ++ [h.Name])
  Exists := fun name s => ((decide (name ∈ s), none), s)
  Remove := fun name s => (none, s.filter fun n => n != name)
  GetMachinesDir := "/store/machines"

/-- The collaborators of the commands, with a user who confirms. -/
def deps : commands.Deps (List String) where
  ErrorText := fun _ => "error"
  Quote := quote
  FormatV := fun l => "[" ++ String.intercalate " " l ++ "]"
  confirmInput := fun _ s => ((true, none), s)
  ErrNoMachineSpecified :=
    GoError.errorString "Error: Expected to get one or more machine names as arguments"
  Marshal := fun _ _ => ([], none)
  Join := fun l => String.intercalate "/" l
  BaseDir := "/store"
  HomeDir := "/home/user"

/-- A command line with positional arguments `args` and the flags `force` and `y`. -/
def commandLine (args : List String) (force : Bool) (confirm : Bool) : commands.CommandLine where
  Args := args
  BoolFlag := fun name => if name = "force" then force else if name = "y" then confirm else false
  StringFlag := fun name => if name = "driver" then "fakedriver" else ""
  GlobalString := fun _ => ""
  StringSlice := fun _ => []
  FlagNames := []
  Generic := fun _ => none
  IsSet := fun _ => false

/-- A world over a local store holding `names`. -/
def storeWorld (names : List String) : World (List String) Prov :=
  { ext := names, trace := [], detector := provision.Detector.FakeDetector none,
    provisioners := [] }

/-- Strip the leading and trailing spaces of a text. -/
def trimSpaces (s : String) : String :=
  String.mk ((s.toList.dropWhile (· == ' ')).reverse.dropWhile (· == ' ')).reverse

/-- A file system holding one ISO whose volume ID is `Boot2Podman-v0.1.0`, padded
with spaces to 32 bytes. -/
def isoFiles : mcnutils.FileDeps Unit where
  Open := fun path =>
    if path = "/cache/boot2podman.iso" then .ok ()
    else .error (GoError.errorString "no such file or directory")
  ReadAt := fun _ n off =>
    if n = 32 ∧ off = 0x8028 then .ok "Boot2Podman-v0.1.0              "
    else .error (GoError.errorString "EOF")
  TrimSpace := trimSpaces

/-- The ISO of the fixture file system, with the default offset and length. -/
def iso : mcnutils.b2pISO :=
  { commonIsoPath := "/cache/boot2podman.iso", volumeIDOffset := 0x8028, volumeIDLength := 32 }

/-- The API over a local store that cannot remove an entry (a read-only medium):
`Remove` fails and leaves the store as it was. -/
def apiReadOnly : libmachine.API (List String) :=
  { api with Remove := fun _ s => (some (GoError.errorString "read-only file system"), s) }

/-- The collaborators of the commands, with a user who declines. -/
def depsDeclining : commands.Deps (List String) :=
  { deps with confirmInput := fun _ s => ((false, none), s) }

/-- The fake driver with a pre-create check that fails. -/
def precheckFailing : drivers.DriverOps state.State :=
  { fakedriver with
    PreCreateCheck := fun s => (some (GoError.errorString "VT-x is not available"), s) }

/-- A client whose store holds, under every name, a host of the family "virtualbox". -/
def vboxClient : libmachine.Client state.State :=
  { client with
    FilestoreLoad := fun name s =>
      (.ok { ConfigVersion := 3, Driver := none, DriverName := "virtualbox", HostOptions := none,
             Name := name, RawDriver := [] }, s) }

/-- The host the client `vboxClient` loads under `name`. -/
def vboxHost (name : String) : host.Host state.State :=
  { ConfigVersion := 3
    Driver := some (drivers.Driver.serial (drivers.Driver.backend fakedriver))
    DriverName := "virtualbox", HostOptions := none, Name := name, RawDriver := [] }

end fixture

/-! ## Worlds reached by a run, poll traces and trace frames -/

section RunDefs

variable {σ P α β : Type}

/-- The world after a state query of driver `d`. -/
def World.afterGetState (d : drivers.Driver σ) (w : World σ P) : World σ P :=
  { w with ext := (d.getState w.ext).2,
           trace := w.trace ++ [Event.GetState (d.getState w.ext).1.1] }

/-- The world after primitive `v` of driver `d`. -/
def World.afterPrim (d : drivers.Driver σ) (v : drivers.Verb) (w : World σ P) : World σ P :=
  { w with ext := (d.prim v w.ext).2, trace := w.trace ++ [v.event] }

/-- States reported by the polls of a wait for `t` that has `n` attempts left and
starts in external state `s`: polling stops at the first report of `t`. -/
def drivers.pollTrace (d : drivers.Driver σ) (t : state.State) : Nat → σ → List state.State
  | 0, _ => []
  | n + 1, s =>
    if (d.getState s).1.1 = t then [(d.getState s).1.1]
    else (d.getState s).1.1 :: drivers.pollTrace d t n (d.getState s).2

/-- The external state such a wait leaves. -/
def drivers.pollExt (d : drivers.Driver σ) (t : state.State) : Nat → σ → σ
  | 0, s => s
  | n + 1, s =>
    if (d.getState s).1.1 = t then (d.getState s).2
    else drivers.pollExt d t n (d.getState s).2

/-- The world after a wait for `t` with `n` attempts. -/
def World.afterWait (d : drivers.Driver σ) (t : state.State) (n : Nat) (w : World σ P) :
    World σ P :=
  { w with ext := drivers.pollExt d t n w.ext,
           trace := w.trace ++ (drivers.pollTrace d t n w.ext).map Event.GetState }

/-- Events of provisioner detection and of the guest wait. -/
def Event.isGuest : Event → Bool
  | .DetectProvisioner => true
  | .WaitForPodman => true
  | .WaitForSSH => true
  | .SSHCommand _ => true
  | _ => false

/-- State-query events. -/
def Event.isGetState : Event → Bool
  | .GetState _ => true
  | _ => false

/-- Package-action events. -/
def Event.isPackage : Event → Bool
  | .Package _ _ => true
  | _ => false

/-- The code `x` always returns, appends to the trace only events satisfying `ok`,
and leaves the installed detector and the registry alone. -/
def Go.Appends (ok : Event → Prop) (x : Go σ P α) : Prop :=
  ∀ w, ∃ a w' evs, x w = some (a, w') ∧ w'.trace = w.trace ++ evs ∧ (∀ e ∈ evs, ok e) ∧
    w'.detector = w.detector ∧ w'.provisioners = w.provisioners

/-- Between world `w` and the later world `w'` no package action was performed: the
trace grew by events none of which is a package action. -/
def World.NoPackageSince (w w' : World σ P) : Prop :=
  ∃ evs, w'.trace = w.trace ++ evs ∧ ∀ e ∈ evs, e.isPackage = false

/-- The world in which `Host.Upgrade` runs detection, given that the state query at
`w` returned no error: the world after the query when it reported Running, otherwise
the world in which `Host.Start`, run after the query, returned nil. -/
def host.Host.UpgradeReadyAt (env : Env σ P) (h : host.Host σ) (d : drivers.Driver σ)
    (w w1 : World σ P) : Prop :=
  ((d.getState w.ext).1.1 = state.State.Running ∧ w1 = w.afterGetState d) ∨
  ((d.getState w.ext).1.1 ≠ state.State.Running ∧
    h.Start env (w.afterGetState d) = some (none, w1))

/-- The provisioner the standard detector tries for a registry entry: the entry's
factory applied to the driver, with the parsed os-release info injected. -/
def provision.candidate (m : provision.ProvisionerMethods σ P) (d : Option (drivers.Driver σ))
    (info : provision.OsRelease) (e : String × provision.RegisteredProvisioner σ P) : P :=
  m.SetOsReleaseInfo info (e.2.New d)

/-- Whether the candidate of a registry entry reports `CompatibleWithHost`. -/
def provision.compatible (m : provision.ProvisionerMethods σ P) (d : Option (drivers.Driver σ))
    (info : provision.OsRelease) (e : String × provision.RegisteredProvisioner σ P) : Bool :=
  m.CompatibleWithHost (provision.candidate m d info e)

/-- The three stages that precede the registry loop of the standard detector all
succeed at world `w`: the command channel is reachable, `cat /etc/os-release` runs,
and its output parses. -/
def provision.StagesSucceed (env : Env σ P) (d : Option (drivers.Driver σ)) (w : World σ P) :
    Prop :=
  ∃ s1 out s2 info, env.WaitForSSH d w.ext = (none, s1) ∧
    env.RunSSHCommandFromDriver d "cat /etc/os-release" s1 = ((out, none), s2) ∧
    env.NewOsRelease out = Except.ok info

/-- The flag line as the specification words it, item by item: the storage driver,
`--tlsverify`, the three certificate paths, then one `--label` per label, one
`--insecure-registry` per insecure registry, one `--registry-mirror` per mirror and one
`--<flag>` per arbitrary flag, each in list order. -/
def provision.flagItems (a : auth.Options) (e : engine.Options) : List String :=
  ["--storage-driver " ++ e.StorageDriver, "--tlsverify",
   "--tlscacert " ++ a.CaCertRemotePath, "--tlscert " ++ a.ServerCertRemotePath,
   "--tlskey " ++ a.ServerKeyRemotePath] ++
  e.Labels.map (fun l => "--label " ++ l) ++
  e.InsecureRegistry.map (fun r => "--insecure-registry " ++ r) ++
  e.RegistryMirror.map (fun m => "--registry-mirror " ++ m) ++
  e.ArbitraryFlags.map (fun f => "--" ++ f)

/-- The rendered configuration as the specification words it: the flag line, each
item followed by a space, then the line `Environment=` listing each environment entry
Go-quoted and followed by a space. -/
def provision.engineConfigSpec (quote : String → String) (a : auth.Options)
    (e : engine.Options) : String :=
  String.join ((provision.flagItems a e).map fun item => item ++ " ") ++
  "\nEnvironment=" ++
  String.join (e.Env.map fun v => quote v ++ " ") ++
  "\n"

/-- What the commander of provisioner `p` does with a command, on the external state. -/
def provision.GenericProvisioner.runCommand (env : Env σ P) (p : provision.GenericProvisioner σ)
    (args : String) (s : σ) : (String × error) × σ :=
  match p.SSHCommander with
  | .GenericSSHCommander d => env.RunSSHCommandFromDriver d args s
  | .custom run => run args s

/-- The actions before which the systemd provisioner reloads the daemon. -/
def serviceaction.ServiceAction.needsReload : serviceaction.ServiceAction → Bool
  | .Start => true
  | .Restart => true
  | _ => false

/-- What `cmdRm` did for one host name: the result of the remote removal, and the
result of the local removal when it was attempted (`none` when it was not). -/
structure commands.RmRecord where
  name : String
  remote : error
  localRemoval : Option error
  deriving DecidableEq, Repr

/-- The run of the loop of `cmdRm` with its bookkeeping replaced by a record per host:
the same calls in the same order, remembering their results instead of collecting
messages. -/
def commands.rmRecords (force : Bool) (api : libmachine.API σ) :
    List String → Go σ P (List commands.RmRecord)
  | [] => pure []
  | hostName :: rest => do
    let err ← commands.removeRemoteMachine hostName api
    if err = none || force then
      let removeErr ← commands.removeLocalMachine hostName api
      let recs ← commands.rmRecords force api rest
      pure ({ name := hostName, remote := err, localRemoval := some removeErr } :: recs)
    else
      let recs ← commands.rmRecords force api rest
      pure ({ name := hostName, remote := err, localRemoval := none } :: recs)

/-- The failure messages of one host, as the specification words them: a failed remote
removal with error `e` contributes `Error removing host "n": e`, a failed local removal
contributes `Can't remove "n"`. -/
def commands.RmRecord.messages (deps : commands.Deps σ) (r : commands.RmRecord) : List String :=
  (match r.remote with
    | some e => ["Error removing host " ++ deps.Quote r.name ++ ": " ++ deps.Error e]
    | none => []) ++
  (match r.localRemoval with
    | some (some _) => ["Can't remove \"" ++ r.name ++ "\""]
    | _ => [])

/-- A host whose removal raised no failure: the remote removal succeeded and the local
removal was attempted and succeeded. -/
def commands.RmRecord.clean (r : commands.RmRecord) : Prop :=
  r.remote = none ∧ r.localRemoval = some none

/-- An API whose `Load`, when it returns no error, returns a host with a driver. -/
def libmachine.API.LoadsLive (api : libmachine.API σ) : Prop :=
  ∀ name s, (api.Load name s).1.2 = none →
    ∃ h d, (api.Load name s).1.1 = some h ∧ h.Driver = some d

/-- The message list after the local removal of host `n` returned `l`. -/
def commands.withLocalFailure (n : String) (l : error) (msgs : List String) : List String :=
  match l with
  | some _ => msgs ++ ["Can't remove \"" ++ n ++ "\""]
  | none => msgs

/-- The message list after the remote removal of host `n` returned `r`. -/
def commands.withRemoteFailure (deps : commands.Deps σ) (n : String) (r : error)
    (msgs : List String) : List String :=
  match r with
  | some e => msgs ++ ["Error removing host " ++ deps.Quote n ++ ": " ++ deps.Error e]
  | none => msgs

/-- An ASCII letter, by code point. -/
def host.isAsciiLetter (c : Char) : Prop := ('a' ≤ c ∧ c ≤ 'z') ∨ ('A' ≤ c ∧ c ≤ 'Z')

/-- An ASCII digit, by code point. -/
def host.isAsciiDigit (c : Char) : Prop := '0' ≤ c ∧ c ≤ '9'

/-- The alphabet the message of `ErrInvalidHostname` lists: `0-9a-zA-Z . -`. -/
def host.InAlphabet (c : Char) : Prop :=
  host.isAsciiLetter c ∨ host.isAsciiDigit c ∨ c = '-' ∨ c = '.'

/-- A readable ISO: the file opens and the volume ID is read in full, as `text`. -/
def mcnutils.b2pISO.Readable {File : Type} (deps : mcnutils.FileDeps File) (b : mcnutils.b2pISO) (text : String) : Prop :=
  ∃ iso, deps.Open b.commonIsoPath = .ok iso ∧ 0 ≤ b.volumeIDLength ∧
    deps.ReadAt iso b.volumeIDLength.toNat b.volumeIDOffset = .ok text

/-- The text of `s` between its first and its second `=` (to the end when there is no
second one). -/
def commands.betweenEquals (s : String) : String :=
  String.mk (((s.toList.dropWhile (· ≠ '=')).drop 1).takeWhile (· ≠ '='))

/-- The lookup of the driver name as the specification words it: scanning in order,
the first argument that equals `-d` or `--driver` and has a following argument, or that
starts with `-d=` or `--driver=`, decides the result. -/
def commands.driverLookupSpec : List String → String
  | [] => ""
  | arg :: rest =>
    if (arg = "-d" ∨ arg = "--driver") ∧ rest ≠ [] then rest.headD ""
    else if "-d=".toList <+: arg.toList ∨ "--driver=".toList <+: arg.toList then commands.betweenEquals arg
    else commands.driverLookupSpec rest

/-- Events of the command channel to the guest. -/
def Event.isChannel : Event → Bool
  | .WaitForSSH => true
  | .SSHCommand _ => true
  | _ => false

/-- The rendered configuration up to and including the labels of `e`. -/
def provision.engineConfigHead (a : auth.Options) (e : engine.Options) : String :=
  "--storage-driver " ++ e.StorageDriver ++
  " --tlsverify --tlscacert " ++ a.CaCertRemotePath ++
  " --tlscert " ++ a.ServerCertRemotePath ++
  " --tlskey " ++ a.ServerKeyRemotePath ++ " " ++
  String.join (e.Labels.map fun l => "--label " ++ l ++ " ")

/-- The rendered configuration after the labels. -/
def provision.engineConfigTail (quote : String → String) (e : engine.Options) : String :=
  String.join (e.InsecureRegistry.map fun r => "--insecure-registry " ++ r ++ " ") ++
  String.join (e.RegistryMirror.map fun m => "--registry-mirror " ++ m ++ " ") ++
  String.join (e.ArbitraryFlags.map fun f => "--" ++ f ++ " ") ++
  "\nEnvironment=" ++
  String.join (e.Env.map fun v => quote v ++ " ") ++
  "\n"

/-- The provisioner `p` with `k` more copies of `label` at the end of its labels. -/
def provision.SystemdProvisioner.withLabels (p : provision.SystemdProvisioner σ) (label : String)
    (k : Nat) : provision.SystemdProvisioner σ :=
  { p with EngineOptions :=
      { p.EngineOptions with Labels := p.EngineOptions.Labels ++ List.replicate k label } }

/-- The provisioner after `k` successive calls of `GenerateEngineOptions`, each on the
provisioner the previous one left. -/
def provision.SystemdProvisioner.generated (quote : String → String) :
    Nat → provision.SystemdProvisioner σ → Go σ P (provision.SystemdProvisioner σ)
  | 0, p => pure p
  | k + 1, p => do
    let pk ← provision.SystemdProvisioner.generated quote k p
    let r ← pk.GenerateEngineOptions quote
    pure r.2

/-- Whenever the code `x` returns, the trace it leaves extends the trace it found. -/
def Go.Extends (x : Go σ P α) : Prop :=
  ∀ w a w', x w = some (a, w') → ∃ evs, w'.trace = w.trace ++ evs

/-- The lock discipline of the serial wrapper: the lock is owned by caller `i` exactly
when `i` calls through the wrapper and is between acquisition and release. -/
def serial.LockOwned {ι : Type} (calls : ι → serial.Call σ) (s : serial.System σ ι) : Prop :=
  ∀ i, s.lock = some i ↔ ((calls i).driver.isSerial = true ∧ (s.phase i).holds = true)

/-- Two concurrent calls, one on each of two drivers. -/
def serial.twoCalls (d1 d2 : drivers.Driver σ) (m1 m2 : drivers.Driver σ → σ → error × σ) :
    Bool → serial.Call σ
  | false => { driver := d1, method := m1 }
  | true => { driver := d2, method := m2 }

/-- A call that does not go through the wrapper is never in a phase of the lock
protocol. -/
def serial.DirectPhases {ι : Type} (calls : ι → serial.Call σ) (s : serial.System σ ι) : Prop :=
  ∀ i, (calls i).driver.isSerial = false →
    s.phase i ≠ serial.Phase.holding ∧ ∀ r, s.phase i ≠ serial.Phase.finished r

end RunDefs

/-! ## Running the embedded code -/

section Runs

variable {σ P α β : Type}

theorem Go.pure_run (a : α) (w : World σ P) : (pure a : Go σ P α) w = some (a, w) := rfl

theorem Go.bind_run (x : Go σ P α) (f : α → Go σ P β) (w : World σ P) :
    (x >>= f) w = match x w with
      | none => none
      | some (a, w') => f a w' := rfl

theorem drivers.MachineInState_run (d : drivers.Driver σ) (t : state.State) (w : World σ P) :
    drivers.MachineInState (some d) t w
      = some ((d.getState w.ext).1.1 == t, w.afterGetState d) := rfl

theorem drivers.Driver.GetState_run (d : drivers.Driver σ) (w : World σ P) :
    drivers.Driver.GetState (some d) w = some ((d.getState w.ext).1, w.afterGetState d) := rfl

theorem drivers.Driver.call_run (d : drivers.Driver σ) (v : drivers.Verb) (w : World σ P) :
    drivers.Driver.call (some d) v w = some ((d.prim v w.ext).1, w.afterPrim d v) := rfl

theorem host.Host.runActionForState_already (env : Env σ P) (h : host.Host σ)
    (d : drivers.Driver σ) (action : Go σ P error) (t : state.State) (w : World σ P)
    (hd : h.Driver = some d) (hs : (d.getState w.ext).1.1 = t) :
    h.runActionForState env action t w
      = some (some (GoError.ErrHostAlreadyInState h.Name t), w.afterGetState d) := by
  simp [host.Host.runActionForState, Go.bind_run, hd, drivers.MachineInState_run, hs, Go.pure_run]

theorem mcnutils.waitLoop_run (terr : GoError) (d : drivers.Driver σ) (t : state.State)
    (n : Nat) (w : World σ P) :
    mcnutils.waitLoop terr (drivers.MachineInState (some d) t) n w
      = some (if t ∈ drivers.pollTrace d t n w.ext then none else some terr,
              w.afterWait d t n) := by
  induction n generalizing w with
  | zero =>
    simp [mcnutils.waitLoop, Go.pure_run, drivers.pollTrace, World.afterWait, drivers.pollExt]
  | succ n ih =>
    by_cases hs : (d.getState w.ext).1.1 = t
    · simp [mcnutils.waitLoop, Go.bind_run, drivers.MachineInState_run, hs, Go.pure_run,
        drivers.pollTrace, World.afterWait, drivers.pollExt, World.afterGetState]
    · have hs' : ¬ t = (d.getState w.ext).1.1 := fun h => hs h.symm
      simp [mcnutils.waitLoop, Go.bind_run, drivers.MachineInState_run, hs, hs', Go.pure_run,
        drivers.pollTrace, World.afterWait, drivers.pollExt, World.afterGetState, ih]

theorem mcnutils.WaitFor_run (env : Env σ P) (d : drivers.Driver σ) (t : state.State)
    (w : World σ P) :
    mcnutils.WaitFor env (drivers.MachineInState (some d) t) w
      = some (if t ∈ drivers.pollTrace d t env.maxAttempts w.ext then none
              else some env.ErrWaitTimeout,
              w.afterWait d t env.maxAttempts) :=
  mcnutils.waitLoop_run env.ErrWaitTimeout d t env.maxAttempts w

theorem drivers.pollTrace_length_le (d : drivers.Driver σ) (t : state.State) (n : Nat) (s : σ) :
    (drivers.pollTrace d t n s).length ≤ n := by
  induction n generalizing s with
  | zero => simp [drivers.pollTrace]
  | succ n ih =>
    unfold drivers.pollTrace
    split
    · simp
    · simpa using ih _

theorem drivers.pollTrace_expired (d : drivers.Driver σ) (t : state.State) (n : Nat) (s : σ)
    (h : t ∉ drivers.pollTrace d t n s) : (drivers.pollTrace d t n s).length = n := by
  induction n generalizing s with
  | zero => simp [drivers.pollTrace]
  | succ n ih =>
    by_cases hs : (d.getState s).1.1 = t
    · simp [drivers.pollTrace, hs] at h
    · have hs' : ¬ t = (d.getState s).1.1 := fun e => hs e.symm
      simp [drivers.pollTrace, hs, hs'] at h
      simpa [drivers.pollTrace, hs] using ih _ h

theorem drivers.pollTrace_observed (d : drivers.Driver σ) (t : state.State) (n : Nat) (s : σ)
    (h : t ∈ drivers.pollTrace d t n s) : (drivers.pollTrace d t n s).getLast? = some t := by
  induction n generalizing s with
  | zero => simp [drivers.pollTrace] at h
  | succ n ih =>
    by_cases hs : (d.getState s).1.1 = t
    · simp [drivers.pollTrace, hs]
    · have hs' : ¬ t = (d.getState s).1.1 := fun e => hs e.symm
      simp [drivers.pollTrace, hs, hs'] at h
      have h1 := ih _ h
      simp only [drivers.pollTrace, hs, if_false]
      cases hl : drivers.pollTrace d t n (d.getState s).2 with
      | nil => rw [hl] at h; simp at h
      | cons a l => rw [hl] at h1; simpa [List.getLast?_cons_cons] using h1

theorem Go.Appends.pure (ok : Event → Prop) (a : α) : Go.Appends ok (pure a : Go σ P α) :=
  fun w => ⟨a, w, [], rfl, by simp, by simp, rfl, rfl⟩

theorem Go.Appends.bind {ok : Event → Prop} {x : Go σ P α} {f : α → Go σ P β}
    (hx : Go.Appends ok x) (hf : ∀ a, Go.Appends ok (f a)) : Go.Appends ok (x >>= f) := by
  intro w
  obtain ⟨a, w1, evs1, h1, ht1, hok1, hd1, hp1⟩ := hx w
  obtain ⟨b, w2, evs2, h2, ht2, hok2, hd2, hp2⟩ := hf a w1
  refine ⟨b, w2, evs1 ++ evs2, ?_, ?_, ?_, hd2.trans hd1, hp2.trans hp1⟩
  · simp [Go.bind_run, h1, h2]
  · rw [ht2, ht1, List.append_assoc]
  · intro e he
    rcases List.mem_append.mp he with h | h
    · exact hok1 e h
    · exact hok2 e h

theorem Go.Appends.mono {ok ok' : Event → Prop} {x : Go σ P α} (hx : Go.Appends ok x)
    (himp : ∀ e, ok e → ok' e) : Go.Appends ok' x := by
  intro w
  obtain ⟨a, w1, evs1, h1, ht1, hok1, hd1, hp1⟩ := hx w
  exact ⟨a, w1, evs1, h1, ht1, fun e he => himp e (hok1 e he), hd1, hp1⟩

theorem Go.Appends.log {ok : Event → Prop} (e : Event) (he : ok e) :
    Go.Appends ok (Go.log e : Go σ P Unit) :=
  fun w => ⟨(), _, [e], rfl, rfl, by simpa using he, rfl, rfl⟩

theorem Go.Appends.liftExt (ok : Event → Prop) (f : σ → α × σ) :
    Go.Appends ok (Go.liftExt f : Go σ P α) :=
  fun w => ⟨_, _, [], rfl, by simp, by simp, rfl, rfl⟩

theorem Go.Appends.get (ok : Event → Prop) : Go.Appends ok (Go.get : Go σ P (World σ P)) :=
  fun w => ⟨w, w, [], rfl, by simp, by simp, rfl, rfl⟩

theorem drivers.MachineInState_appends (d : drivers.Driver σ) (t : state.State) :
    Go.Appends (fun e => e.isGetState = true) (drivers.MachineInState (some d) t : Go σ P Bool) :=
  fun w => ⟨_, _, [Event.GetState (d.getState w.ext).1.1], drivers.MachineInState_run d t w, rfl,
    by simp [Event.isGetState], rfl, rfl⟩

theorem drivers.Driver.call_appends (d : drivers.Driver σ) (v : drivers.Verb) :
    Go.Appends (fun e => e = v.event) (drivers.Driver.call (some d) v : Go σ P error) :=
  fun w => ⟨_, _, [v.event], drivers.Driver.call_run d v w, rfl, by simp, rfl, rfl⟩

theorem mcnutils.WaitFor_appends (env : Env σ P) (d : drivers.Driver σ) (t : state.State) :
    Go.Appends (fun e => e.isGetState = true)
      (mcnutils.WaitFor env (drivers.MachineInState (some d) t)) :=
  fun w => ⟨_, _, _, mcnutils.WaitFor_run env d t w, rfl,
    by simp [Event.isGetState], rfl, rfl⟩

theorem provision.StandardDetector.detect_appends (env : Env σ P)
    (d : Option (drivers.Driver σ)) :
    Go.Appends (fun e => e.isGuest = true) (provision.StandardDetector.DetectProvisioner env d) := by
  unfold provision.StandardDetector.DetectProvisioner
  refine Go.Appends.bind (Go.Appends.log _ rfl) fun _ => ?_
  refine Go.Appends.bind (Go.Appends.liftExt _ _) fun err => ?_
  cases err with
  | some e => exact Go.Appends.pure _ _
  | none =>
    refine Go.Appends.bind (Go.Appends.log _ rfl) fun _ => ?_
    refine Go.Appends.bind (Go.Appends.liftExt _ _) fun r => ?_
    rcases r with ⟨out, _ | e⟩
    · dsimp only
      cases env.NewOsRelease out with
      | error e => exact Go.Appends.pure _ _
      | ok info => exact Go.Appends.bind (Go.Appends.get _) fun _ => Go.Appends.pure _ _
    · exact Go.Appends.pure _ _

theorem provision.DetectProvisioner_appends (env : Env σ P) (d : Option (drivers.Driver σ)) :
    Go.Appends (fun e => e.isGuest = true) (provision.DetectProvisioner env d) := by
  unfold provision.DetectProvisioner
  refine Go.Appends.bind (Go.Appends.log _ rfl) fun _ => ?_
  intro w
  have key : ∀ det : provision.Detector σ P, Go.Appends (fun e => e.isGuest = true)
      (match det with
        | .StandardDetector => provision.StandardDetector.DetectProvisioner env d
        | .FakeDetector p => provision.FakeDetector.DetectProvisioner p d
        | .custom detect => Go.liftExt (detect d)) := by
    intro det
    cases det with
    | StandardDetector => exact provision.StandardDetector.detect_appends env d
    | FakeDetector p => exact Go.Appends.pure _ _
    | custom detect => exact Go.Appends.liftExt _ _
  simpa [Go.bind_run, Go.get] using key w.detector w

theorem provision.WaitForPodman_appends (env : Env σ P) (p : Option P) :
    Go.Appends (fun e => e.isGuest = true) (provision.WaitForPodman env p : Go σ P error) :=
  Go.Appends.bind (Go.Appends.log _ rfl) fun _ => Go.Appends.liftExt _ _

theorem host.Host.guestWait_appends (env : Env σ P) (h : host.Host σ) :
    Go.Appends (fun e => e.isGuest = true) (h.WaitForPodman env) := by
  unfold host.Host.WaitForPodman
  refine Go.Appends.bind (provision.DetectProvisioner_appends env _) fun r => ?_
  rcases r with ⟨p, _ | e⟩
  · exact provision.WaitForPodman_appends env p
  · exact Go.Appends.pure _ _

theorem host.Host.runActionForState_act (env : Env σ P) (h : host.Host σ)
    (d : drivers.Driver σ) (v : drivers.Verb) (t : state.State) (w : World σ P)
    (hd : h.Driver = some d) (hs : (d.getState w.ext).1.1 ≠ t) :
    h.runActionForState env (drivers.Driver.call h.Driver v) t w
      = match (d.prim v (w.afterGetState d).ext).1 with
        | some e => some (some e, (w.afterGetState d).afterPrim d v)
        | none => some (
            if t ∈ drivers.pollTrace d t env.maxAttempts ((w.afterGetState d).afterPrim d v).ext
            then none else some env.ErrWaitTimeout,
            ((w.afterGetState d).afterPrim d v).afterWait d t env.maxAttempts) := by
  simp only [host.Host.runActionForState, Go.bind_run, hd, drivers.MachineInState_run,
    drivers.Driver.call_run]
  have hb : ((d.getState w.ext).1.1 == t) = false := by simpa using hs
  simp only [hb, Bool.false_eq_true, if_false, Go.bind_run, drivers.Driver.call_run]
  cases hp : (d.prim v (w.afterGetState d).ext).1 with
  | some e => simp [Go.pure_run]
  | none => simp [mcnutils.WaitFor_run]

theorem Event.count_map_GetState (e : Event) (he : e.isGetState = false)
    (l : List state.State) : (l.map Event.GetState).count e = 0 := by
  rw [List.count_eq_zero]
  intro hmem
  obtain ⟨s, _, rfl⟩ := List.mem_map.mp hmem
  simp [Event.isGetState] at he

theorem Event.count_of_forall {ok : Event → Prop} (e : Event) (he : ¬ ok e)
    (l : List Event) (hl : ∀ x ∈ l, ok x) : l.count e = 0 := by
  rw [List.count_eq_zero]
  exact fun hmem => he (hl e hmem)

theorem host.Host.perform_act (env : Env σ P) (h : host.Host σ) (d : drivers.Driver σ)
    (v : host.LifecycleVerb) (w : World σ P) (hd : h.Driver = some d)
    (hs : (d.getState w.ext).1.1 ≠ v.target) :
    h.perform env v w
      = match (d.prim v.prim (w.afterGetState d).ext).1 with
        | some e => some (some e, (w.afterGetState d).afterPrim d v.prim)
        | none =>
          if v.target ∈ drivers.pollTrace d v.target env.maxAttempts
              ((w.afterGetState d).afterPrim d v.prim).ext then
            if v = host.LifecycleVerb.Start then
              h.WaitForPodman env
                (((w.afterGetState d).afterPrim d v.prim).afterWait d v.target env.maxAttempts)
            else
              some (none,
                ((w.afterGetState d).afterPrim d v.prim).afterWait d v.target env.maxAttempts)
          else
            some (some env.ErrWaitTimeout,
              ((w.afterGetState d).afterPrim d v.prim).afterWait d v.target env.maxAttempts) := by
  have key := host.Host.runActionForState_act env h d v.prim v.target w hd hs
  cases v <;>
    simp only [host.LifecycleVerb.target, host.LifecycleVerb.prim] at key hs ⊢ <;>
    simp only [host.Host.perform, host.Host.Start, host.Host.Stop, host.Host.Kill, Go.bind_run,
      key] <;>
    cases (d.prim _ (w.afterGetState d).ext).1 <;>
    simp [Go.pure_run] <;>
    split <;> simp [Go.pure_run]

theorem host.Host.runActionForState_appends (env : Env σ P) (h : host.Host σ)
    (d : drivers.Driver σ) (v : drivers.Verb) (t : state.State) (hd : h.Driver = some d) :
    Go.Appends (fun e => e.isGetState = true ∨ e = v.event)
      (h.runActionForState env (drivers.Driver.call h.Driver v) t) := by
  unfold host.Host.runActionForState
  rw [hd]
  refine Go.Appends.bind ((drivers.MachineInState_appends d t).mono fun _ he => Or.inl he)
    fun b => ?_
  split
  · exact Go.Appends.pure _ _
  · refine Go.Appends.bind ((drivers.Driver.call_appends d v).mono fun _ he => Or.inr he)
      fun r => ?_
    cases r with
    | some e => exact Go.Appends.pure _ _
    | none => exact (mcnutils.WaitFor_appends env d t).mono fun _ he => Or.inl he

theorem host.Host.perform_appends (env : Env σ P) (h : host.Host σ) (d : drivers.Driver σ)
    (v : host.LifecycleVerb) (hd : h.Driver = some d) :
    Go.Appends (fun e => e.isGetState = true ∨ e = v.prim.event ∨ e.isGuest = true)
      (h.perform env v) := by
  have key : Go.Appends (fun e => e.isGetState = true ∨ e = v.prim.event ∨ e.isGuest = true)
      (h.runActionForState env (drivers.Driver.call h.Driver v.prim) v.target) :=
    (host.Host.runActionForState_appends env h d v.prim v.target hd).mono
      (fun _ he => he.elim Or.inl fun h' => Or.inr (Or.inl h'))
  cases v <;>
    simp only [host.Host.perform, host.Host.Start, host.Host.Stop, host.Host.Kill] <;>
    refine Go.Appends.bind key fun r => ?_ <;>
    cases r <;>
    first
      | exact Go.Appends.pure _ _
      | exact (host.Host.guestWait_appends env h).mono fun _ he => Or.inr (Or.inr he)

theorem host.Host.Restart_stopped (env : Env σ P) (h : host.Host σ) (d : drivers.Driver σ)
    (w : World σ P) (hd : h.Driver = some d)
    (hs : (d.getState w.ext).1.1 = state.State.Stopped) :
    h.Restart env w
      = match h.Start env (w.afterGetState d) with
        | none => none
        | some (some e, w') => some (some e, w')
        | some (none, w') => h.WaitForPodman env w' := by
  simp only [host.Host.Restart, Go.bind_run, hd, drivers.MachineInState_run, hs, beq_self_eq_true,
    if_true]
  cases h.Start env (w.afterGetState d) with
  | none => rfl
  | some r =>
    obtain ⟨res, w'⟩ := r
    cases res <;> rfl

theorem host.Host.Restart_running (env : Env σ P) (h : host.Host σ) (d : drivers.Driver σ)
    (w : World σ P) (hd : h.Driver = some d)
    (hs : (d.getState w.ext).1.1 ≠ state.State.Stopped)
    (hr : (d.getState (d.getState w.ext).2).1.1 = state.State.Running) :
    h.Restart env w
      = match (d.prim drivers.Verb.Restart (d.getState (d.getState w.ext).2).2).1 with
        | some e =>
          some (some e, ((w.afterGetState d).afterGetState d).afterPrim d drivers.Verb.Restart)
        | none =>
          if state.State.Running ∈ drivers.pollTrace d state.State.Running env.maxAttempts
              (d.prim drivers.Verb.Restart (d.getState (d.getState w.ext).2).2).2 then
            h.WaitForPodman env
              ((((w.afterGetState d).afterGetState d).afterPrim d drivers.Verb.Restart).afterWait d
                state.State.Running env.maxAttempts)
          else
            some (some env.ErrWaitTimeout,
              (((w.afterGetState d).afterGetState d).afterPrim d drivers.Verb.Restart).afterWait d
                state.State.Running env.maxAttempts) := by
  have hb : ((d.getState w.ext).1.1 == state.State.Stopped) = false := by simpa using hs
  have hext : (w.afterGetState d).ext = (d.getState w.ext).2 := rfl
  have hext2 : ((w.afterGetState d).afterGetState d).ext
      = (d.getState (d.getState w.ext).2).2 := rfl
  have hext3 : (((w.afterGetState d).afterGetState d).afterPrim d drivers.Verb.Restart).ext
      = (d.prim drivers.Verb.Restart (d.getState (d.getState w.ext).2).2).2 := rfl
  simp only [host.Host.Restart, Go.bind_run, hd, drivers.MachineInState_run, hb,
    Bool.false_eq_true, if_false, hext, hr, beq_self_eq_true, if_true, drivers.Driver.call_run,
    hext2]
  cases hp : (d.prim drivers.Verb.Restart (d.getState (d.getState w.ext).2).2).1 with
  | some e => simp [Go.pure_run]
  | none =>
    simp only [Go.bind_run, mcnutils.WaitFor_run, hext3]
    split <;> simp [Go.pure_run]

theorem drivers.pollTrace_dropLast (d : drivers.Driver σ) (t : state.State) (n : Nat) (s : σ) :
    t ∉ (drivers.pollTrace d t n s).dropLast := by
  induction n generalizing s with
  | zero => simp [drivers.pollTrace]
  | succ n ih =>
    by_cases hs : (d.getState s).1.1 = t
    · simp [drivers.pollTrace, hs]
    · have hs' : ¬ t = (d.getState s).1.1 := fun e => hs e.symm
      simp only [drivers.pollTrace, hs, if_false]
      cases hl : drivers.pollTrace d t n (d.getState s).2 with
      | nil => simp
      | cons a l =>
        have := ih (d.getState s).2
        rw [hl] at this
        simp only [List.dropLast_cons₂, List.mem_cons, not_or]
        exact ⟨hs', this⟩

theorem host.Host.WaitForPodman_run (env : Env σ P) (h : host.Host σ) (w : World σ P) :
    ∃ r w1, provision.DetectProvisioner env h.Driver w = some (r, w1) ∧
      h.WaitForPodman env w = match r.2 with
        | some e => some (some e, w1)
        | none => provision.WaitForPodman env r.1 w1 := by
  obtain ⟨r, w1, _, hrun, _⟩ := provision.DetectProvisioner_appends env h.Driver w
  refine ⟨r, w1, hrun, ?_⟩
  simp only [host.Host.WaitForPodman, Go.bind_run, hrun]
  rcases r with ⟨p, _ | e⟩ <;> rfl

theorem host.Host.stop_kill_appends (env : Env σ P) (h : host.Host σ) (d : drivers.Driver σ)
    (v : host.LifecycleVerb) (hd : h.Driver = some d) (hv : v ≠ host.LifecycleVerb.Start) :
    Go.Appends (fun e => e.isGetState = true ∨ e = v.prim.event) (h.perform env v) := by
  have key := host.Host.runActionForState_appends env h d v.prim v.target hd
  cases v with
  | Start => exact absurd rfl hv
  | Stop =>
    simp only [host.Host.perform, host.Host.Stop]
    refine Go.Appends.bind key fun r => ?_
    cases r <;> exact Go.Appends.pure _ _
  | Kill =>
    simp only [host.Host.perform, host.Host.Kill]
    refine Go.Appends.bind key fun r => ?_
    cases r <;> exact Go.Appends.pure _ _

theorem Go.bind_error_id (x : Go σ P error) (w : World σ P) :
    (x >>= fun r => match r with
      | some err => (pure (some err) : Go σ P error)
      | none => pure none) w = x w := by
  simp only [Go.bind_run]
  cases x w with
  | none => rfl
  | some r =>
    obtain ⟨e, w'⟩ := r
    cases e <;> rfl

theorem host.Host.Upgrade_run (env : Env σ P) (h : host.Host σ) (d : drivers.Driver σ)
    (w : World σ P) (hd : h.Driver = some d) :
    h.Upgrade env w
      = match (d.getState w.ext).1.2 with
        | some e => some (some e, w.afterGetState d)
        | none =>
          match (if (d.getState w.ext).1.1 = state.State.Running
                 then some (none, w.afterGetState d)
                 else h.Start env (w.afterGetState d)) with
          | none => none
          | some (some e, w1) => some (some e, w1)
          | some (none, w1) =>
            match provision.DetectProvisioner env (some d) w1 with
            | none => none
            | some ((_, some e), w2) => some (some e, w2)
            | some ((p, none), w2) =>
              provision.Provisioner.Package env p "podman" pkgaction.PackageAction.Upgrade w2 := by
  have tail : ∀ w1 : World σ P,
      (provision.DetectProvisioner env (some d) >>= fun p =>
        match p.2 with
        | some err => (pure (some err) : Go σ P error)
        | none => do
          match (← provision.Provisioner.Package env p.1 "podman"
              pkgaction.PackageAction.Upgrade) with
          | some err => pure (some err)
          | none => pure p.2) w1
      = match provision.DetectProvisioner env (some d) w1 with
        | none => none
        | some ((_, some e), w2) => some (some e, w2)
        | some ((p, none), w2) =>
          provision.Provisioner.Package env p "podman" pkgaction.PackageAction.Upgrade w2 := by
    intro w1
    simp only [Go.bind_run]
    cases provision.DetectProvisioner env (some d) w1 with
    | none => rfl
    | some r =>
      obtain ⟨⟨p, e⟩, w2⟩ := r
      cases e with
      | some e => rfl
      | none => exact Go.bind_error_id _ w2
  simp only [host.Host.Upgrade, Go.bind_run, hd, drivers.Driver.GetState_run]
  cases (d.getState w.ext).1.2 with
  | some e => rfl
  | none =>
    simp only
    by_cases hr : (d.getState w.ext).1.1 = state.State.Running
    · simp only [hr, ne_eq, not_true_eq_false, if_false, if_true]
      rw [Go.bind_run, Go.pure_run]
      exact tail _
    · simp only [hr, ne_eq, not_false_eq_true, if_true, if_false]
      rw [Go.bind_run]
      cases h.Start env (w.afterGetState d) with
      | none => rfl
      | some r1 =>
        obtain ⟨e1, w1⟩ := r1
        cases e1 with
        | some e => rfl
        | none => exact tail w1

theorem World.NoPackageSince.trans {w w1 w2 : World σ P} (h1 : w.NoPackageSince w1)
    (h2 : w1.NoPackageSince w2) : w.NoPackageSince w2 := by
  obtain ⟨e1, ht1, hok1⟩ := h1
  obtain ⟨e2, ht2, hok2⟩ := h2
  refine ⟨e1 ++ e2, by rw [ht2, ht1, List.append_assoc], ?_⟩
  intro e he
  rcases List.mem_append.mp he with h | h
  · exact hok1 e h
  · exact hok2 e h

theorem World.NoPackageSince.afterGetState (d : drivers.Driver σ) (w : World σ P) :
    w.NoPackageSince (w.afterGetState d) :=
  ⟨[Event.GetState (d.getState w.ext).1.1], rfl, by simp [Event.isPackage]⟩

theorem World.NoPackageSince.of_appends {ok : Event → Prop} {x : Go σ P α}
    (hx : Go.Appends ok x) (hok : ∀ e, ok e → e.isPackage = false) {w w' : World σ P} {a : α}
    (hrun : x w = some (a, w')) : w.NoPackageSince w' := by
  obtain ⟨a', w'', evs, hrun', htr, hev, _, _⟩ := hx w
  rw [hrun] at hrun'
  simp only [Option.some.injEq, Prod.mk.injEq] at hrun'
  obtain ⟨_, rfl⟩ := hrun'
  exact ⟨evs, htr, fun e he => hok e (hev e he)⟩

theorem host.Host.Start_noPackage (env : Env σ P) (h : host.Host σ) (d : drivers.Driver σ)
    (hd : h.Driver = some d) {w w' : World σ P} {r : error}
    (hrun : h.Start env w = some (r, w')) : w.NoPackageSince w' := by
  refine World.NoPackageSince.of_appends
    (host.Host.perform_appends env h d host.LifecycleVerb.Start hd) ?_ hrun
  intro e he
  cases e <;> simp [Event.isGetState, Event.isGuest, host.LifecycleVerb.prim,
    drivers.Verb.event, Event.isPackage] at he ⊢

theorem provision.DetectProvisioner_noPackage (env : Env σ P) (d : Option (drivers.Driver σ))
    {w w' : World σ P} {r : Option P × error}
    (hrun : provision.DetectProvisioner env d w = some (r, w')) : w.NoPackageSince w' := by
  refine World.NoPackageSince.of_appends (provision.DetectProvisioner_appends env d) ?_ hrun
  intro e he
  cases e <;> simp [Event.isGuest, Event.isPackage] at he ⊢

theorem host.Host.UpgradeReadyAt.noPackage {env : Env σ P} {h : host.Host σ}
    {d : drivers.Driver σ} (hd : h.Driver = some d) {w w1 : World σ P}
    (hr : h.UpgradeReadyAt env d w w1) : w.NoPackageSince w1 := by
  rcases hr with ⟨_, rfl⟩ | ⟨_, hS⟩
  · exact World.NoPackageSince.afterGetState d w
  · exact (World.NoPackageSince.afterGetState d w).trans (host.Host.Start_noPackage env h d hd hS)

theorem host.Host.perform_trace (env : Env σ P) (h : host.Host σ) (d : drivers.Driver σ)
    (v : host.LifecycleVerb) (w : World σ P) (hd : h.Driver = some d)
    (hs : (d.getState w.ext).1.1 ≠ v.target) :
    ∃ res w' evs, h.perform env v w = some (res, w') ∧
      w'.trace = w.trace ++ (Event.GetState (d.getState w.ext).1.1 :: v.prim.event :: evs) ∧
      ∀ e ∈ evs, e.isGetState = true ∨ e.isGuest = true := by
  have key := host.Host.perform_act env h d v w hd hs
  have hpre : ((w.afterGetState d).afterPrim d v.prim).trace
      = w.trace ++ [Event.GetState (d.getState w.ext).1.1, v.prim.event] := by
    simp [World.afterPrim, World.afterGetState]
  have hwait : (((w.afterGetState d).afterPrim d v.prim).afterWait d v.target
      env.maxAttempts).trace
      = w.trace ++ (Event.GetState (d.getState w.ext).1.1 :: v.prim.event ::
          (drivers.pollTrace d v.target env.maxAttempts
            ((w.afterGetState d).afterPrim d v.prim).ext).map Event.GetState) := by
    simp [World.afterWait, World.afterPrim, World.afterGetState]
  have hpolls : ∀ e ∈ (drivers.pollTrace d v.target env.maxAttempts
      ((w.afterGetState d).afterPrim d v.prim).ext).map Event.GetState,
      e.isGetState = true ∨ e.isGuest = true := by
    intro e he
    obtain ⟨s, _, rfl⟩ := List.mem_map.mp he
    exact Or.inl rfl
  cases hp : (d.prim v.prim (w.afterGetState d).ext).1 with
  | some e =>
    rw [hp] at key
    exact ⟨_, _, [], key, hpre, by simp⟩
  | none =>
    rw [hp] at key
    simp only at key
    split at key
    · split at key
      · obtain ⟨r2, w2, evs2, hrun2, htr2, hok2, _, _⟩ := host.Host.guestWait_appends env h
          (((w.afterGetState d).afterPrim d v.prim).afterWait d v.target env.maxAttempts)
        refine ⟨r2, w2, (drivers.pollTrace d v.target env.maxAttempts
            ((w.afterGetState d).afterPrim d v.prim).ext).map Event.GetState ++ evs2,
          key.trans hrun2, ?_, ?_⟩
        · rw [htr2, hwait]; simp
        · intro e he
          rcases List.mem_append.mp he with hm | hm
          · exact hpolls e hm
          · exact Or.inr (hok2 e hm)
      · exact ⟨_, _, _, key, hwait, hpolls⟩
    · exact ⟨_, _, _, key, hwait, hpolls⟩

end Runs

/-! ## Lifecycle verbs: the idempotency guard and the polling envelope -/

section Lifecycle

variable {σ P : Type}

/-- C1: for each verb among Start, Stop and Kill, when the driver's state query
reports the verb's target state at the call (Running for Start, Stopped for Stop and
Kill), the verb returns `ErrHostAlreadyInState` carrying the host name and the target
state, and the only call made on the driver is that one state query: the trace grows
by the single query event, so the driver primitive is never invoked. -/
theorem C1_already_in_target_state (env : Env σ P) (h : host.Host σ) (d : drivers.Driver σ)
    (v : host.LifecycleVerb) (w : World σ P) (hd : h.Driver = some d)
    (hs : (d.getState w.ext).1.1 = v.target) :
    h.perform env v w
      = some (some (GoError.ErrHostAlreadyInState h.Name v.target),
              { w with ext := (d.getState w.ext).2,
                       trace := w.trace ++ [Event.GetState v.target] }) := by
  cases v
  · have key := host.Host.runActionForState_already env h d
      (drivers.Driver.call h.Driver .Start) state.State.Running w hd hs
    simp only [host.LifecycleVerb.target] at hs ⊢
    simp [host.Host.perform, host.Host.Start, Go.bind_run, key, Go.pure_run,
      World.afterGetState, hs]
  · have key := host.Host.runActionForState_already env h d
      (drivers.Driver.call h.Driver .Stop) state.State.Stopped w hd hs
    simp only [host.LifecycleVerb.target] at hs ⊢
    simp [host.Host.perform, host.Host.Stop, Go.bind_run, key, Go.pure_run,
      World.afterGetState, hs]
  · have key := host.Host.runActionForState_already env h d
      (drivers.Driver.call h.Driver .Kill) state.State.Stopped w hd hs
    simp only [host.LifecycleVerb.target] at hs ⊢
    simp [host.Host.perform, host.Host.Kill, Go.bind_run, key, Go.pure_run,
      World.afterGetState, hs]

/-- Witness of C1: the fake driver reporting Running, asked to start. -/
theorem C1_already_in_target_state_witness :
    (fixture.hostOn "foo" fixture.fakedriver).Driver
        = some (drivers.Driver.backend fixture.fakedriver) ∧
      ((drivers.Driver.backend fixture.fakedriver).getState
          (fixture.world state.State.Running fixture.fakeDetector).ext).1.1
        = host.LifecycleVerb.Start.target ∧
      (fixture.hostOn "foo" fixture.fakedriver).perform (fixture.env 60 none)
          host.LifecycleVerb.Start (fixture.world state.State.Running fixture.fakeDetector)
        = some (some (GoError.ErrHostAlreadyInState "foo" state.State.Running),
                { fixture.world state.State.Running fixture.fakeDetector with
                  trace := [Event.GetState state.State.Running] }) :=
  ⟨rfl, rfl, C1_already_in_target_state (fixture.env 60 none)
    (fixture.hostOn "foo" fixture.fakedriver) (drivers.Driver.backend fixture.fakedriver)
    host.LifecycleVerb.Start (fixture.world state.State.Running fixture.fakeDetector) rfl rfl⟩

/-- C2: for each verb among Start, Stop and Kill on a host whose driver does not
report the target state at the call. Here `w.afterGetState d` is the world after the
guard's state query, `.afterPrim d v.prim` the world after the driver primitive (the
trace grown by the primitive's event), and `.afterWait d t n` the world after the
polls of the wait (the trace grown by one query event per poll).
(1) The verb returns and the events it appended contain the primitive's event exactly
once. (2) If the primitive fails, the verb returns that error unchanged and the trace
ends with the primitive: there is no poll. (3) If the primitive succeeds and no poll
within the bound reports the target state, the verb returns the wait's timeout error
and the trace ends with the polls, so Start does not go on to detection or the guest
wait. (4) If the primitive succeeds the polls of the wait follow it in the trace.
(5) A Stop or Kill that returns nil has observed the target state in its last poll. -/
theorem C2_primitive_once_then_poll (env : Env σ P) (h : host.Host σ) (d : drivers.Driver σ)
    (v : host.LifecycleVerb) (w : World σ P) (hd : h.Driver = some d)
    (hs : (d.getState w.ext).1.1 ≠ v.target) :
    (∃ res w' evs, h.perform env v w = some (res, w') ∧ w'.trace = w.trace ++ evs ∧
        evs.count v.prim.event = 1) ∧
    (∀ e, (d.prim v.prim (d.getState w.ext).2).1 = some e →
        h.perform env v w = some (some e, (w.afterGetState d).afterPrim d v.prim)) ∧
    ((d.prim v.prim (d.getState w.ext).2).1 = none →
        v.target ∉ drivers.pollTrace d v.target env.maxAttempts
          (d.prim v.prim (d.getState w.ext).2).2 →
        h.perform env v w = some (some env.ErrWaitTimeout,
          ((w.afterGetState d).afterPrim d v.prim).afterWait d v.target env.maxAttempts)) ∧
    ((d.prim v.prim (d.getState w.ext).2).1 = none →
        ∃ res w', h.perform env v w = some (res, w') ∧
          (((w.afterGetState d).afterPrim d v.prim).afterWait d v.target
            env.maxAttempts).trace <+: w'.trace) ∧
    (v ≠ host.LifecycleVerb.Start → ∀ w', h.perform env v w = some (none, w') →
        (d.prim v.prim (d.getState w.ext).2).1 = none ∧
        (drivers.pollTrace d v.target env.maxAttempts
          (d.prim v.prim (d.getState w.ext).2).2).getLast? = some v.target ∧
        w' = ((w.afterGetState d).afterPrim d v.prim).afterWait d v.target env.maxAttempts) := by
  have key := host.Host.perform_act env h d v w hd hs
  have hext : (w.afterGetState d).ext = (d.getState w.ext).2 := rfl
  have hext2 : ((w.afterGetState d).afterPrim d v.prim).ext
      = (d.prim v.prim (d.getState w.ext).2).2 := rfl
  rw [hext, hext2] at key
  have hevG : v.prim.event.isGetState = false := by cases v <;> rfl
  have hevU : ¬ (v.prim.event.isGuest = true) := by cases v <;> simp [host.LifecycleVerb.prim, drivers.Verb.event, Event.isGuest]
  have hne : Event.GetState (d.getState w.ext).1.1 ≠ v.prim.event := by
    cases v <;> simp [host.LifecycleVerb.prim, drivers.Verb.event]
  -- the trace of the world after the wait
  have htr : (((w.afterGetState d).afterPrim d v.prim).afterWait d v.target env.maxAttempts).trace
      = w.trace ++ ([Event.GetState (d.getState w.ext).1.1, v.prim.event] ++
          (drivers.pollTrace d v.target env.maxAttempts
            (d.prim v.prim (d.getState w.ext).2).2).map Event.GetState) := by
    simp [World.afterWait, World.afterPrim, World.afterGetState]
  have hcount : ([Event.GetState (d.getState w.ext).1.1, v.prim.event] ++
      (drivers.pollTrace d v.target env.maxAttempts
        (d.prim v.prim (d.getState w.ext).2).2).map Event.GetState).count v.prim.event = 1 := by
    rw [List.count_append, Event.count_map_GetState _ hevG]
    simp [List.count_cons, hne]
  cases hp : (d.prim v.prim (d.getState w.ext).2).1 with
  | some e =>
    rw [hp] at key
    simp only at key
    refine ⟨⟨_, _, [Event.GetState (d.getState w.ext).1.1, v.prim.event], key, ?_, ?_⟩, ?_, ?_, ?_, ?_⟩
    · simp [World.afterPrim, World.afterGetState]
    · simp [List.count_cons, hne]
    · intro e' he'
      cases he'
      exact key
    · intro hc; cases hc
    · intro hc; cases hc
    · intro _ w' hw'
      rw [key] at hw'
      simp at hw'
  | none =>
    rw [hp] at key
    simp only at key
    by_cases hobs : v.target ∈ drivers.pollTrace d v.target env.maxAttempts
        (d.prim v.prim (d.getState w.ext).2).2
    · rw [if_pos hobs] at key
      by_cases hv : v = host.LifecycleVerb.Start
      · rw [if_pos hv] at key
        obtain ⟨res, w', evs, hrun, htr', hok, _, _⟩ := host.Host.guestWait_appends env h
          (((w.afterGetState d).afterPrim d v.prim).afterWait d v.target env.maxAttempts)
        rw [hrun] at key
        refine ⟨⟨res, w', ([Event.GetState (d.getState w.ext).1.1, v.prim.event] ++
          (drivers.pollTrace d v.target env.maxAttempts
            (d.prim v.prim (d.getState w.ext).2).2).map Event.GetState) ++ evs,
          key, ?_, ?_⟩, ?_, ?_, ?_, ?_⟩
        · rw [htr', htr, List.append_assoc]
        · rw [List.count_append, hcount, Event.count_of_forall _ hevU evs hok]
        · intro e he; cases he
        · intro _ hn; exact absurd hobs hn
        · intro _
          exact ⟨res, w', key, by rw [htr']; exact List.prefix_append _ _⟩
        · intro hv'; exact absurd hv hv'
      · rw [if_neg hv] at key
        refine ⟨⟨_, _, _, key, htr, hcount⟩, ?_, ?_, ?_, ?_⟩
        · intro e he; cases he
        · intro _ hn; exact absurd hobs hn
        · intro _
          exact ⟨_, _, key, List.prefix_refl _⟩
        · intro _ w' hw'
          rw [key] at hw'
          simp only [Option.some.injEq, Prod.mk.injEq, true_and] at hw'
          exact ⟨rfl, drivers.pollTrace_observed d _ _ _ hobs, hw'.symm⟩
    · rw [if_neg hobs] at key
      refine ⟨⟨_, _, _, key, htr, hcount⟩, ?_, ?_, ?_, ?_⟩
      · intro e he; cases he
      · intro _ _; exact key
      · intro _
        exact ⟨_, _, key, List.prefix_refl _⟩
      · intro _ w' hw'
        rw [key] at hw'
        simp at hw'

/-- Witness of C2: the fake driver reporting Running, asked to stop. -/
theorem C2_primitive_once_then_poll_witness :
    (fixture.hostOn "foo" fixture.fakedriver).Driver
        = some (drivers.Driver.backend fixture.fakedriver) ∧
      ((drivers.Driver.backend fixture.fakedriver).getState
          (fixture.world state.State.Running fixture.fakeDetector).ext).1.1
        ≠ host.LifecycleVerb.Stop.target ∧
      ∃ res w' evs,
        (fixture.hostOn "foo" fixture.fakedriver).perform (fixture.env 60 none)
            host.LifecycleVerb.Stop (fixture.world state.State.Running fixture.fakeDetector)
          = some (res, w') ∧
        w'.trace = (fixture.world state.State.Running fixture.fakeDetector).trace ++ evs ∧
        evs.count host.LifecycleVerb.Stop.prim.event = 1 :=
  ⟨rfl, by decide, (C2_primitive_once_then_poll (fixture.env 60 none)
    (fixture.hostOn "foo" fixture.fakedriver) (drivers.Driver.backend fixture.fakedriver)
    host.LifecycleVerb.Stop (fixture.world state.State.Running fixture.fakeDetector) rfl
    (by decide)).1⟩

/-- C4: `Host.Restart` has two paths, chosen by what the driver reports before it
acts. If the first query reports Stopped, Restart runs `Host.Start` (the full start
sequence: guard, Start primitive, wait for Running, detection and guest wait) from the
world after that query, returns its error if it has one, and its trace holds no
Restart event; when the guard of that Start does not find the machine Running, the
trace is the two queries, then the Start primitive, then events among which there is no
second Start primitive. If the first query reports something else than Stopped and the second
query reports Running, the trace holds the Restart primitive exactly once and no Start
primitive; the primitive's error is returned as is; otherwise the polls of a wait for
Running follow, and an expired wait is returned as the timeout error. -/
theorem C4_restart_two_paths (env : Env σ P) (h : host.Host σ) (d : drivers.Driver σ)
    (w : World σ P) (hd : h.Driver = some d) :
    ((d.getState w.ext).1.1 = state.State.Stopped →
      (∃ r w1, h.Start env (w.afterGetState d) = some (r, w1) ∧
        h.Restart env w = match r with
          | some e => some (some e, w1)
          | none => h.WaitForPodman env w1) ∧
      (∃ res w' evs, h.Restart env w = some (res, w') ∧ w'.trace = w.trace ++ evs ∧
        Event.Restart ∉ evs) ∧
      ((d.getState (d.getState w.ext).2).1.1 ≠ state.State.Running →
        ∃ res w' evs, h.Restart env w = some (res, w') ∧
          w'.trace = w.trace ++ (Event.GetState state.State.Stopped ::
            Event.GetState (d.getState (d.getState w.ext).2).1.1 :: Event.Start :: evs) ∧
          Event.Start ∉ evs)) ∧
    ((d.getState w.ext).1.1 ≠ state.State.Stopped →
      (d.getState (d.getState w.ext).2).1.1 = state.State.Running →
      (∃ res w' evs, h.Restart env w = some (res, w') ∧ w'.trace = w.trace ++ evs ∧
        evs.count Event.Restart = 1 ∧ Event.Start ∉ evs) ∧
      (∀ e, (d.prim drivers.Verb.Restart (d.getState (d.getState w.ext).2).2).1 = some e →
        h.Restart env w = some (some e,
          ((w.afterGetState d).afterGetState d).afterPrim d drivers.Verb.Restart)) ∧
      ((d.prim drivers.Verb.Restart (d.getState (d.getState w.ext).2).2).1 = none →
        state.State.Running ∉ drivers.pollTrace d state.State.Running env.maxAttempts
          (d.prim drivers.Verb.Restart (d.getState (d.getState w.ext).2).2).2 →
        h.Restart env w = some (some env.ErrWaitTimeout,
          (((w.afterGetState d).afterGetState d).afterPrim d drivers.Verb.Restart).afterWait d
            state.State.Running env.maxAttempts)) ∧
      ((d.prim drivers.Verb.Restart (d.getState (d.getState w.ext).2).2).1 = none →
        ∃ res w', h.Restart env w = some (res, w') ∧
          ((((w.afterGetState d).afterGetState d).afterPrim d drivers.Verb.Restart).afterWait d
            state.State.Running env.maxAttempts).trace <+: w'.trace)) := by
  constructor
  · intro hs
    have key := host.Host.Restart_stopped env h d w hd hs
    obtain ⟨r, w1, evs1, hrun1, htr1, hok1, _, _⟩ :=
      host.Host.perform_appends env h d host.LifecycleVerb.Start hd (w.afterGetState d)
    have hrun1' : h.Start env (w.afterGetState d) = some (r, w1) := hrun1
    rw [hrun1'] at key
    have hno1 : Event.Restart ∉ evs1 := fun hm => by
      have := hok1 _ hm
      simp [Event.isGetState, Event.isGuest, host.LifecycleVerb.prim, drivers.Verb.event] at this
    have hstart : (d.getState (d.getState w.ext).2).1.1 ≠ state.State.Running →
        ∃ evs, w1.trace = w.trace ++ (Event.GetState state.State.Stopped ::
            Event.GetState (d.getState (d.getState w.ext).2).1.1 :: Event.Start :: evs) ∧
          ∀ e ∈ evs, e.isGetState = true ∨ e.isGuest = true := by
      intro hs2
      obtain ⟨r', w', evs, hrun', htr', hok'⟩ := host.Host.perform_trace env h d
        host.LifecycleVerb.Start (w.afterGetState d) hd hs2
      rw [hrun1] at hrun'
      simp only [Option.some.injEq, Prod.mk.injEq] at hrun'
      obtain ⟨_, rfl⟩ := hrun'
      refine ⟨evs, ?_, hok'⟩
      rw [htr']
      simp [World.afterGetState, hs, host.LifecycleVerb.prim, drivers.Verb.event]
    have hnoStart : ∀ evs : List Event,
        (∀ e ∈ evs, e.isGetState = true ∨ e.isGuest = true) → Event.Start ∉ evs := by
      intro evs hok hm
      have := hok _ hm
      simp [Event.isGetState, Event.isGuest] at this
    cases r with
    | some e =>
      simp only at key
      refine ⟨⟨some e, w1, hrun1', key⟩, ⟨some e, w1,
        Event.GetState (d.getState w.ext).1.1 :: evs1, key, ?_, ?_⟩, ?_⟩
      · rw [htr1]; simp [World.afterGetState]
      · simpa using hno1
      · intro hs2
        obtain ⟨evs, htr, hok⟩ := hstart hs2
        exact ⟨some e, w1, evs, key, htr, hnoStart evs hok⟩
    | none =>
      simp only at key
      obtain ⟨r2, w2, evs2, hrun2, htr2, hok2, _, _⟩ := host.Host.guestWait_appends env h w1
      refine ⟨⟨none, w1, hrun1', key⟩, ⟨r2, w2,
        Event.GetState (d.getState w.ext).1.1 :: (evs1 ++ evs2), key.trans hrun2, ?_, ?_⟩, ?_⟩
      · rw [htr2, htr1]; simp [World.afterGetState]
      · have hno2 : Event.Restart ∉ evs2 := fun hm => by
          have := hok2 _ hm
          simp [Event.isGuest] at this
        simp [hno1, hno2]
      · intro hs2
        obtain ⟨evs, htr, hok⟩ := hstart hs2
        refine ⟨r2, w2, evs ++ evs2, key.trans hrun2, ?_, ?_⟩
        · rw [htr2, htr]; simp
        · intro hm
          rcases List.mem_append.mp hm with hm | hm
          · exact hnoStart evs hok hm
          · exact hnoStart evs2 (fun e he => Or.inr (hok2 e he)) hm
  · intro hs hr
    have key := host.Host.Restart_running env h d w hd hs hr
    have htr : ((((w.afterGetState d).afterGetState d).afterPrim d drivers.Verb.Restart).afterWait d
        state.State.Running env.maxAttempts).trace
        = w.trace ++ ([Event.GetState (d.getState w.ext).1.1,
            Event.GetState (d.getState (d.getState w.ext).2).1.1, Event.Restart] ++
          (drivers.pollTrace d state.State.Running env.maxAttempts
            (d.prim drivers.Verb.Restart (d.getState (d.getState w.ext).2).2).2).map
              Event.GetState) := by
      simp [World.afterWait, World.afterPrim, World.afterGetState, drivers.Verb.event]
    have hcount : ([Event.GetState (d.getState w.ext).1.1,
            Event.GetState (d.getState (d.getState w.ext).2).1.1, Event.Restart] ++
          (drivers.pollTrace d state.State.Running env.maxAttempts
            (d.prim drivers.Verb.Restart (d.getState (d.getState w.ext).2).2).2).map
              Event.GetState).count Event.Restart = 1 := by
      rw [List.count_append, Event.count_map_GetState Event.Restart rfl]
      simp [List.count_cons]
    have hnoS : Event.Start ∉ ([Event.GetState (d.getState w.ext).1.1,
            Event.GetState (d.getState (d.getState w.ext).2).1.1, Event.Restart] ++
          (drivers.pollTrace d state.State.Running env.maxAttempts
            (d.prim drivers.Verb.Restart (d.getState (d.getState w.ext).2).2).2).map
              Event.GetState) := by
      simp
    cases hp : (d.prim drivers.Verb.Restart (d.getState (d.getState w.ext).2).2).1 with
    | some e =>
      rw [hp] at key
      simp only at key
      refine ⟨⟨_, _, [Event.GetState (d.getState w.ext).1.1,
          Event.GetState (d.getState (d.getState w.ext).2).1.1, Event.Restart], key, ?_, ?_, ?_⟩,
        ?_, ?_, ?_⟩
      · simp [World.afterPrim, World.afterGetState, drivers.Verb.event]
      · simp [List.count_cons]
      · simp
      · intro e' he'; cases he'; exact key
      · intro hc; cases hc
      · intro hc; cases hc
    | none =>
      rw [hp] at key
      simp only at key
      by_cases hobs : state.State.Running ∈ drivers.pollTrace d state.State.Running
          env.maxAttempts (d.prim drivers.Verb.Restart (d.getState (d.getState w.ext).2).2).2
      · rw [if_pos hobs] at key
        obtain ⟨r2, w2, evs2, hrun2, htr2, hok2, _, _⟩ := host.Host.guestWait_appends env h
          ((((w.afterGetState d).afterGetState d).afterPrim d drivers.Verb.Restart).afterWait d
            state.State.Running env.maxAttempts)
        have hR : evs2.count Event.Restart = 0 :=
          @Event.count_of_forall (fun e => e.isGuest = true) Event.Restart
            (by simp [Event.isGuest]) evs2 hok2
        have hS : Event.Start ∉ evs2 := fun hm => by
          have := hok2 _ hm
          simp [Event.isGuest] at this
        refine ⟨⟨r2, w2, ([Event.GetState (d.getState w.ext).1.1,
            Event.GetState (d.getState (d.getState w.ext).2).1.1, Event.Restart] ++
          (drivers.pollTrace d state.State.Running env.maxAttempts
            (d.prim drivers.Verb.Restart (d.getState (d.getState w.ext).2).2).2).map
              Event.GetState) ++ evs2, key.trans hrun2, ?_, ?_, ?_⟩, ?_, ?_, ?_⟩
        · rw [htr2, htr, List.append_assoc]
        · rw [List.count_append, hcount, hR]
        · intro hm
          rcases List.mem_append.mp hm with hm | hm
          · exact hnoS hm
          · exact hS hm
        · intro e he; cases he
        · intro _ hn; exact absurd hobs hn
        · intro _
          exact ⟨r2, w2, key.trans hrun2, by rw [htr2]; exact List.prefix_append _ _⟩
      · rw [if_neg hobs] at key
        refine ⟨⟨_, _, _, key, htr, hcount, hnoS⟩, ?_, ?_, ?_⟩
        · intro e he; cases he
        · intro _ _; exact key
        · intro _
          exact ⟨_, _, key, List.prefix_refl _⟩

/-- Witness of C4: the fake driver reporting Running, asked to restart. -/
theorem C4_restart_two_paths_witness :
    (fixture.hostOn "foo" fixture.fakedriver).Driver
        = some (drivers.Driver.backend fixture.fakedriver) ∧
      ((drivers.Driver.backend fixture.fakedriver).getState
          (fixture.world state.State.Running fixture.fakeDetector).ext).1.1
        ≠ state.State.Stopped ∧
      ∃ res w' evs,
        (fixture.hostOn "foo" fixture.fakedriver).Restart (fixture.env 60 none)
            (fixture.world state.State.Running fixture.fakeDetector) = some (res, w') ∧
        w'.trace = (fixture.world state.State.Running fixture.fakeDetector).trace ++ evs ∧
        evs.count Event.Restart = 1 ∧ Event.Start ∉ evs :=
  ⟨rfl, by decide, ((C4_restart_two_paths (fixture.env 60 none)
    (fixture.hostOn "foo" fixture.fakedriver) (drivers.Driver.backend fixture.fakedriver)
    (fixture.world state.State.Running fixture.fakeDetector) rfl).2 (by decide) rfl).1⟩

/-- C5: (1) `Host.WaitForPodman` is provisioner detection followed, when detection
returns no error, by the guest wait on the detected provisioner, whose result it
returns; a detection error is returned as is. (2) A Start whose primitive succeeded
and whose wait observed Running returns exactly the result of `Host.WaitForPodman` run
from the world after the polls. (3) So does a Restart on its Running path, and a
Restart on its Stopped path once the inner Start returned nil. (4) Stop and Kill
always return and append only state-query events and their own primitive to the
trace: no detection, no command-channel wait, no guest wait. (5) A Stop or Kill
whose primitive succeeded returns nil in the world right after the first poll that
reports Stopped: that report is the last poll and no earlier poll reported it. -/
theorem C5_guest_wait_only_after_running (env : Env σ P) (h : host.Host σ)
    (d : drivers.Driver σ) (w : World σ P) (hd : h.Driver = some d) :
    (∃ r w1, provision.DetectProvisioner env h.Driver w = some (r, w1) ∧
      h.WaitForPodman env w = match r.2 with
        | some e => some (some e, w1)
        | none => provision.WaitForPodman env r.1 w1) ∧
    ((d.getState w.ext).1.1 ≠ state.State.Running →
      (d.prim drivers.Verb.Start (d.getState w.ext).2).1 = none →
      state.State.Running ∈ drivers.pollTrace d state.State.Running env.maxAttempts
        (d.prim drivers.Verb.Start (d.getState w.ext).2).2 →
      h.Start env w = h.WaitForPodman env
        (((w.afterGetState d).afterPrim d drivers.Verb.Start).afterWait d state.State.Running
          env.maxAttempts)) ∧
    ((d.getState w.ext).1.1 ≠ state.State.Stopped →
      (d.getState (d.getState w.ext).2).1.1 = state.State.Running →
      (d.prim drivers.Verb.Restart (d.getState (d.getState w.ext).2).2).1 = none →
      state.State.Running ∈ drivers.pollTrace d state.State.Running env.maxAttempts
        (d.prim drivers.Verb.Restart (d.getState (d.getState w.ext).2).2).2 →
      h.Restart env w = h.WaitForPodman env
        ((((w.afterGetState d).afterGetState d).afterPrim d drivers.Verb.Restart).afterWait d
          state.State.Running env.maxAttempts)) ∧
    ((d.getState w.ext).1.1 = state.State.Stopped →
      ∀ w1, h.Start env (w.afterGetState d) = some (none, w1) →
      h.Restart env w = h.WaitForPodman env w1) ∧
    (∀ v : host.LifecycleVerb, v ≠ host.LifecycleVerb.Start →
      ∃ res w' evs, h.perform env v w = some (res, w') ∧ w'.trace = w.trace ++ evs ∧
        ∀ e ∈ evs, e.isGetState = true ∨ e = v.prim.event) ∧
    (∀ v : host.LifecycleVerb, v ≠ host.LifecycleVerb.Start →
      (d.getState w.ext).1.1 ≠ state.State.Stopped →
      (d.prim v.prim (d.getState w.ext).2).1 = none →
      state.State.Stopped ∈ drivers.pollTrace d state.State.Stopped env.maxAttempts
        (d.prim v.prim (d.getState w.ext).2).2 →
      h.perform env v w = some (none,
        ((w.afterGetState d).afterPrim d v.prim).afterWait d state.State.Stopped
          env.maxAttempts) ∧
      (drivers.pollTrace d state.State.Stopped env.maxAttempts
        (d.prim v.prim (d.getState w.ext).2).2).getLast? = some state.State.Stopped ∧
      state.State.Stopped ∉ (drivers.pollTrace d state.State.Stopped env.maxAttempts
        (d.prim v.prim (d.getState w.ext).2).2).dropLast) := by
  refine ⟨host.Host.WaitForPodman_run env h w, ?_, ?_, ?_, ?_, ?_⟩
  · intro hs hp hobs
    have key := host.Host.perform_act env h d host.LifecycleVerb.Start w hd hs
    have hext : (w.afterGetState d).ext = (d.getState w.ext).2 := rfl
    have hext2 : ((w.afterGetState d).afterPrim d drivers.Verb.Start).ext
        = (d.prim drivers.Verb.Start (d.getState w.ext).2).2 := rfl
    simp only [host.LifecycleVerb.prim, host.LifecycleVerb.target] at key
    rw [hext, hp, hext2] at key
    simp only [hobs, if_true] at key
    exact key
  · intro hs hr hp hobs
    have key := host.Host.Restart_running env h d w hd hs hr
    rw [hp] at key
    simp only [hobs, if_true] at key
    exact key
  · intro hs w1 h1
    have key := host.Host.Restart_stopped env h d w hd hs
    rw [h1] at key
    exact key
  · intro v hv
    obtain ⟨res, w', evs, hrun, htr, hok, _, _⟩ := host.Host.stop_kill_appends env h d v hd hv w
    exact ⟨res, w', evs, hrun, htr, hok⟩
  · intro v hv hs hp hobs
    have ht : v.target = state.State.Stopped := by
      cases v with
      | Start => exact absurd rfl hv
      | Stop => rfl
      | Kill => rfl
    have key := host.Host.perform_act env h d v w hd (by rw [ht]; exact hs)
    have hext : (w.afterGetState d).ext = (d.getState w.ext).2 := rfl
    have hext2 : ((w.afterGetState d).afterPrim d v.prim).ext
        = (d.prim v.prim (d.getState w.ext).2).2 := rfl
    rw [hext, hp, hext2, ht] at key
    simp only [hobs, if_true, hv, if_false] at key
    exact ⟨key, drivers.pollTrace_observed d _ _ _ hobs, drivers.pollTrace_dropLast d _ _ _⟩

/-- Witness of C5: the fake driver reporting Running, asked to stop, touches neither
detection nor the guest. -/
theorem C5_guest_wait_only_after_running_witness :
    (fixture.hostOn "foo" fixture.fakedriver).Driver
        = some (drivers.Driver.backend fixture.fakedriver) ∧
      ∃ res w' evs,
        (fixture.hostOn "foo" fixture.fakedriver).perform (fixture.env 60 none)
            host.LifecycleVerb.Stop (fixture.world state.State.Running fixture.fakeDetector)
          = some (res, w') ∧
        w'.trace = (fixture.world state.State.Running fixture.fakeDetector).trace ++ evs ∧
        ∀ e ∈ evs, e.isGetState = true ∨ e = host.LifecycleVerb.Stop.prim.event :=
  ⟨rfl, (C5_guest_wait_only_after_running (fixture.env 60 none)
    (fixture.hostOn "foo" fixture.fakedriver) (drivers.Driver.backend fixture.fakedriver)
    (fixture.world state.State.Running fixture.fakeDetector) rfl).2.2.2.2.1
      host.LifecycleVerb.Stop (by decide)⟩

/-- C6: the stages of `Host.Upgrade`, in order. (1) If the state query fails,
Upgrade returns its error. (2) If the query succeeds and reports a state other than
Running, `Host.Start` is run after the query, and if it fails Upgrade returns its error.
(3) Once the host is ready (the query reported Running, in which case Start is not run,
or else Start returned nil), detection is run; if it fails Upgrade returns its error.
(4) If detection yields provisioner `p`, Upgrade calls `p.Package("podman", Upgrade)`,
which appends exactly that one package event to the trace, and returns its result.
In each of (1)-(3), and in (4) up to the world in which Package is called, no package
action has been performed since the call. -/
theorem C6_upgrade_stages (env : Env σ P) (h : host.Host σ) (d : drivers.Driver σ)
    (w : World σ P) (hd : h.Driver = some d) :
    (∀ e, (d.getState w.ext).1.2 = some e →
      h.Upgrade env w = some (some e, w.afterGetState d) ∧
      w.NoPackageSince (w.afterGetState d)) ∧
    ((d.getState w.ext).1.2 = none → (d.getState w.ext).1.1 ≠ state.State.Running →
      ∀ e w1, h.Start env (w.afterGetState d) = some (some e, w1) →
      h.Upgrade env w = some (some e, w1) ∧ w.NoPackageSince w1) ∧
    ((d.getState w.ext).1.2 = none → ∀ w1, h.UpgradeReadyAt env d w w1 →
      ∀ p e w2, provision.DetectProvisioner env h.Driver w1 = some ((p, some e), w2) →
      h.Upgrade env w = some (some e, w2) ∧ w.NoPackageSince w2) ∧
    ((d.getState w.ext).1.2 = none → ∀ w1, h.UpgradeReadyAt env d w w1 →
      ∀ p w2, provision.DetectProvisioner env h.Driver w1 = some ((some p, none), w2) →
      h.Upgrade env w
        = some ((env.methods.Package p "podman" pkgaction.PackageAction.Upgrade w2.ext).1,
            { w2 with
              ext := (env.methods.Package p "podman" pkgaction.PackageAction.Upgrade w2.ext).2,
              trace := w2.trace ++ [Event.Package "podman" pkgaction.PackageAction.Upgrade] }) ∧
      w.NoPackageSince w2) := by
  have key := host.Host.Upgrade_run env h d w hd
  refine ⟨?_, ?_, ?_, ?_⟩
  · intro e he
    rw [he] at key
    exact ⟨key, World.NoPackageSince.afterGetState d w⟩
  · intro hq hr e w1 hS
    rw [hq] at key
    simp only [hr, if_false, hS] at key
    exact ⟨key, (World.NoPackageSince.afterGetState d w).trans
      (host.Host.Start_noPackage env h d hd hS)⟩
  · intro hq w1 hready p e w2 hdet
    rw [hd] at hdet
    rw [hq] at key
    refine ⟨?_, (hready.noPackage hd).trans (provision.DetectProvisioner_noPackage env _ hdet)⟩
    rcases hready with ⟨hr, rfl⟩ | ⟨hr, hS⟩
    · simp only [hr, if_true, hdet] at key
      exact key
    · simp only [hr, if_false, hS, hdet] at key
      exact key
  · intro hq w1 hready p w2 hdet
    rw [hd] at hdet
    rw [hq] at key
    refine ⟨?_, (hready.noPackage hd).trans (provision.DetectProvisioner_noPackage env _ hdet)⟩
    rcases hready with ⟨hr, rfl⟩ | ⟨hr, hS⟩
    · simp only [hr, if_true, hdet] at key
      exact key
    · simp only [hr, if_false, hS, hdet] at key
      exact key

/-- Witness of C6: the fake driver reporting Running with the fake detector installed:
Upgrade queries the state, detects, and performs the one package action. -/
theorem C6_upgrade_stages_witness :
    (fixture.hostOn "foo" fixture.fakedriver).Driver
        = some (drivers.Driver.backend fixture.fakedriver) ∧
      (fixture.hostOn "foo" fixture.fakedriver).Upgrade (fixture.env 60 none)
          (fixture.world state.State.Running fixture.fakeDetector)
        = some (none, { fixture.world state.State.Running fixture.fakeDetector with
            trace := [Event.GetState state.State.Running, Event.DetectProvisioner,
              Event.Package "podman" pkgaction.PackageAction.Upgrade] }) :=
  ⟨rfl, ((C6_upgrade_stages (fixture.env 60 none) (fixture.hostOn "foo" fixture.fakedriver)
    (drivers.Driver.backend fixture.fakedriver)
    (fixture.world state.State.Running fixture.fakeDetector) rfl).2.2.2 rfl
      ((fixture.world state.State.Running fixture.fakeDetector).afterGetState
        (drivers.Driver.backend fixture.fakedriver))
      (Or.inl ⟨rfl, rfl⟩) { OsReleaseID := "fake", OsReleaseInfo := none } _ rfl).1⟩

end Lifecycle

/-! ## Driver resolution: `Client.NewHost` and `Client.Load` -/

section Resolution

variable {σ P : Type}

/-- C7: `Client.Load` for a host `h` that loads from the store. If driver resolution
fails with an error of type `ErrPluginBinaryNotFound`, Load does not fail: it returns
`h` with its `Driver` set to the error stand-in built from `h.DriverName`, and a nil
error. If resolution fails with an error of any other type, Load returns a nil host
and that error. -/
theorem C7_load_degrades_on_missing_plugin (api : libmachine.Client σ) (name : String)
    (w : World σ P) (h : host.Host σ) (s1 : σ)
    (hload : api.FilestoreLoad name w.ext = (Except.ok h, s1)) :
    (∀ dn dp s2, api.NewRPCClientDriver h.DriverName h.RawDriver s1
        = (Except.error (GoError.ErrPluginBinaryNotFound dn dp), s2) →
      api.Load name w
        = some ((some { h with Driver := some (drivers.Driver.errdriver h.DriverName) }, none),
                { w with ext := s2 })) ∧
    (∀ e s2, api.NewRPCClientDriver h.DriverName h.RawDriver s1 = (Except.error e, s2) →
      (∀ dn dp, e ≠ GoError.ErrPluginBinaryNotFound dn dp) →
      api.Load name w = some ((none, some e), { w with ext := s2 })) := by
  constructor
  · intro dn dp s2 hres
    simp [libmachine.Client.Load, Go.bind_run, Go.liftExt, hload, hres, Go.pure_run]
  · intro e s2 hres hne
    cases e <;>
      first
        | exact absurd rfl (hne _ _)
        | simp [libmachine.Client.Load, Go.bind_run, Go.liftExt, hload, hres, Go.pure_run]

/-- Witness of C7: a stored host whose plugin binary is gone loads with the stand-in. -/
theorem C7_load_degrades_on_missing_plugin_witness :
    fixture.client.FilestoreLoad "gone"
        (fixture.world state.State.Running fixture.fakeDetector).ext
      = (Except.ok (fixture.stored "gone"), state.State.Running) ∧
    fixture.client.Load "gone" (fixture.world state.State.Running fixture.fakeDetector)
      = some ((some { fixture.stored "gone" with
                Driver := some (drivers.Driver.errdriver "gone") }, none),
              fixture.world state.State.Running fixture.fakeDetector) :=
  ⟨rfl, (C7_load_degrades_on_missing_plugin fixture.client "gone"
    (fixture.world state.State.Running fixture.fakeDetector) (fixture.stored "gone")
    state.State.Running rfl).1 "gone" "podman-machine-driver" state.State.Running rfl⟩

/-- C8: `Client.NewHost` is atomic. If driver resolution fails it returns a nil host
together with the resolution error. If resolution succeeds it returns, with a nil
error, a host whose `Driver` is the resolved driver, whose `Name` is that driver's
machine name and whose `DriverName` is the name that driver reports. Whatever it
returns, a host it returns has a non-nil `Driver`. -/
theorem C8_new_host_atomic (env : Env σ P) (api : libmachine.Client σ) (driverName : String)
    (rawDriver : List UInt8) (w : World σ P) :
    (∀ e s1, api.NewRPCClientDriver driverName rawDriver w.ext = (Except.error e, s1) →
      api.NewHost env driverName rawDriver w = some ((none, some e), { w with ext := s1 })) ∧
    (∀ drv s1, api.NewRPCClientDriver driverName rawDriver w.ext = (Except.ok drv, s1) →
      ∃ hst, api.NewHost env driverName rawDriver w = some ((some hst, none), { w with ext := s1 }) ∧
        hst.Driver = some (drivers.Driver.backend drv) ∧
        hst.Name = drv.GetMachineName s1 ∧
        hst.DriverName = drv.DriverName s1) ∧
    (∀ hst e w', api.NewHost env driverName rawDriver w = some ((some hst, e), w') →
      hst.Driver ≠ none) := by
  refine ⟨?_, ?_, ?_⟩
  · intro e s1 hres
    simp [libmachine.Client.NewHost, Go.bind_run, Go.liftExt, hres, Go.pure_run]
  · intro drv s1 hres
    simp only [libmachine.Client.NewHost, Go.bind_run, Go.liftExt, hres, Go.get, Go.pure_run]
    exact ⟨_, rfl, rfl, rfl, rfl⟩
  · intro hst e w' hrun
    rcases hres : api.NewRPCClientDriver driverName rawDriver w.ext with ⟨r, s1⟩
    cases r with
    | error err =>
      simp [libmachine.Client.NewHost, Go.bind_run, Go.liftExt, hres, Go.pure_run] at hrun
    | ok drv =>
      simp only [libmachine.Client.NewHost, Go.bind_run, Go.liftExt, hres, Go.get, Go.pure_run,
        Option.some.injEq, Prod.mk.injEq] at hrun
      obtain ⟨⟨rfl, _⟩, _⟩ := hrun
      simp

/-- Witness of C8: the fixture factory resolves "fakedriver", and the new host carries
the resolved driver and its names. -/
theorem C8_new_host_atomic_witness :
    fixture.client.NewRPCClientDriver "fakedriver" []
        (fixture.world state.State.Running fixture.fakeDetector).ext
      = (Except.ok fixture.fakedriver, state.State.Running) ∧
    ∃ hst, fixture.client.NewHost (fixture.env 60 none) "fakedriver" []
          (fixture.world state.State.Running fixture.fakeDetector)
        = some ((some hst, none),
            { fixture.world state.State.Running fixture.fakeDetector with
              ext := state.State.Running }) ∧
      hst.Driver = some (drivers.Driver.backend fixture.fakedriver) ∧
      hst.Name = fixture.fakedriver.GetMachineName state.State.Running ∧
      hst.DriverName = fixture.fakedriver.DriverName state.State.Running :=
  ⟨rfl, (C8_new_host_atomic (fixture.env 60 none) fixture.client "fakedriver" []
    (fixture.world state.State.Running fixture.fakeDetector)).2.1 fixture.fakedriver
      state.State.Running rfl⟩

/-- C9: `Client.Load` for a host `h` that loads from the store. If driver resolution
succeeds and `h.DriverName` is exactly "virtualbox", the host is returned with the
serial wrapper around the resolved driver; if resolution succeeds and the name is
anything else, the resolved driver is attached unwrapped. Whatever Load returns, the
returned host carries a serial wrapper exactly when resolution succeeded and the name
is "virtualbox"; in particular the error stand-in is never wrapped. -/
theorem C9_serial_wrapper_only_for_virtualbox (api : libmachine.Client σ) (name : String)
    (w : World σ P) (h : host.Host σ) (s1 : σ)
    (hload : api.FilestoreLoad name w.ext = (Except.ok h, s1)) :
    (∀ drv s2, api.NewRPCClientDriver h.DriverName h.RawDriver s1 = (Except.ok drv, s2) →
      h.DriverName = "virtualbox" →
      api.Load name w
        = some ((some { h with
                    Driver := some (drivers.Driver.serial (drivers.Driver.backend drv)) }, none),
                { w with ext := s2 })) ∧
    (∀ drv s2, api.NewRPCClientDriver h.DriverName h.RawDriver s1 = (Except.ok drv, s2) →
      h.DriverName ≠ "virtualbox" →
      api.Load name w
        = some ((some { h with Driver := some (drivers.Driver.backend drv) }, none),
                { w with ext := s2 })) ∧
    (∀ hst e w', api.Load name w = some ((some hst, e), w') →
      ((∃ inner, hst.Driver = some (drivers.Driver.serial inner)) ↔
        ((∃ drv s2, api.NewRPCClientDriver h.DriverName h.RawDriver s1 = (Except.ok drv, s2)) ∧
          h.DriverName = "virtualbox"))) := by
  refine ⟨?_, ?_, ?_⟩
  · intro drv s2 hres hvb
    simp only [libmachine.Client.Load, Go.bind_run, Go.liftExt, hload, hres]
    simp [Go.pure_run, hvb]
  · intro drv s2 hres hvb
    simp only [libmachine.Client.Load, Go.bind_run, Go.liftExt, hload, hres]
    simp [Go.pure_run, hvb]
  · intro hst e w' hrun
    rcases hres : api.NewRPCClientDriver h.DriverName h.RawDriver s1 with ⟨r, s2⟩
    cases r with
    | error err =>
      have hnot : ¬ ∃ inner, hst.Driver = some (drivers.Driver.serial inner) := by
        rintro ⟨inner, hin⟩
        cases err <;>
          simp [libmachine.Client.Load, Go.bind_run, Go.liftExt, hload, hres, Go.pure_run] at hrun
        obtain ⟨⟨rfl, _⟩, _⟩ := hrun
        simp at hin
      simp [hnot]
    | ok drv =>
      simp only [libmachine.Client.Load, Go.bind_run, Go.liftExt, hload, hres] at hrun
      by_cases hvb : h.DriverName = "virtualbox"
      · simp only [Go.pure_run, hvb, if_true, Option.some.injEq, Prod.mk.injEq] at hrun
        obtain ⟨⟨rfl, _⟩, _⟩ := hrun
        simp [hvb]
      · simp only [Go.pure_run, hvb, if_false, Option.some.injEq, Prod.mk.injEq] at hrun
        obtain ⟨⟨rfl, _⟩, _⟩ := hrun
        simp [hvb]

/-- Witness of C9: a stored virtualbox host loads with the serial wrapper. -/
theorem C9_serial_wrapper_only_for_virtualbox_witness :
    fixture.client.FilestoreLoad "virtualbox"
        (fixture.world state.State.Running fixture.fakeDetector).ext
      = (Except.ok (fixture.stored "virtualbox"), state.State.Running) ∧
    fixture.client.Load "virtualbox" (fixture.world state.State.Running fixture.fakeDetector)
      = some ((some { fixture.stored "virtualbox" with
                Driver := some (drivers.Driver.serial
                  (drivers.Driver.backend fixture.fakedriver)) }, none),
              fixture.world state.State.Running fixture.fakeDetector) :=
  ⟨rfl, (C9_serial_wrapper_only_for_virtualbox fixture.client "virtualbox"
    (fixture.world state.State.Running fixture.fakeDetector) (fixture.stored "virtualbox")
    state.State.Running rfl).1 fixture.fakedriver state.State.Running rfl rfl⟩

end Resolution

/-! ## Provisioner detection -/

section Detection

variable {σ P : Type}

theorem provision.detectLoop_none (m : provision.ProvisionerMethods σ P)
    (d : Option (drivers.Driver σ)) (info : provision.OsRelease)
    (l : List (String × provision.RegisteredProvisioner σ P))
    (h : ∀ e ∈ l, provision.compatible m d info e = false) :
    provision.detectLoop m d info l = (none, some GoError.ErrDetectionFailed) := by
  induction l with
  | nil => rfl
  | cons e rest ih =>
    have he : m.CompatibleWithHost (m.SetOsReleaseInfo info (e.2.New d)) = false :=
      h e (List.mem_cons_self _ _)
    obtain ⟨k, p⟩ := e
    simp only [provision.detectLoop]
    simp only at he
    rw [he]
    simpa using ih fun x hx => h x (List.mem_cons_of_mem _ hx)

theorem provision.detectLoop_first (m : provision.ProvisionerMethods σ P)
    (d : Option (drivers.Driver σ)) (info : provision.OsRelease)
    (pre post : List (String × provision.RegisteredProvisioner σ P))
    (e : String × provision.RegisteredProvisioner σ P)
    (hpre : ∀ x ∈ pre, provision.compatible m d info x = false)
    (he : provision.compatible m d info e = true) :
    provision.detectLoop m d info (pre ++ e :: post)
      = (some (provision.candidate m d info e), none) := by
  induction pre with
  | nil =>
    obtain ⟨k, p⟩ := e
    have he' : m.CompatibleWithHost (m.SetOsReleaseInfo info (p.New d)) = true := he
    simp [provision.detectLoop, he', provision.candidate]
  | cons x rest ih =>
    have hx : m.CompatibleWithHost (m.SetOsReleaseInfo info (x.2.New d)) = false :=
      hpre x (List.mem_cons_self _ _)
    obtain ⟨k, p⟩ := x
    simp only [List.cons_append, provision.detectLoop]
    simp only at hx
    rw [hx]
    simpa using ih fun y hy => hpre y (List.mem_cons_of_mem _ hy)

theorem provision.exists_first_compatible (m : provision.ProvisionerMethods σ P)
    (d : Option (drivers.Driver σ)) (info : provision.OsRelease)
    (l : List (String × provision.RegisteredProvisioner σ P))
    (h : ∃ e ∈ l, provision.compatible m d info e = true) :
    ∃ pre e post, l = pre ++ e :: post ∧
      (∀ x ∈ pre, provision.compatible m d info x = false) ∧
      provision.compatible m d info e = true := by
  induction l with
  | nil => obtain ⟨e, he, _⟩ := h; simp at he
  | cons a rest ih =>
    by_cases ha : provision.compatible m d info a = true
    · exact ⟨[], a, rest, rfl, by simp, ha⟩
    · obtain ⟨e, he, hc⟩ := h
      have hrest : ∃ e ∈ rest, provision.compatible m d info e = true := by
        rcases List.mem_cons.mp he with rfl | hmem
        · exact absurd hc ha
        · exact ⟨e, hmem, hc⟩
      obtain ⟨pre, e', post, hl, hpre, he'⟩ := ih hrest
      refine ⟨a :: pre, e', post, by rw [hl]; rfl, ?_, he'⟩
      intro x hx
      rcases List.mem_cons.mp hx with rfl | hmem
      · simpa using ha
      · exact hpre x hmem

theorem provision.StandardDetector.detect_run (env : Env σ P)
    (d : Option (drivers.Driver σ)) (w : World σ P) (s1 s2 : σ) (out : String)
    (info : provision.OsRelease)
    (hssh : env.WaitForSSH d w.ext = (none, s1))
    (hcmd : env.RunSSHCommandFromDriver d "cat /etc/os-release" s1 = ((out, none), s2))
    (hparse : env.NewOsRelease out = Except.ok info) :
    provision.StandardDetector.DetectProvisioner env d w
      = some (provision.detectLoop env.methods d info (env.rangeOrder w.provisioners),
          { w with ext := s2,
                   trace := w.trace ++ [Event.WaitForSSH, Event.SSHCommand "cat /etc/os-release"] }) := by
  simp [provision.StandardDetector.DetectProvisioner, Go.bind_run, Go.log, Go.liftExt, hssh, hcmd,
    hparse, Go.get, Go.pure_run]

/-- C10: `StandardDetector.DetectProvisioner` when the command channel is reachable,
`cat /etc/os-release` succeeds and its output parses to `info`, the runtime ranging
over the registry in some order (a permutation of its entries). Detection returns
`ErrDetectionFailed` exactly when no registered factory yields a provisioner that
reports `CompatibleWithHost` once `info` is injected, and then the provisioner is nil.
Otherwise it returns, with a nil error, the provisioner built by a registered factory
against the given driver with `info` injected, which reports compatible and is the
first such one in the iteration order. -/
theorem C10_first_compatible_provisioner (env : Env σ P) (d : Option (drivers.Driver σ))
    (w : World σ P) (s1 s2 : σ) (out : String) (info : provision.OsRelease)
    (hssh : env.WaitForSSH d w.ext = (none, s1))
    (hcmd : env.RunSSHCommandFromDriver d "cat /etc/os-release" s1 = ((out, none), s2))
    (hparse : env.NewOsRelease out = Except.ok info)
    (hperm : (env.rangeOrder w.provisioners).Perm w.provisioners) :
    ∃ res, provision.StandardDetector.DetectProvisioner env d w
        = some (res,
            { w with
              ext := s2
              trace := w.trace ++ [Event.WaitForSSH, Event.SSHCommand "cat /etc/os-release"] }) ∧
      (res.2 = some GoError.ErrDetectionFailed ↔
        ∀ e ∈ w.provisioners, provision.compatible env.methods d info e = false) ∧
      (res.2 = some GoError.ErrDetectionFailed → res.1 = none) ∧
      ((∃ e ∈ w.provisioners, provision.compatible env.methods d info e = true) →
        ∃ pre e post, env.rangeOrder w.provisioners = pre ++ e :: post ∧
          e ∈ w.provisioners ∧
          (∀ x ∈ pre, provision.compatible env.methods d info x = false) ∧
          provision.compatible env.methods d info e = true ∧
          res = (some (provision.candidate env.methods d info e), none)) := by
  refine ⟨_, provision.StandardDetector.detect_run env d w s1 s2 out info hssh hcmd
    hparse, ?_, ?_, ?_⟩
  · constructor
    · intro hfail e he
      by_contra hc
      have hc' : provision.compatible env.methods d info e = true := by simpa using hc
      obtain ⟨pre, e', post, hl, hpre, he'⟩ := provision.exists_first_compatible env.methods d
        info (env.rangeOrder w.provisioners) ⟨e, (hperm.mem_iff).mpr he, hc'⟩
      rw [hl, provision.detectLoop_first env.methods d info pre post e' hpre he'] at hfail
      simp at hfail
    · intro hall
      rw [provision.detectLoop_none env.methods d info _
        fun e he => hall e ((hperm.mem_iff).mp he)]
  · intro hfail
    by_cases hex : ∃ e ∈ env.rangeOrder w.provisioners,
        provision.compatible env.methods d info e = true
    · obtain ⟨pre, e', post, hl, hpre, he'⟩ := provision.exists_first_compatible env.methods d
        info (env.rangeOrder w.provisioners) hex
      rw [hl, provision.detectLoop_first env.methods d info pre post e' hpre he'] at hfail
      simp at hfail
    · rw [provision.detectLoop_none env.methods d info _ fun e he => by
        simpa using fun hc => hex ⟨e, he, hc⟩]
  · rintro ⟨e, he, hc⟩
    obtain ⟨pre, e', post, hl, hpre, he'⟩ := provision.exists_first_compatible env.methods d
      info (env.rangeOrder w.provisioners) ⟨e, (hperm.mem_iff).mpr he, hc⟩
    refine ⟨pre, e', post, hl, ?_, hpre, he', ?_⟩
    · exact (hperm.mem_iff).mp (by rw [hl]; simp)
    · rw [hl, provision.detectLoop_first env.methods d info pre post e' hpre he']

/-- Witness of C10: a guest reporting `ID=fedora` with the Centos and Fedora
provisioners registered: the Centos candidate is tried first and rejected, and the
Fedora candidate, with the parsed info injected, is returned. -/
theorem C10_first_compatible_provisioner_witness :
    (fixture.env 60 none).WaitForSSH (some (drivers.Driver.backend fixture.fakedriver))
        (fixture.world state.State.Running provision.Detector.StandardDetector).ext
      = (none, state.State.Running) ∧
    (fixture.env 60 none).NewOsRelease "ID=fedora" = Except.ok (fixture.osRelease "fedora") ∧
    ∃ pre e post,
      (fixture.env 60 none).rangeOrder
          (fixture.world state.State.Running provision.Detector.StandardDetector).provisioners
        = pre ++ e :: post ∧
      (∀ x ∈ pre, provision.compatible fixture.methods
        (some (drivers.Driver.backend fixture.fakedriver)) (fixture.osRelease "fedora") x = false) ∧
      provision.StandardDetector.DetectProvisioner (fixture.env 60 none)
          (some (drivers.Driver.backend fixture.fakedriver))
          (fixture.world state.State.Running provision.Detector.StandardDetector)
        = some ((some (provision.candidate fixture.methods
              (some (drivers.Driver.backend fixture.fakedriver)) (fixture.osRelease "fedora") e),
            none),
            { fixture.world state.State.Running provision.Detector.StandardDetector with
              trace := [Event.WaitForSSH, Event.SSHCommand "cat /etc/os-release"] }) := by
  refine ⟨rfl, rfl, ?_⟩
  obtain ⟨res, hrun, _, _, hfirst⟩ := C10_first_compatible_provisioner (fixture.env 60 none)
    (some (drivers.Driver.backend fixture.fakedriver))
    (fixture.world state.State.Running provision.Detector.StandardDetector)
    state.State.Running state.State.Running "ID=fedora" (fixture.osRelease "fedora")
    rfl rfl rfl (List.Perm.refl _)
  obtain ⟨pre, e, post, hl, _, hpre, _, hres⟩ :=
    hfirst ⟨fixture.entry "Fedora" "fedora", by simp [fixture.world], by decide⟩
  exact ⟨pre, e, post, hl, hpre, by rw [hrun, hres]; rfl⟩

/-- C11: the standard detector fails at the first failing stage. (1) If waiting for
the command channel fails, that error is returned and the trace ends with the wait:
`cat /etc/os-release` is not executed. (2) If the command fails, the error returned is
"Error getting SSH command: " followed by the text of the command's error. (3) If
parsing the output fails, the error returned is "Error parsing /etc/os-release file: "
followed by the text of the parse error. In each case the provisioner returned is nil.
(4) Unless all three stages succeed, the pair returned is a nil provisioner and an
error that are the same whatever the registry holds: no candidate is consulted. -/
theorem C11_detection_fails_at_first_stage (env : Env σ P) (d : Option (drivers.Driver σ))
    (w : World σ P) :
    (∀ e s1, env.WaitForSSH d w.ext = (some e, s1) →
      provision.StandardDetector.DetectProvisioner env d w
        = some ((none, some e),
            { w with
              ext := s1
              trace := w.trace ++ [Event.WaitForSSH] })) ∧
    (∀ s1 out e s2, env.WaitForSSH d w.ext = (none, s1) →
      env.RunSSHCommandFromDriver d "cat /etc/os-release" s1 = ((out, some e), s2) →
      provision.StandardDetector.DetectProvisioner env d w
        = some ((none, some (GoError.errorString
              ("Error getting SSH command: " ++ env.ErrorText e))),
            { w with
              ext := s2
              trace := w.trace ++ [Event.WaitForSSH, Event.SSHCommand "cat /etc/os-release"] })) ∧
    (∀ s1 out s2 e, env.WaitForSSH d w.ext = (none, s1) →
      env.RunSSHCommandFromDriver d "cat /etc/os-release" s1 = ((out, none), s2) →
      env.NewOsRelease out = Except.error e →
      provision.StandardDetector.DetectProvisioner env d w
        = some ((none, some (GoError.errorString
              ("Error parsing /etc/os-release file: " ++ env.ErrorText e))),
            { w with
              ext := s2
              trace := w.trace ++ [Event.WaitForSSH, Event.SSHCommand "cat /etc/os-release"] })) ∧
    (¬ provision.StagesSucceed env d w →
      ∃ e, ∀ regs, ∃ w',
        provision.StandardDetector.DetectProvisioner env d { w with provisioners := regs }
          = some ((none, some e), w')) := by
  have h1 : ∀ (w : World σ P) e s1, env.WaitForSSH d w.ext = (some e, s1) →
      provision.StandardDetector.DetectProvisioner env d w
        = some ((none, some e),
            { w with
              ext := s1
              trace := w.trace ++ [Event.WaitForSSH] }) := by
    intro w e s1 hssh
    simp [provision.StandardDetector.DetectProvisioner, Go.bind_run, Go.log, Go.liftExt, hssh,
      Go.pure_run]
  have h2 : ∀ (w : World σ P) s1 out e s2, env.WaitForSSH d w.ext = (none, s1) →
      env.RunSSHCommandFromDriver d "cat /etc/os-release" s1 = ((out, some e), s2) →
      provision.StandardDetector.DetectProvisioner env d w
        = some ((none, some (GoError.errorString
              ("Error getting SSH command: " ++ env.ErrorText e))),
            { w with
              ext := s2
              trace := w.trace ++ [Event.WaitForSSH, Event.SSHCommand "cat /etc/os-release"] }) := by
    intro w s1 out e s2 hssh hcmd
    simp [provision.StandardDetector.DetectProvisioner, Go.bind_run, Go.log, Go.liftExt, hssh,
      hcmd, Go.pure_run]
  have h3 : ∀ (w : World σ P) s1 out s2 e, env.WaitForSSH d w.ext = (none, s1) →
      env.RunSSHCommandFromDriver d "cat /etc/os-release" s1 = ((out, none), s2) →
      env.NewOsRelease out = Except.error e →
      provision.StandardDetector.DetectProvisioner env d w
        = some ((none, some (GoError.errorString
              ("Error parsing /etc/os-release file: " ++ env.ErrorText e))),
            { w with
              ext := s2
              trace := w.trace ++ [Event.WaitForSSH, Event.SSHCommand "cat /etc/os-release"] }) := by
    intro w s1 out s2 e hssh hcmd hparse
    simp [provision.StandardDetector.DetectProvisioner, Go.bind_run, Go.log, Go.liftExt, hssh,
      hcmd, hparse, Go.pure_run]
  refine ⟨h1 w, h2 w, h3 w, ?_⟩
  intro hnot
  rcases hssh : env.WaitForSSH d w.ext with ⟨r1, s1⟩
  cases r1 with
  | some e => exact ⟨e, fun regs => ⟨_, h1 { w with provisioners := regs } e s1 hssh⟩⟩
  | none =>
    rcases hcmd : env.RunSSHCommandFromDriver d "cat /etc/os-release" s1 with ⟨⟨out, r2⟩, s2⟩
    cases r2 with
    | some e =>
      exact ⟨_, fun regs => ⟨_, h2 { w with provisioners := regs } s1 out e s2 hssh hcmd⟩⟩
    | none =>
      cases hparse : env.NewOsRelease out with
      | error e =>
        exact ⟨_, fun regs =>
          ⟨_, h3 { w with provisioners := regs } s1 out s2 e hssh hcmd hparse⟩⟩
      | ok info => exact absurd ⟨s1, out, s2, info, hssh, hcmd, hparse⟩ hnot

/-- Witness of C11: with an unreachable command channel detection returns the wait's
error and runs no command. -/
theorem C11_detection_fails_at_first_stage_witness :
    (fixture.envUnreachable 60).WaitForSSH (some (drivers.Driver.backend fixture.fakedriver))
        (fixture.world state.State.Running provision.Detector.StandardDetector).ext
      = (some (GoError.errorString "ssh unreachable"), state.State.Running) ∧
    provision.StandardDetector.DetectProvisioner (fixture.envUnreachable 60)
        (some (drivers.Driver.backend fixture.fakedriver))
        (fixture.world state.State.Running provision.Detector.StandardDetector)
      = some ((none, some (GoError.errorString "ssh unreachable")),
          { fixture.world state.State.Running provision.Detector.StandardDetector with
            trace := [Event.WaitForSSH] }) :=
  ⟨rfl, (C11_detection_fails_at_first_stage (fixture.envUnreachable 60)
    (some (drivers.Driver.backend fixture.fakedriver))
    (fixture.world state.State.Running provision.Detector.StandardDetector)).1
      (GoError.errorString "ssh unreachable") state.State.Running rfl⟩

/-- C12: the package-level `DetectProvisioner` delegates to the installed detector.
(1) After `SetDetector(&FakeDetector{Provisioner: p})`, `DetectProvisioner(d)` returns
`(p, nil)` for every driver `d`; the external state is untouched and the trace grows by
the detection call alone, so neither the driver nor the registry is consulted. (2) After
a subsequent `SetDetector(&StandardDetector{})`, `DetectProvisioner(d)` is the run of
the standard detector. -/
theorem C12_detector_override_and_restore (env : Env σ P) (w : World σ P) (p : Option P)
    (d : Option (drivers.Driver σ)) :
    (provision.SetDetector (provision.Detector.FakeDetector p) >>= fun _ =>
        provision.DetectProvisioner env d) w
      = some ((p, none),
          { w with
            detector := provision.Detector.FakeDetector p
            trace := w.trace ++ [Event.DetectProvisioner] }) ∧
    (provision.SetDetector (provision.Detector.FakeDetector p) >>= fun _ =>
        provision.SetDetector provision.Detector.StandardDetector >>= fun _ =>
        provision.DetectProvisioner env d) w
      = provision.StandardDetector.DetectProvisioner env d
          { w with
            detector := provision.Detector.StandardDetector
            trace := w.trace ++ [Event.DetectProvisioner] } := by
  constructor
  · simp [Go.bind_run, provision.SetDetector, provision.DetectProvisioner, Go.log, Go.get,
      provision.FakeDetector.DetectProvisioner, Go.pure_run]
  · simp [Go.bind_run, provision.SetDetector, provision.DetectProvisioner, Go.log, Go.get]

end Detection

/-! ## The systemd provisioner -/

section Systemd

variable {σ P : Type}

theorem String.join_append_lists (l1 l2 : List String) :
    String.join (l1 ++ l2) = String.join l1 ++ String.join l2 := by
  apply String.ext
  simp [String.data_join, String.data_append]

theorem String.join_cons_list (a : String) (l : List String) :
    String.join (a :: l) = a ++ String.join l := by
  apply String.ext
  simp [String.data_join, String.data_append]

theorem provision.engineConfigTmpl_eq_spec (quote : String → String)
    (ctx : provision.EngineConfigContext) :
    provision.engineConfigTmpl quote ctx
      = provision.engineConfigSpec quote ctx.AuthOptions ctx.EngineOptions := by
  simp only [provision.engineConfigTmpl, provision.engineConfigSpec, provision.flagItems,
    List.map_append, List.map_map, String.join_append_lists, List.map_cons, List.map_nil,
    String.join_cons_list, String.append_assoc]
  apply String.ext
  simp [String.data_join, String.data_append, Function.comp_def]

/-- C13: (1) for every `AuthOptions` and `EngineOptions` the template of
`GenerateEngineOptions` renders exactly the flag line the specification lists, item by
item and in that order, followed by the `Environment=` line of Go-quoted entries.
(2) `GenerateEngineOptions` returns, with a nil error, that rendering of the
provisioner's `AuthOptions` and of its `EngineOptions` as they stand when the template
is executed - the label list then ends with the label `provider=<driver name>` the
call has just appended - and the returned `EngineOptionsPath` is the provisioner's
`DaemonOptionsFile`. (3) For StorageDriver "overlay2", Labels ["a"] and ArbitraryFlags
["x"], the returned string contains `--storage-driver overlay2`, `--tlsverify`,
`--label a` and `--x`, in that relative order. -/
theorem C13_engine_config_rendering (quote : String → String) (p : provision.SystemdProvisioner σ)
    (d : drivers.Driver σ) (w : World σ P) (hd : p.Driver = some d) :
    (∀ a e, provision.engineConfigTmpl quote
        { AuthOptions := a, EngineOptions := e, EngineOptionsDir := "" }
      = provision.engineConfigSpec quote a e) ∧
    (∃ p1 : provision.SystemdProvisioner σ,
      p1.EngineOptions = { p.EngineOptions with
        Labels := p.EngineOptions.Labels ++ ["provider=" ++ d.driverName w.ext] } ∧
      p1.AuthOptions = p.AuthOptions ∧
      p.GenerateEngineOptions quote w
        = some (((some { EngineOptionsString :=
                          provision.engineConfigSpec quote p1.AuthOptions p1.EngineOptions
                         EngineOptionsPath := p.DaemonOptionsFile }, none), p1), w)) ∧
    (p.EngineOptions.StorageDriver = "overlay2" → p.EngineOptions.Labels = ["a"] →
      p.EngineOptions.ArbitraryFlags = ["x"] →
      ∃ r p1 s0 s1 s2 s3 s4, p.GenerateEngineOptions quote w = some (((some r, none), p1), w) ∧
        r.EngineOptionsString
          = s0 ++ "--storage-driver overlay2" ++ s1 ++ "--tlsverify" ++ s2 ++ "--label a" ++
            s3 ++ "--x" ++ s4) := by
  have hrun : p.GenerateEngineOptions quote w
      = some (((some { EngineOptionsString := provision.engineConfigTmpl quote
                          { AuthOptions := p.AuthOptions
                            EngineOptions := { p.EngineOptions with
                              Labels := p.EngineOptions.Labels ++
                                ["provider=" ++ d.driverName w.ext] }
                            EngineOptionsDir := "" }
                       EngineOptionsPath := p.DaemonOptionsFile }, none),
                { p with EngineOptions := { p.EngineOptions with
                    Labels := p.EngineOptions.Labels ++
                      ["provider=" ++ d.driverName w.ext] } }), w) := by
    simp only [provision.SystemdProvisioner.GenerateEngineOptions, hd, Go.bind_run, Go.get,
      Go.pure_run]
  refine ⟨fun a e => provision.engineConfigTmpl_eq_spec quote _, ?_, ?_⟩
  · refine ⟨{ p with EngineOptions := { p.EngineOptions with
        Labels := p.EngineOptions.Labels ++ ["provider=" ++ d.driverName w.ext] } },
      rfl, rfl, ?_⟩
    rw [hrun, provision.engineConfigTmpl_eq_spec]
  · intro hsd hl hf
    refine ⟨_, _, "", " ",
      " --tlscacert " ++ p.AuthOptions.CaCertRemotePath ++ " --tlscert " ++
        p.AuthOptions.ServerCertRemotePath ++ " --tlskey " ++
        p.AuthOptions.ServerKeyRemotePath ++ " ",
      " --label provider=" ++ d.driverName w.ext ++ " " ++
        String.join (p.EngineOptions.InsecureRegistry.map
          fun r => "--insecure-registry " ++ r ++ " ") ++
        String.join (p.EngineOptions.RegistryMirror.map
          fun m => "--registry-mirror " ++ m ++ " "),
      " \nEnvironment=" ++ String.join (p.EngineOptions.Env.map fun e => quote e ++ " ") ++ "\n",
      hrun, ?_⟩
    simp only [provision.engineConfigTmpl, hsd, hl, hf]
    apply String.ext
    simp [String.data_join, String.data_append]

/-- Witness of C13: the fixture provisioner with storage driver "overlay2", label "a"
and flag "x" on the fake driver. -/
theorem C13_engine_config_rendering_witness :
    (fixture.systemd "").Driver = some (drivers.Driver.backend fixture.fakedriver) ∧
    ∃ r p1 s0 s1 s2 s3 s4,
      (fixture.systemd "").GenerateEngineOptions fixture.quote
          (fixture.world state.State.Running fixture.fakeDetector)
        = some (((some r, none), p1), fixture.world state.State.Running fixture.fakeDetector) ∧
      r.EngineOptionsString
        = s0 ++ "--storage-driver overlay2" ++ s1 ++ "--tlsverify" ++ s2 ++ "--label a" ++
          s3 ++ "--x" ++ s4 :=
  ⟨rfl, (C13_engine_config_rendering fixture.quote (fixture.systemd "")
    (drivers.Driver.backend fixture.fakedriver)
    (fixture.world state.State.Running fixture.fakeDetector) rfl).2.2 rfl rfl rfl⟩

theorem provision.GenericProvisioner.SSHCommand_run (env : Env σ P)
    (p : provision.GenericProvisioner σ) (args : String) (w : World σ P) :
    p.SSHCommand env args w
      = some ((p.runCommand env args w.ext).1,
          { w with
            ext := (p.runCommand env args w.ext).2
            trace := w.trace ++ [Event.SSHCommand args] }) := by
  simp only [provision.GenericProvisioner.SSHCommand, provision.GenericProvisioner.runCommand,
    Go.bind_run, Go.log]
  cases p.SSHCommander <;> rfl

theorem provision.SystemdProvisioner.Service_unfold (env : Env σ P)
    (actionString : serviceaction.ServiceAction → String) (p : provision.SystemdProvisioner σ)
    (name : String) (action : serviceaction.ServiceAction) :
    p.Service env actionString name action
      = ((if action.needsReload = true then do
            let r ← p.toGenericProvisioner.SSHCommand env "sudo systemctl daemon-reload"
            pure r.2
          else pure none) >>= fun reloaded =>
        match reloaded with
        | some err => pure (some err)
        | none =>
          p.toGenericProvisioner.SSHCommand env
              ("sudo systemctl -f " ++ actionString action ++ " " ++ name) >>= fun r =>
            match r.2 with
            | some err => (pure (some err) : Go σ P error)
            | none => pure none) := by
  cases action <;> rfl

/-- C14: `SystemdProvisioner.Service(name, action)`. When the action is Start or
Restart the command `sudo systemctl daemon-reload` is issued first: (1) if it fails its
error is returned and the trace ends with the reload, the action command is not
issued; (2) otherwise `sudo systemctl -f <action> <name>` is issued immediately after
it and the result is that command's error or nil. (3) For every other action the
action command alone is issued and the result is its error or nil. -/
theorem C14_service_reloads_before_start (env : Env σ P)
    (actionString : serviceaction.ServiceAction → String) (p : provision.SystemdProvisioner σ)
    (name : String) (action : serviceaction.ServiceAction) (w : World σ P) :
    (action.needsReload = true ↔
      (action = serviceaction.ServiceAction.Start ∨
        action = serviceaction.ServiceAction.Restart)) ∧
    (action.needsReload = true →
      ∀ e, (p.toGenericProvisioner.runCommand env "sudo systemctl daemon-reload" w.ext).1.2
          = some e →
      p.Service env actionString name action w
        = some (some e,
            { w with
              ext := (p.toGenericProvisioner.runCommand env "sudo systemctl daemon-reload"
                w.ext).2
              trace := w.trace ++ [Event.SSHCommand "sudo systemctl daemon-reload"] })) ∧
    (action.needsReload = true →
      (p.toGenericProvisioner.runCommand env "sudo systemctl daemon-reload" w.ext).1.2 = none →
      p.Service env actionString name action w
        = some ((p.toGenericProvisioner.runCommand env
              ("sudo systemctl -f " ++ actionString action ++ " " ++ name)
              (p.toGenericProvisioner.runCommand env "sudo systemctl daemon-reload" w.ext).2).1.2,
            { w with
              ext := (p.toGenericProvisioner.runCommand env
                ("sudo systemctl -f " ++ actionString action ++ " " ++ name)
                (p.toGenericProvisioner.runCommand env "sudo systemctl daemon-reload"
                  w.ext).2).2
              trace := w.trace ++ [Event.SSHCommand "sudo systemctl daemon-reload",
                Event.SSHCommand ("sudo systemctl -f " ++ actionString action ++ " " ++ name)] })) ∧
    (action.needsReload = false →
      p.Service env actionString name action w
        = some ((p.toGenericProvisioner.runCommand env
              ("sudo systemctl -f " ++ actionString action ++ " " ++ name) w.ext).1.2,
            { w with
              ext := (p.toGenericProvisioner.runCommand env
                ("sudo systemctl -f " ++ actionString action ++ " " ++ name) w.ext).2
              trace := w.trace ++
                [Event.SSHCommand ("sudo systemctl -f " ++ actionString action ++ " " ++ name)] })) := by
  have tail : ∀ w1 : World σ P,
      (p.toGenericProvisioner.SSHCommand env
          ("sudo systemctl -f " ++ actionString action ++ " " ++ name) >>= fun r =>
        match r.2 with
        | some err => (pure (some err) : Go σ P error)
        | none => pure none) w1
      = some ((p.toGenericProvisioner.runCommand env
              ("sudo systemctl -f " ++ actionString action ++ " " ++ name) w1.ext).1.2,
            { w1 with
              ext := (p.toGenericProvisioner.runCommand env
                ("sudo systemctl -f " ++ actionString action ++ " " ++ name) w1.ext).2
              trace := w1.trace ++
                [Event.SSHCommand ("sudo systemctl -f " ++ actionString action ++ " " ++ name)] }) := by
    intro w1
    simp only [Go.bind_run, provision.GenericProvisioner.SSHCommand_run]
    cases (p.toGenericProvisioner.runCommand env
      ("sudo systemctl -f " ++ actionString action ++ " " ++ name) w1.ext).1.2 <;> rfl
  refine ⟨by cases action <;> simp [serviceaction.ServiceAction.needsReload], ?_, ?_, ?_⟩
  · intro hr e he
    rw [provision.SystemdProvisioner.Service_unfold]
    simp only [hr, if_true, Go.bind_run, provision.GenericProvisioner.SSHCommand_run,
      Go.pure_run, he]
  · intro hr he
    have := tail { w with
      ext := (p.toGenericProvisioner.runCommand env "sudo systemctl daemon-reload" w.ext).2
      trace := w.trace ++ [Event.SSHCommand "sudo systemctl daemon-reload"] }
    rw [provision.SystemdProvisioner.Service_unfold]
    simp only [hr, if_true, Go.bind_run, provision.GenericProvisioner.SSHCommand_run,
      Go.pure_run, he] at this ⊢
    simpa using this
  · intro hr
    have := tail w
    rw [provision.SystemdProvisioner.Service_unfold]
    simp only [hr, Bool.false_eq_true, if_false, Go.bind_run, Go.pure_run] at this ⊢
    exact this

/-- Witness of C14: starting a service through a commander whose reload fails returns
the reload's error after that one command. -/
theorem C14_service_reloads_before_start_witness :
    serviceaction.ServiceAction.Start.needsReload = true ∧
    ((fixture.systemd "sudo systemctl daemon-reload").toGenericProvisioner.runCommand
        (fixture.env 60 none) "sudo systemctl daemon-reload"
        (fixture.world state.State.Running fixture.fakeDetector).ext).1.2
      = some (GoError.errorString "exit status 1") ∧
    (fixture.systemd "sudo systemctl daemon-reload").Service (fixture.env 60 none)
        fixture.actionString "podman" serviceaction.ServiceAction.Start
        (fixture.world state.State.Running fixture.fakeDetector)
      = some (some (GoError.errorString "exit status 1"),
          { fixture.world state.State.Running fixture.fakeDetector with
            trace := [Event.SSHCommand "sudo systemctl daemon-reload"] }) :=
  ⟨rfl, rfl, (C14_service_reloads_before_start (fixture.env 60 none) fixture.actionString
    (fixture.systemd "sudo systemctl daemon-reload") "podman" serviceaction.ServiceAction.Start
    (fixture.world state.State.Running fixture.fakeDetector)).2.1 rfl
      (GoError.errorString "exit status 1") rfl⟩

end Systemd

/-! ## The `rm` command -/

section Rm

variable {σ P : Type}

theorem commands.removeRemoteMachine_loadFailed (api : libmachine.API σ) (n : String)
    (w : World σ P) (e : GoError) (he : (api.Load n w.ext).1.2 = some e) :
    commands.removeRemoteMachine n api w
      = some (some e,
          { w with
            ext := (api.Load n w.ext).2
            trace := w.trace ++ [Event.APILoad n] }) := by
  simp [commands.removeRemoteMachine, libmachine.API.callLoad, Go.bind_run, Go.log, Go.liftExt,
    he, Go.pure_run]

theorem commands.removeRemoteMachine_loaded (api : libmachine.API σ) (n : String)
    (w : World σ P) (h : host.Host σ) (d : drivers.Driver σ)
    (he : (api.Load n w.ext).1.2 = none) (hh : (api.Load n w.ext).1.1 = some h)
    (hd : h.Driver = some d) :
    commands.removeRemoteMachine n api w
      = some ((d.prim drivers.Verb.Remove (api.Load n w.ext).2).1,
          { w with
            ext := (d.prim drivers.Verb.Remove (api.Load n w.ext).2).2
            trace := w.trace ++ [Event.APILoad n, Event.Remove] }) := by
  simp [commands.removeRemoteMachine, libmachine.API.callLoad, Go.bind_run, Go.log, Go.liftExt,
    he, hh, hd, drivers.Driver.call_run, World.afterPrim, drivers.Verb.event]

theorem commands.removeLocalMachine_run (api : libmachine.API σ) (n : String) (w : World σ P) :
    commands.removeLocalMachine n api w
      = if (api.Exists n w.ext).1.1 = true then
          some ((api.Remove n (api.Exists n w.ext).2).1,
            { w with
              ext := (api.Remove n (api.Exists n w.ext).2).2
              trace := w.trace ++ [Event.APIExists n, Event.APIRemove n] })
        else
          some (some (GoError.errorString (n ++ " does not exist.")),
            { w with
              ext := (api.Exists n w.ext).2
              trace := w.trace ++ [Event.APIExists n] }) := by
  simp only [commands.removeLocalMachine, libmachine.API.callExists, libmachine.API.callRemove,
    Go.bind_run, Go.log, Go.liftExt]
  cases (api.Exists n w.ext).1.1 <;> simp [Go.pure_run, Go.bind_run, Go.log, Go.liftExt]

theorem commands.removeLocalMachine_total (api : libmachine.API σ) (n : String) (w : World σ P) :
    ∃ l w2, commands.removeLocalMachine n api w = some (l, w2) := by
  rw [commands.removeLocalMachine_run]
  split <;> exact ⟨_, _, rfl⟩

theorem commands.cmdRm.loop_eq_records (deps : commands.Deps σ) (force : Bool)
    (api : libmachine.API σ) (args : List String) (acc : List String) (w : World σ P) :
    commands.cmdRm.loop deps force api args acc w
      = match commands.rmRecords force api args w with
        | none => none
        | some (recs, w') => some (acc ++ (recs.map (commands.RmRecord.messages deps)).flatten, w') := by
  induction args generalizing acc w with
  | nil => simp [commands.cmdRm.loop, commands.rmRecords, Go.pure_run]
  | cons n rest ih =>
    simp only [commands.cmdRm.loop, commands.rmRecords, commands.cmdRm.body, Go.bind_run]
    cases hr : commands.removeRemoteMachine n api w with
    | none => rfl
    | some r =>
      obtain ⟨err, w1⟩ := r
      simp only
      by_cases hc : (err = none || force) = true
      · simp only [hc, if_true, Go.bind_run]
        obtain ⟨l, w2, hl⟩ := commands.removeLocalMachine_total api n w1
        simp only [hl]
        cases hrec : commands.rmRecords force api rest w2 with
        | none => cases l <;> simp [Go.pure_run, Go.bind_run, ih, hrec]
        | some rr =>
          obtain ⟨recs, w3⟩ := rr
          cases l <;> cases err <;>
            simp [Go.pure_run, Go.bind_run, ih, hrec, commands.RmRecord.messages,
              commands.collectError]
      · simp only [hc, if_false, Go.bind_run, Go.pure_run, Bool.false_eq_true]
        cases hrec : commands.rmRecords force api rest w1 with
        | none => simp [ih, hrec]
        | some rr =>
          obtain ⟨recs, w3⟩ := rr
          cases err with
          | none => simp at hc
          | some e => simp [ih, hrec, commands.RmRecord.messages, commands.collectError]

theorem commands.removeRemoteMachine_total (api : libmachine.API σ) (hlive : api.LoadsLive)
    (n : String) (w : World σ P) :
    ∃ r w1, commands.removeRemoteMachine n api w = some (r, w1) := by
  cases he : (api.Load n w.ext).1.2 with
  | some e => exact ⟨_, _, commands.removeRemoteMachine_loadFailed api n w e he⟩
  | none =>
    obtain ⟨h, d, hh, hd⟩ := hlive n w.ext he
    exact ⟨_, _, commands.removeRemoteMachine_loaded api n w h d he hh hd⟩

theorem commands.removeRemoteMachine_trace (api : libmachine.API σ) (n : String)
    (w w1 : World σ P) (r : error) (hrun : commands.removeRemoteMachine n api w = some (r, w1)) :
    w1.trace = w.trace ++ [Event.APILoad n] ∨
      w1.trace = w.trace ++ [Event.APILoad n, Event.Remove] := by
  cases he : (api.Load n w.ext).1.2 with
  | some e =>
    rw [commands.removeRemoteMachine_loadFailed api n w e he] at hrun
    simp only [Option.some.injEq, Prod.mk.injEq] at hrun
    obtain ⟨_, rfl⟩ := hrun
    exact Or.inl rfl
  | none =>
    cases hh : (api.Load n w.ext).1.1 with
    | none =>
      simp [commands.removeRemoteMachine, libmachine.API.callLoad, Go.bind_run, Go.log,
        Go.liftExt, he, hh, Go.panic] at hrun
    | some h =>
      cases hd : h.Driver with
      | none =>
        simp [commands.removeRemoteMachine, libmachine.API.callLoad, Go.bind_run, Go.log,
          Go.liftExt, he, hh, hd, drivers.Driver.call, Go.panic] at hrun
      | some d =>
        rw [commands.removeRemoteMachine_loaded api n w h d he hh hd] at hrun
        simp only [Option.some.injEq, Prod.mk.injEq] at hrun
        obtain ⟨_, rfl⟩ := hrun
        exact Or.inr rfl

theorem commands.removeLocalMachine_trace (api : libmachine.API σ) (n : String)
    (w w2 : World σ P) (l : error) (hrun : commands.removeLocalMachine n api w = some (l, w2)) :
    w2.trace = w.trace ++ [Event.APIExists n] ∨
      w2.trace = w.trace ++ [Event.APIExists n, Event.APIRemove n] := by
  rw [commands.removeLocalMachine_run] at hrun
  split at hrun <;>
    simp only [Option.some.injEq, Prod.mk.injEq] at hrun <;>
    obtain ⟨_, rfl⟩ := hrun
  · exact Or.inr rfl
  · exact Or.inl rfl

theorem commands.rmRecords_cons (force : Bool) (api : libmachine.API σ) (n : String)
    (rest : List String) (w : World σ P) :
    commands.rmRecords force api (n :: rest) w
      = match commands.removeRemoteMachine n api w with
        | none => none
        | some (err, w1) =>
          if (err = none || force) = true then
            match commands.removeLocalMachine n api w1 with
            | none => none
            | some (l, w2) =>
              match commands.rmRecords force api rest w2 with
              | none => none
              | some (recs, w3) =>
                some ({ name := n, remote := err, localRemoval := some l } :: recs, w3)
          else
            match commands.rmRecords force api rest w1 with
            | none => none
            | some (recs, w3) =>
              some ({ name := n, remote := err, localRemoval := none } :: recs, w3) := by
  simp only [commands.rmRecords, Go.bind_run]
  cases commands.removeRemoteMachine n api w with
  | none => rfl
  | some r =>
    obtain ⟨err, w1⟩ := r
    simp only
    split
    · simp only [Go.bind_run]
      cases commands.removeLocalMachine n api w1 with
      | none => rfl
      | some r2 =>
        obtain ⟨l, w2⟩ := r2
        simp only [Go.bind_run]
        cases commands.rmRecords force api rest w2 with
        | none => rfl
        | some r3 => rfl
    · simp only [Go.bind_run]
      cases commands.rmRecords force api rest w1 with
      | none => rfl
      | some r3 => rfl

/-- What a run of the record loop guarantees about its records and its trace. -/
theorem commands.rmRecords_spec (force : Bool) (api : libmachine.API σ) (args : List String)
    (w w' : World σ P) (recs : List commands.RmRecord)
    (hrun : commands.rmRecords force api args w = some (recs, w')) :
    recs.map (fun r => r.name) = args ∧
    (∀ r ∈ recs, (r.localRemoval ≠ none ↔ (r.remote = none ∨ force = true))) ∧
    ∃ evs, w'.trace = w.trace ++ evs ∧
      ∀ r ∈ recs, Event.APILoad r.name ∈ evs ∧
        (r.localRemoval ≠ none → Event.APIExists r.name ∈ evs) := by
  induction args generalizing w recs with
  | nil =>
    simp only [commands.rmRecords, Go.pure_run, Option.some.injEq, Prod.mk.injEq] at hrun
    obtain ⟨rfl, rfl⟩ := hrun
    exact ⟨rfl, by simp, [], by simp, by simp⟩
  | cons n rest ih =>
    rw [commands.rmRecords_cons] at hrun
    cases hr : commands.removeRemoteMachine n api w with
    | none => rw [hr] at hrun; simp at hrun
    | some r =>
      obtain ⟨err, w1⟩ := r
      rw [hr] at hrun
      simp only at hrun
      have ht1 := commands.removeRemoteMachine_trace api n w w1 err hr
      have hload : ∃ t1, w1.trace = w.trace ++ t1 ∧ Event.APILoad n ∈ t1 := by
        rcases ht1 with h | h
        · exact ⟨_, h, by simp⟩
        · exact ⟨_, h, by simp⟩
      obtain ⟨t1, htr1, hmem1⟩ := hload
      by_cases hc : (err = none || force) = true
      · rw [if_pos hc] at hrun
        cases hl : commands.removeLocalMachine n api w1 with
        | none => rw [hl] at hrun; simp at hrun
        | some r2 =>
          obtain ⟨l, w2⟩ := r2
          rw [hl] at hrun
          simp only at hrun
          have ht2 := commands.removeLocalMachine_trace api n w1 w2 l hl
          have hex : ∃ t2, w2.trace = w1.trace ++ t2 ∧ Event.APIExists n ∈ t2 := by
            rcases ht2 with h | h
            · exact ⟨_, h, by simp⟩
            · exact ⟨_, h, by simp⟩
          obtain ⟨t2, htr2, hmem2⟩ := hex
          cases hrest : commands.rmRecords force api rest w2 with
          | none => rw [hrest] at hrun; simp at hrun
          | some r3 =>
            obtain ⟨recs3, w3⟩ := r3
            rw [hrest] at hrun
            simp only [Option.some.injEq, Prod.mk.injEq] at hrun
            obtain ⟨rfl, rfl⟩ := hrun
            obtain ⟨hn, hloc, evs, htr, hev⟩ := ih w2 recs3 hrest
            refine ⟨by simp [hn], ?_, t1 ++ t2 ++ evs, ?_, ?_⟩
            · intro r hr'
              rcases List.mem_cons.mp hr' with rfl | hm
              · simpa using hc
              · exact hloc r hm
            · rw [htr, htr2, htr1]; simp
            · intro r hr'
              rcases List.mem_cons.mp hr' with rfl | hm
              · simp [hmem1, hmem2]
              · obtain ⟨h1, h2⟩ := hev r hm
                exact ⟨by simp [h1], fun h => by simp [h2 h]⟩
      · rw [if_neg hc] at hrun
        cases hrest : commands.rmRecords force api rest w1 with
        | none => rw [hrest] at hrun; simp at hrun
        | some r3 =>
          obtain ⟨recs3, w3⟩ := r3
          rw [hrest] at hrun
          simp only [Option.some.injEq, Prod.mk.injEq] at hrun
          obtain ⟨rfl, rfl⟩ := hrun
          obtain ⟨hn, hloc, evs, htr, hev⟩ := ih w1 recs3 hrest
          refine ⟨by simp [hn], ?_, t1 ++ evs, ?_, ?_⟩
          · intro r hr'
            rcases List.mem_cons.mp hr' with rfl | hm
            · simpa using hc
            · exact hloc r hm
          · rw [htr, htr1]; simp
          · intro r hr'
            rcases List.mem_cons.mp hr' with rfl | hm
            · simp [hmem1]
            · obtain ⟨h1, h2⟩ := hev r hm
              exact ⟨by simp [h1], fun h => by simp [h2 h]⟩

theorem commands.rmRecords_total (force : Bool) (api : libmachine.API σ) (hlive : api.LoadsLive)
    (args : List String) (w : World σ P) :
    ∃ recs w', commands.rmRecords force api args w = some (recs, w') := by
  induction args generalizing w with
  | nil => exact ⟨[], w, rfl⟩
  | cons n rest ih =>
    rw [commands.rmRecords_cons]
    obtain ⟨err, w1, hr⟩ := commands.removeRemoteMachine_total api hlive n w
    rw [hr]
    simp only
    split
    · obtain ⟨l, w2, hl⟩ := commands.removeLocalMachine_total api n w1
      obtain ⟨recs, w3, hrest⟩ := ih w2
      rw [hl]
      simp only [hrest]
      exact ⟨_, _, rfl⟩
    · obtain ⟨recs, w3, hrest⟩ := ih w1
      simp only [hrest]
      exact ⟨_, _, rfl⟩

theorem commands.cmdRm_run (deps : commands.Deps σ) (c : commands.CommandLine)
    (api : libmachine.API σ) (w : World σ P) (hargs : c.Args ≠ []) :
    commands.cmdRm deps c api w
      = match commands.userConfirm deps (c.BoolFlag "y") (c.BoolFlag "force") w with
        | none => none
        | some (false, w0) => some (none, w0)
        | some (true, w0) =>
          match commands.rmRecords (c.BoolFlag "force") api c.Args w0 with
          | none => none
          | some (recs, w') =>
            some (
              if (recs.map (commands.RmRecord.messages deps)).flatten ≠ [] ∧
                  c.BoolFlag "force" = false then
                some (GoError.errorString (String.intercalate "\n"
                  (recs.map (commands.RmRecord.messages deps)).flatten))
              else none, w') := by
  have hlen : ¬ c.Args.length = 0 := by
    intro h
    exact hargs (List.length_eq_zero.mp h)
  simp only [commands.cmdRm, hlen, if_false, Go.bind_run]
  cases commands.userConfirm deps (c.BoolFlag "y") (c.BoolFlag "force") w with
  | none => rfl
  | some r =>
    obtain ⟨b, w0⟩ := r
    cases b with
    | false => rfl
    | true =>
      simp only [Bool.not_true, Bool.false_eq_true, if_false, Go.bind_run,
        commands.cmdRm.loop_eq_records, List.nil_append]
      cases commands.rmRecords (c.BoolFlag "force") api c.Args w0 with
      | none => rfl
      | some rr =>
        obtain ⟨recs, w'⟩ := rr
        simp only
        cases hf : c.BoolFlag "force" <;>
          cases hm : (recs.map (commands.RmRecord.messages deps)).flatten <;>
          simp [Go.pure_run]

theorem commands.messages_nil_iff (deps : commands.Deps σ) (recs : List commands.RmRecord)
    (hloc : ∀ r ∈ recs, (r.localRemoval ≠ none ↔ (r.remote = none ∨ false = true))) :
    (recs.map (commands.RmRecord.messages deps)).flatten = [] ↔ ∀ r ∈ recs, r.clean := by
  simp only [List.flatten_eq_nil_iff, List.mem_map, forall_exists_index, and_imp,
    forall_apply_eq_imp_iff₂]
  constructor
  · intro h r hr
    have hm := h r hr
    have hl := hloc r hr
    rcases r with ⟨n, rem, loc⟩
    cases rem with
    | some e => simp [commands.RmRecord.messages] at hm
    | none =>
      cases loc with
      | none => simp at hl
      | some l =>
        cases l with
        | none => exact ⟨rfl, rfl⟩
        | some e => simp [commands.RmRecord.messages] at hm
  · intro h r hr
    obtain ⟨h1, h2⟩ := h r hr
    simp [commands.RmRecord.messages, h1, h2]

theorem commands.cmdRm.body_skips_local (deps : commands.Deps σ) (api : libmachine.API σ)
    (n : String) (acc : List String) (w w1 : World σ P) (e : GoError)
    (hr : commands.removeRemoteMachine n api w = some (some e, w1)) :
    commands.cmdRm.body deps false api n acc w
      = some (acc ++ ["Error removing host " ++ deps.Quote n ++ ": " ++ deps.Error e], w1) := by
  simp [commands.cmdRm.body, Go.bind_run, hr, Go.pure_run, commands.collectError]

theorem commands.cmdRm.body_runs_local (deps : commands.Deps σ) (force : Bool)
    (api : libmachine.API σ) (n : String) (acc : List String) (w w1 w2 : World σ P)
    (r l : error) (hr : commands.removeRemoteMachine n api w = some (r, w1))
    (hc : r = none ∨ force = true)
    (hl : commands.removeLocalMachine n api w1 = some (l, w2)) :
    commands.cmdRm.body deps force api n acc w
      = some (commands.withLocalFailure n l (commands.withRemoteFailure deps n r acc), w2) := by
  have hc' : (r = none || force) = true := by
    rcases hc with h | h <;> simp [h]
  simp only [commands.cmdRm.body, Go.bind_run, hr, hc', if_true, hl]
  cases l <;> cases r <;>
    simp [Go.pure_run, commands.collectError, commands.withLocalFailure,
      commands.withRemoteFailure]

theorem commands.cmdRm.loop_append (deps : commands.Deps σ) (force : Bool)
    (api : libmachine.API σ) (xs ys : List String) (acc : List String) (w : World σ P) :
    commands.cmdRm.loop deps force api (xs ++ ys) acc w
      = match commands.cmdRm.loop deps force api xs acc w with
        | none => none
        | some (m, w1) => commands.cmdRm.loop deps force api ys m w1 := by
  induction xs generalizing acc w with
  | nil => simp [commands.cmdRm.loop, Go.pure_run]
  | cons n rest ih =>
    simp only [List.cons_append, commands.cmdRm.loop, Go.bind_run]
    cases commands.cmdRm.body deps force api n acc w with
    | none => rfl
    | some r =>
      obtain ⟨m, w1⟩ := r
      exact ih m w1

theorem commands.rmRecords_cons_failed (api : libmachine.API σ) (n : String)
    (rest : List String) (w w1 w3 : World σ P) (e : GoError) (recs : List commands.RmRecord)
    (hr : commands.removeRemoteMachine n api w = some (some e, w1))
    (hrest : commands.rmRecords false api rest w1 = some (recs, w3)) :
    commands.rmRecords false api (n :: rest) w
      = some ({ name := n, remote := some e, localRemoval := none } :: recs, w3) := by
  rw [commands.rmRecords_cons, hr]
  simp [hrest]

theorem commands.rmRecords_cons_removed (force : Bool) (api : libmachine.API σ) (n : String)
    (rest : List String) (w w1 w2 w3 : World σ P) (l : error) (recs : List commands.RmRecord)
    (hr : commands.removeRemoteMachine n api w = some (none, w1))
    (hl : commands.removeLocalMachine n api w1 = some (l, w2))
    (hrest : commands.rmRecords force api rest w2 = some (recs, w3)) :
    commands.rmRecords force api (n :: rest) w
      = some ({ name := n, remote := none, localRemoval := some l } :: recs, w3) := by
  rw [commands.rmRecords_cons, hr]
  simp only [decide_True, Bool.true_or, if_true, hl, hrest]

/-- One pass of the loop for the host `n` that follows the hosts `pre`, when the local
removal is run. -/
theorem commands.cmdRm.loop_pass (deps : commands.Deps σ) (force : Bool)
    (api : libmachine.API σ) (pre post : List String) (n : String) (m1 : List String)
    (w0 w1 w2 w3 : World σ P) (r l : error)
    (hpre : commands.cmdRm.loop deps force api pre [] w0 = some (m1, w1))
    (hr : commands.removeRemoteMachine n api w1 = some (r, w2))
    (hc : r = none ∨ force = true)
    (hl : commands.removeLocalMachine n api w2 = some (l, w3)) :
    commands.cmdRm.loop deps force api (pre ++ n :: post) [] w0
      = commands.cmdRm.loop deps force api post
          (commands.withLocalFailure n l (commands.withRemoteFailure deps n r m1)) w3 := by
  rw [commands.cmdRm.loop_append, hpre]
  simp only [commands.cmdRm.loop, Go.bind_run]
  rw [commands.cmdRm.body_runs_local deps force api n m1 w1 w2 w3 r l hr hc hl]

/-- The remote removal of a host that loads with a driver whose `Remove` returns `r`. -/
theorem commands.removeRemoteMachine_of_load (api : libmachine.API σ) (n : String)
    (w : World σ P) (h : host.Host σ) (d : drivers.Driver σ) (s1 s2 : σ) (r : error)
    (hload : api.Load n w.ext = ((some h, none), s1)) (hd : h.Driver = some d)
    (hrem : d.prim drivers.Verb.Remove s1 = (r, s2)) :
    commands.removeRemoteMachine n api w
      = some (r,
          { w with
            ext := s2
            trace := w.trace ++ [Event.APILoad n, Event.Remove] }) := by
  rw [commands.removeRemoteMachine_loaded api n w h d (by rw [hload]) (by rw [hload]) hd,
    hload]
  simp only [hrem]

/-- The local removal of a host the store reports, whose `Remove` returns `l`. -/
theorem commands.removeLocalMachine_of_exists (api : libmachine.API σ) (n : String)
    (w : World σ P) (x l : error) (s3 s4 : σ)
    (hex : api.Exists n w.ext = ((true, x), s3)) (hrm : api.Remove n s3 = (l, s4)) :
    commands.removeLocalMachine n api w
      = some (l,
          { w with
            ext := s4
            trace := w.trace ++ [Event.APIExists n, Event.APIRemove n] }) := by
  rw [commands.removeLocalMachine_run, hex]
  simp only [if_true, hrm]

/-- The local removal of a host the store does not report. -/
theorem commands.removeLocalMachine_of_missing (api : libmachine.API σ) (n : String)
    (w : World σ P) (x : error) (s3 : σ)
    (hex : api.Exists n w.ext = ((false, x), s3)) :
    commands.removeLocalMachine n api w
      = some (some (GoError.errorString (n ++ " does not exist.")),
          { w with
            ext := s3
            trace := w.trace ++ [Event.APIExists n] }) := by
  rw [commands.removeLocalMachine_run, hex]
  simp only [Bool.false_eq_true, if_false]

/-- C15 (amended): `cmdRm` without force, the confirmation having been given
(`userConfirm` returned true, leaving world `w0`). (1) For every split of the argument
list around a host `n`, whatever messages `m1` the earlier hosts left: if `n` loads and
its driver's `Remove` returns nil (the remote removal succeeds, leaving the store state
`s2`), the store is asked next whether `n` exists; if it does, the store's `Remove` is
applied, and when that returns nil the host has left the store, no message is added
and the loop goes on with the remaining hosts; when the store's `Remove` fails, or the
store does not report the host, the message `Can't remove "n"` is added and the loop
goes on with the remaining hosts. (2) For the arguments `[A, B]` where the remote
removal of `A` fails with `eA` and the removal of `B` succeeds remotely and locally,
`cmdRm` returns the error whose message is `Error removing host "A": eA`, and the
store's `Remove(B)` has been performed. -/
theorem C15_rm_continues_after_failure (deps : commands.Deps σ) (c : commands.CommandLine)
    (api : libmachine.API σ) (w w0 : World σ P) (hforce : c.BoolFlag "force" = false)
    (hconf : commands.userConfirm deps (c.BoolFlag "y") (c.BoolFlag "force") w = some (true, w0)) :
    (∀ pre n post m1 w1 h d s1 s2, c.Args = pre ++ n :: post →
      commands.cmdRm.loop deps false api pre [] w0 = some (m1, w1) →
      api.Load n w1.ext = ((some h, none), s1) → h.Driver = some d →
      d.prim drivers.Verb.Remove s1 = (none, s2) →
      (∀ x s3 s4, api.Exists n s2 = ((true, x), s3) → api.Remove n s3 = (none, s4) →
        commands.cmdRm.loop deps false api c.Args [] w0
          = commands.cmdRm.loop deps false api post m1
              { w1 with
                ext := s4
                trace := w1.trace ++ [Event.APILoad n, Event.Remove, Event.APIExists n,
                  Event.APIRemove n] }) ∧
      (∀ x s3 e s4, api.Exists n s2 = ((true, x), s3) → api.Remove n s3 = (some e, s4) →
        commands.cmdRm.loop deps false api c.Args [] w0
          = commands.cmdRm.loop deps false api post (m1 ++ ["Can't remove \"" ++ n ++ "\""])
              { w1 with
                ext := s4
                trace := w1.trace ++ [Event.APILoad n, Event.Remove, Event.APIExists n,
                  Event.APIRemove n] }) ∧
      (∀ x s3, api.Exists n s2 = ((false, x), s3) →
        commands.cmdRm.loop deps false api c.Args [] w0
          = commands.cmdRm.loop deps false api post (m1 ++ ["Can't remove \"" ++ n ++ "\""])
              { w1 with
                ext := s3
                trace := w1.trace ++ [Event.APILoad n, Event.Remove, Event.APIExists n] })) ∧
    (∀ A B eA w1 w2, c.Args = [A, B] →
      commands.removeRemoteMachine A api w0 = some (some eA, w1) →
      commands.removeRemoteMachine B api w1 = some (none, w2) →
      (api.Exists B w2.ext).1.1 = true →
      (api.Remove B (api.Exists B w2.ext).2).1 = none →
      commands.cmdRm deps c api w
        = some (some (GoError.errorString
              ("Error removing host " ++ deps.Quote A ++ ": " ++ deps.Error eA)),
            { w2 with
              ext := (api.Remove B (api.Exists B w2.ext).2).2
              trace := w2.trace ++ [Event.APIExists B, Event.APIRemove B] })) := by
  constructor
  · intro pre n post m1 w1 h d s1 s2 hargs hpre hload hd hrem
    have hr := commands.removeRemoteMachine_of_load api n w1 h d s1 s2 none hload hd hrem
    refine ⟨?_, ?_, ?_⟩
    · intro x s3 s4 hex hrm
      have hl := commands.removeLocalMachine_of_exists api n
        { w1 with
          ext := s2
          trace := w1.trace ++ [Event.APILoad n, Event.Remove] } x none s3 s4 hex hrm
      rw [hargs, commands.cmdRm.loop_pass deps false api pre post n m1 w0 w1 _ _ none none
        hpre hr (Or.inl rfl) hl]
      simp [commands.withLocalFailure, commands.withRemoteFailure]
    · intro x s3 e s4 hex hrm
      have hl := commands.removeLocalMachine_of_exists api n
        { w1 with
          ext := s2
          trace := w1.trace ++ [Event.APILoad n, Event.Remove] } x (some e) s3 s4 hex hrm
      rw [hargs, commands.cmdRm.loop_pass deps false api pre post n m1 w0 w1 _ _ none (some e)
        hpre hr (Or.inl rfl) hl]
      simp [commands.withLocalFailure, commands.withRemoteFailure]
    · intro x s3 hex
      have hl := commands.removeLocalMachine_of_missing api n
        { w1 with
          ext := s2
          trace := w1.trace ++ [Event.APILoad n, Event.Remove] } x s3 hex
      rw [hargs, commands.cmdRm.loop_pass deps false api pre post n m1 w0 w1 _ _ none _
        hpre hr (Or.inl rfl) hl]
      simp [commands.withLocalFailure, commands.withRemoteFailure]
  · intro A B eA w1 w2 hargs hA hB hex hrm
    have hne : c.Args ≠ [] := by rw [hargs]; simp
    have hlB : commands.removeLocalMachine B api w2
        = some (none,
            { w2 with
              ext := (api.Remove B (api.Exists B w2.ext).2).2
              trace := w2.trace ++ [Event.APIExists B, Event.APIRemove B] }) := by
      rw [commands.removeLocalMachine_run, if_pos hex, hrm]
    have hrec : commands.rmRecords false api [A, B] w0
        = some ([{ name := A, remote := some eA, localRemoval := none },
                 { name := B, remote := none, localRemoval := some none }],
            { w2 with
              ext := (api.Remove B (api.Exists B w2.ext).2).2
              trace := w2.trace ++ [Event.APIExists B, Event.APIRemove B] }) := by
      rw [commands.rmRecords_cons, hA]
      simp only [Bool.or_false, decide_eq_true_eq, if_false]
      rw [commands.rmRecords_cons, hB]
      simp only [Bool.or_false, decide_eq_true_eq, if_true, hlB]
      rfl
    rw [commands.cmdRm_run deps c api w hne, hconf]
    simp only [hforce, hargs, hrec]
    simp [commands.RmRecord.messages, String.intercalate, String.intercalate.go]

/-- Witness of C15: removing `A` and `B` with `-y`, where the remote removal of `A`
fails: the error names `A` and `B` has left the store. -/
theorem C15_rm_continues_after_failure_witness :
    (fixture.commandLine ["A", "B"] false true).BoolFlag "force" = false ∧
    commands.userConfirm fixture.deps
        ((fixture.commandLine ["A", "B"] false true).BoolFlag "y")
        ((fixture.commandLine ["A", "B"] false true).BoolFlag "force")
        (fixture.storeWorld ["A", "B"])
      = some (true, fixture.storeWorld ["A", "B"]) ∧
    commands.cmdRm fixture.deps (fixture.commandLine ["A", "B"] false true) fixture.api
        (fixture.storeWorld ["A", "B"])
      = some (some (GoError.errorString "Error removing host \"A\": remote removal failed"),
          { fixture.storeWorld ["A"] with
            trace := [Event.APILoad "A", Event.Remove, Event.APILoad "B", Event.Remove,
              Event.APIExists "B", Event.APIRemove "B"] }) :=
  ⟨rfl, rfl, (C15_rm_continues_after_failure fixture.deps
    (fixture.commandLine ["A", "B"] false true) fixture.api (fixture.storeWorld ["A", "B"])
    (fixture.storeWorld ["A", "B"]) rfl rfl).2 "A" "B"
      (GoError.errorString "remote removal failed")
      { fixture.storeWorld ["A", "B"] with trace := [Event.APILoad "A", Event.Remove] }
      { fixture.storeWorld ["A", "B"] with
        trace := [Event.APILoad "A", Event.Remove, Event.APILoad "B", Event.Remove] }
      rfl rfl rfl rfl rfl⟩

/-- Counterexample to C15 as stated: over a local store that cannot remove an entry,
`cmdRm -y B` runs without force, the confirmation is given, and the remote removal of
`B` succeeds (the host loads and its driver's `Remove` returns nil); yet `B` is not
removed from the local store: the store's `Remove` fails, `cmdRm` returns the error
`Can't remove "B"`, and no run of it ends with `B` out of the store. -/
theorem C15_counterexample :
    (fixture.commandLine ["B"] false true).BoolFlag "force" = false ∧
    commands.userConfirm fixture.deps
        ((fixture.commandLine ["B"] false true).BoolFlag "y")
        ((fixture.commandLine ["B"] false true).BoolFlag "force")
        (fixture.storeWorld ["B"])
      = some (true, fixture.storeWorld ["B"]) ∧
    commands.removeRemoteMachine "B" fixture.apiReadOnly (fixture.storeWorld ["B"])
      = some (none,
          { fixture.storeWorld ["B"] with trace := [Event.APILoad "B", Event.Remove] }) ∧
    commands.cmdRm fixture.deps (fixture.commandLine ["B"] false true) fixture.apiReadOnly
        (fixture.storeWorld ["B"])
      = some (some (GoError.errorString "Can't remove \"B\""),
          { fixture.storeWorld ["B"] with
            trace := [Event.APILoad "B", Event.Remove, Event.APIExists "B",
              Event.APIRemove "B"] }) ∧
    ¬ ∃ res w', commands.cmdRm fixture.deps (fixture.commandLine ["B"] false true)
        fixture.apiReadOnly (fixture.storeWorld ["B"]) = some (res, w') ∧ "B" ∉ w'.ext := by
  have hrec : commands.rmRecords false fixture.apiReadOnly ["B"] (fixture.storeWorld ["B"])
      = some ([{ name := "B", remote := none,
                 localRemoval := some (some (GoError.errorString "read-only file system")) }],
          { fixture.storeWorld ["B"] with
            trace := [Event.APILoad "B", Event.Remove, Event.APIExists "B",
              Event.APIRemove "B"] }) :=
    commands.rmRecords_cons_removed false fixture.apiReadOnly "B" []
      (fixture.storeWorld ["B"])
      { fixture.storeWorld ["B"] with trace := [Event.APILoad "B", Event.Remove] }
      { fixture.storeWorld ["B"] with
        trace := [Event.APILoad "B", Event.Remove, Event.APIExists "B", Event.APIRemove "B"] }
      _ (some (GoError.errorString "read-only file system")) [] rfl rfl rfl
  have hmsg : "Can't remove \"" ++ "B" ++ "\"" = "Can't remove \"B\"" := by decide
  have hrun : commands.cmdRm fixture.deps (fixture.commandLine ["B"] false true)
      fixture.apiReadOnly (fixture.storeWorld ["B"])
      = some (some (GoError.errorString "Can't remove \"B\""),
          { fixture.storeWorld ["B"] with
            trace := [Event.APILoad "B", Event.Remove, Event.APIExists "B",
              Event.APIRemove "B"] }) := by
    have hconf : commands.userConfirm fixture.deps
        ((fixture.commandLine ["B"] false true).BoolFlag "y")
        ((fixture.commandLine ["B"] false true).BoolFlag "force")
        (fixture.storeWorld ["B"])
      = some (true, fixture.storeWorld ["B"]) := rfl
    have hargs : (fixture.commandLine ["B"] false true).Args = ["B"] := rfl
    have hforce : (fixture.commandLine ["B"] false true).BoolFlag "force" = false := rfl
    rw [commands.cmdRm_run fixture.deps (fixture.commandLine ["B"] false true)
      fixture.apiReadOnly (fixture.storeWorld ["B"]) (by decide), hconf]
    simp only [hforce, hargs, hrec]
    simp [commands.RmRecord.messages, String.intercalate, String.intercalate.go, hmsg]
  refine ⟨rfl, rfl, rfl, hrun, ?_⟩
  rintro ⟨res, w', h, hout⟩
  rw [hrun] at h
  simp only [Option.some.injEq, Prod.mk.injEq] at h
  obtain ⟨_, rfl⟩ := h
  exact hout (List.Mem.head _)

/-- C16: `cmdRm` without force, with at least one argument, the confirmation having
been given (world `w0`). Let `recs` be the per-host results of the loop (remote result,
and local result when the local removal was attempted), in argument order. (1) If no
host failed (every remote removal succeeded and every local removal succeeded) `cmdRm`
returns nil. (2) Otherwise it returns the error whose message is the failure messages
of the hosts, in argument order, joined by a newline. (3) The records are one per
argument, in order, and each host contributes its messages as follows: a failed remote
removal with error `e` contributes exactly `Error removing host "n": e` (no local
removal is then attempted), a failed local removal exactly `Can't remove "n"`, a host
without failure nothing. (4) With an API whose successful loads yield a host with a
driver, the loop runs to its end. -/
theorem C16_rm_aggregates_failures (deps : commands.Deps σ) (c : commands.CommandLine)
    (api : libmachine.API σ) (w w0 : World σ P) (hargs : c.Args ≠ [])
    (hforce : c.BoolFlag "force" = false)
    (hconf : commands.userConfirm deps (c.BoolFlag "y") (c.BoolFlag "force") w = some (true, w0)) :
    (∀ recs w', commands.rmRecords false api c.Args w0 = some (recs, w') →
      ((∀ r ∈ recs, r.clean) → commands.cmdRm deps c api w = some (none, w')) ∧
      ((¬ ∀ r ∈ recs, r.clean) →
        commands.cmdRm deps c api w
          = some (some (GoError.errorString (String.intercalate "\n"
              (recs.map (commands.RmRecord.messages deps)).flatten)), w')) ∧
      recs.map (fun r => r.name) = c.Args ∧
      (∀ r ∈ recs,
        (∀ e, r.remote = some e →
          r.messages deps
            = ["Error removing host " ++ deps.Quote r.name ++ ": " ++ deps.Error e]) ∧
        (r.remote = none → ∀ e, r.localRemoval = some (some e) →
          r.messages deps = ["Can't remove \"" ++ r.name ++ "\""]) ∧
        (r.clean → r.messages deps = []))) ∧
    (api.LoadsLive → ∃ recs w', commands.rmRecords false api c.Args w0 = some (recs, w')) := by
  refine ⟨?_, fun hlive => commands.rmRecords_total false api hlive c.Args w0⟩
  intro recs w' hrec
  obtain ⟨hnames, hloc, _⟩ := commands.rmRecords_spec false api c.Args w0 w' recs hrec
  have hnil := commands.messages_nil_iff deps recs hloc
  have hrun := commands.cmdRm_run deps c api w hargs
  rw [hconf] at hrun
  simp only [hforce, hrec] at hrun
  refine ⟨?_, ?_, hnames, ?_⟩
  · intro hclean
    rw [hrun, hnil.mpr hclean]
    simp
  · intro hdirty
    have hne : (recs.map (commands.RmRecord.messages deps)).flatten ≠ [] :=
      fun h => hdirty (hnil.mp h)
    rw [hrun]
    simp [hne]
  · intro r hr
    have hl := hloc r hr
    rcases r with ⟨n, rem, loc⟩
    refine ⟨?_, ?_, ?_⟩
    · intro e he
      simp only at he
      subst he
      cases loc with
      | none => simp [commands.RmRecord.messages]
      | some l => simp at hl
    · intro hrem e hle
      simp only at hrem hle
      subst hrem hle
      simp [commands.RmRecord.messages]
    · rintro ⟨h1, h2⟩
      simp only at h1 h2
      subst h1 h2
      simp [commands.RmRecord.messages]

theorem fixture.rmRecords_run :
    commands.rmRecords false fixture.api ["A", "B"] (fixture.storeWorld ["A", "B"])
      = some ([{ name := "A", remote := some (GoError.errorString "remote removal failed"),
                 localRemoval := none },
               { name := "B", remote := none, localRemoval := some none }],
          { fixture.storeWorld ["A"] with
            trace := [Event.APILoad "A", Event.Remove, Event.APILoad "B", Event.Remove,
              Event.APIExists "B", Event.APIRemove "B"] }) :=
  commands.rmRecords_cons_failed fixture.api "A" ["B"] (fixture.storeWorld ["A", "B"])
    { fixture.storeWorld ["A", "B"] with trace := [Event.APILoad "A", Event.Remove] }
    _ (GoError.errorString "remote removal failed") _ rfl
    (commands.rmRecords_cons_removed false fixture.api "B" []
      { fixture.storeWorld ["A", "B"] with trace := [Event.APILoad "A", Event.Remove] }
      { fixture.storeWorld ["A", "B"] with
        trace := [Event.APILoad "A", Event.Remove, Event.APILoad "B", Event.Remove] }
      { fixture.storeWorld ["A"] with
        trace := [Event.APILoad "A", Event.Remove, Event.APILoad "B", Event.Remove,
          Event.APIExists "B", Event.APIRemove "B"] }
      _ none [] rfl rfl rfl)

/-- Witness of C16: removing `A` and `B` with `-y`; `A` fails remotely, `B` is clean. -/
theorem C16_rm_aggregates_failures_witness :
    (fixture.commandLine ["A", "B"] false true).Args ≠ [] ∧
    (fixture.commandLine ["A", "B"] false true).BoolFlag "force" = false ∧
    commands.cmdRm fixture.deps (fixture.commandLine ["A", "B"] false true) fixture.api
        (fixture.storeWorld ["A", "B"])
      = some (some (GoError.errorString (String.intercalate "\n"
            (([{ name := "A", remote := some (GoError.errorString "remote removal failed"),
                 localRemoval := none },
               { name := "B", remote := none, localRemoval := some none }] :
                List commands.RmRecord).map
              (commands.RmRecord.messages fixture.deps)).flatten)),
          { fixture.storeWorld ["A"] with
            trace := [Event.APILoad "A", Event.Remove, Event.APILoad "B", Event.Remove,
              Event.APIExists "B", Event.APIRemove "B"] }) :=
  ⟨by decide, rfl, ((C16_rm_aggregates_failures fixture.deps
    (fixture.commandLine ["A", "B"] false true) fixture.api (fixture.storeWorld ["A", "B"])
    (fixture.storeWorld ["A", "B"]) (by decide) rfl rfl).1 _ _ fixture.rmRecords_run).2.1
      (fun h => nomatch (h _ (List.Mem.head _)).1)⟩

/-- C17: `cmdRm` in force mode with at least one argument. (1) Whatever it returns is
nil. (2) With an API whose successful loads yield a host with a driver it does return,
no confirmation is asked, and the loop has processed every named host in order: for
each the host was loaded (the remote removal was attempted) and the local removal was
attempted, whatever failed. (3) Each named host `n` gets both attempts, whatever they
and the attempts on the earlier hosts returned: the loop reaches `n`; its remote
removal loads it and, when the load succeeds, calls its driver's `Remove` (when the
load fails the load error is the result and no driver is called); then, whatever the
remote result, the store is asked whether `n` exists and, if it does, the store's
`Remove` is applied; and the loop goes on with the hosts after `n`. -/
theorem C17_rm_force_returns_nil (deps : commands.Deps σ) (c : commands.CommandLine)
    (api : libmachine.API σ) (w : World σ P) (hargs : c.Args ≠ [])
    (hforce : c.BoolFlag "force" = true) :
    (∀ res w', commands.cmdRm deps c api w = some (res, w') → res = none) ∧
    (api.LoadsLive →
      ∃ recs w' evs, commands.rmRecords true api c.Args w = some (recs, w') ∧
        commands.cmdRm deps c api w = some (none, w') ∧
        recs.map (fun r => r.name) = c.Args ∧
        (∀ r ∈ recs, r.localRemoval ≠ none) ∧
        w'.trace = w.trace ++ evs ∧
        (∀ n ∈ c.Args, Event.APILoad n ∈ evs ∧ Event.APIExists n ∈ evs) ∧
        ∃ msgs, commands.cmdRm.loop deps true api c.Args [] w = some (msgs, w')) ∧
    (api.LoadsLive → ∀ pre n post, c.Args = pre ++ n :: post →
      ∃ m1 w1 r w2 l w3,
        commands.cmdRm.loop deps true api pre [] w = some (m1, w1) ∧
        commands.removeRemoteMachine n api w1 = some (r, w2) ∧
        (∀ e x s1, api.Load n w1.ext = ((x, some e), s1) →
          r = some e ∧
          w2 = { w1 with
                 ext := s1
                 trace := w1.trace ++ [Event.APILoad n] }) ∧
        (∀ h d s1 rr s2, api.Load n w1.ext = ((some h, none), s1) → h.Driver = some d →
          d.prim drivers.Verb.Remove s1 = (rr, s2) →
          r = rr ∧
          w2 = { w1 with
                 ext := s2
                 trace := w1.trace ++ [Event.APILoad n, Event.Remove] }) ∧
        commands.removeLocalMachine n api w2 = some (l, w3) ∧
        (∀ x s3 ll s4, api.Exists n w2.ext = ((true, x), s3) → api.Remove n s3 = (ll, s4) →
          l = ll ∧
          w3 = { w2 with
                 ext := s4
                 trace := w2.trace ++ [Event.APIExists n, Event.APIRemove n] }) ∧
        (∀ x s3, api.Exists n w2.ext = ((false, x), s3) →
          l = some (GoError.errorString (n ++ " does not exist.")) ∧
          w3 = { w2 with
                 ext := s3
                 trace := w2.trace ++ [Event.APIExists n] }) ∧
        commands.cmdRm.loop deps true api c.Args [] w
          = commands.cmdRm.loop deps true api post
              (commands.withLocalFailure n l (commands.withRemoteFailure deps n r m1)) w3) := by
  have hconf : commands.userConfirm deps (c.BoolFlag "y") (c.BoolFlag "force") w
      = some (true, w) := by
    simp [commands.userConfirm, hforce, Go.pure_run]
  have hrun := commands.cmdRm_run deps c api w hargs
  rw [hconf] at hrun
  simp only [hforce] at hrun
  refine ⟨?_, ?_, ?_⟩
  · intro res w' h
    rw [hrun] at h
    cases hrec : commands.rmRecords true api c.Args w with
    | none => rw [hrec] at h; simp at h
    | some rr =>
      obtain ⟨recs, w2⟩ := rr
      rw [hrec] at h
      simp at h
      exact h.1.symm
  · intro hlive
    obtain ⟨recs, w', hrec⟩ := commands.rmRecords_total true api hlive c.Args w
    obtain ⟨hnames, hloc, evs, htr, hev⟩ := commands.rmRecords_spec true api c.Args w w' recs hrec
    have hall : ∀ r ∈ recs, r.localRemoval ≠ none := fun r hr => (hloc r hr).mpr (Or.inr rfl)
    refine ⟨recs, w', evs, hrec, ?_, hnames, hall, htr, ?_, ?_⟩
    · rw [hrun, hrec]
      simp
    · intro n hn
      rw [← hnames] at hn
      obtain ⟨r, hr, rfl⟩ := List.mem_map.mp hn
      exact ⟨(hev r hr).1, (hev r hr).2 (hall r hr)⟩
    · rw [commands.cmdRm.loop_eq_records, hrec]
      exact ⟨_, rfl⟩
  · intro hlive pre n post hsplit
    obtain ⟨recs, w1, hrec⟩ := commands.rmRecords_total true api hlive pre w
    have hpre : commands.cmdRm.loop deps true api pre [] w
        = some ([] ++ (recs.map (commands.RmRecord.messages deps)).flatten, w1) := by
      rw [commands.cmdRm.loop_eq_records, hrec]
    obtain ⟨r, w2, hr⟩ := commands.removeRemoteMachine_total api hlive n w1
    obtain ⟨l, w3, hl⟩ := commands.removeLocalMachine_total api n w2
    refine ⟨_, w1, r, w2, l, w3, hpre, hr, ?_, ?_, hl, ?_, ?_, ?_⟩
    · intro e x s1 hload
      have h1 := commands.removeRemoteMachine_loadFailed api n w1 e (by rw [hload])
      rw [hr, hload] at h1
      simp only [Option.some.injEq, Prod.mk.injEq] at h1
      exact h1
    · intro h d s1 rr s2 hload hd hrem
      have h1 := commands.removeRemoteMachine_of_load api n w1 h d s1 s2 rr hload hd hrem
      rw [hr] at h1
      simp only [Option.some.injEq, Prod.mk.injEq] at h1
      exact h1
    · intro x s3 ll s4 hex hrm
      have h1 := commands.removeLocalMachine_of_exists api n w2 x ll s3 s4 hex hrm
      rw [hl] at h1
      simp only [Option.some.injEq, Prod.mk.injEq] at h1
      exact h1
    · intro x s3 hex
      have h1 := commands.removeLocalMachine_of_missing api n w2 x s3 hex
      rw [hl] at h1
      simp only [Option.some.injEq, Prod.mk.injEq] at h1
      exact h1
    · rw [hsplit]
      exact commands.cmdRm.loop_pass deps true api pre post n _ w w1 w2 w3 r l hpre hr
        (Or.inr rfl) hl

theorem fixture.api_loadsLive : fixture.api.LoadsLive := by
  intro name s h
  by_cases hm : name ∈ s
  · exact ⟨fixture.storeHost name, _, by simp [fixture.api, hm], rfl⟩
  · simp [fixture.api, hm] at h

/-- Witness of C17: force-removing `A` and `B`: nil is returned although the remote
removal of `A` fails, and both hosts were loaded and looked up in the store. -/
theorem C17_rm_force_returns_nil_witness :
    (fixture.commandLine ["A", "B"] true false).Args ≠ [] ∧
    (fixture.commandLine ["A", "B"] true false).BoolFlag "force" = true ∧
    ∃ recs w' evs,
      commands.rmRecords true fixture.api (fixture.commandLine ["A", "B"] true false).Args
        (fixture.storeWorld ["A", "B"]) = some (recs, w') ∧
      commands.cmdRm fixture.deps (fixture.commandLine ["A", "B"] true false) fixture.api
        (fixture.storeWorld ["A", "B"]) = some (none, w') ∧
      recs.map (fun r => r.name) = (fixture.commandLine ["A", "B"] true false).Args ∧
      (∀ r ∈ recs, r.localRemoval ≠ none) ∧
      w'.trace = (fixture.storeWorld ["A", "B"]).trace ++ evs ∧
      (∀ n ∈ (fixture.commandLine ["A", "B"] true false).Args,
        Event.APILoad n ∈ evs ∧ Event.APIExists n ∈ evs) ∧
      ∃ msgs, commands.cmdRm.loop fixture.deps true fixture.api
        (fixture.commandLine ["A", "B"] true false).Args [] (fixture.storeWorld ["A", "B"])
          = some (msgs, w') :=
  ⟨by decide, rfl, (C17_rm_force_returns_nil fixture.deps
    (fixture.commandLine ["A", "B"] true false) fixture.api (fixture.storeWorld ["A", "B"])
    (by decide) rfl).2.1 fixture.api_loadsLive⟩

/-- C18: one pass of the loop of `cmdRm` for host `n`. (1) If loading the host fails,
the remote removal returns that error and the driver is not called. (2) If the host
loads, the driver's `Remove` is called once and its result is returned: there is no
retry. (3) Without force, if the remote removal fails the pass ends in the world the
remote removal left, with that failure's message collected: the store is neither asked
whether the host exists nor to remove it. (4) If the remote removal succeeds or force
is set, the local removal is run next. (5) Over a whole run, the local removal of a
host was attempted exactly when its remote removal succeeded or force is set. -/
theorem C18_local_removal_needs_remote_success_or_force (deps : commands.Deps σ)
    (api : libmachine.API σ) (n : String) (acc : List String) (w : World σ P) :
    (∀ e, (api.Load n w.ext).1.2 = some e →
      commands.removeRemoteMachine n api w
        = some (some e,
            { w with
              ext := (api.Load n w.ext).2
              trace := w.trace ++ [Event.APILoad n] })) ∧
    (∀ h d, (api.Load n w.ext).1.2 = none → (api.Load n w.ext).1.1 = some h →
      h.Driver = some d →
      commands.removeRemoteMachine n api w
        = some ((d.prim drivers.Verb.Remove (api.Load n w.ext).2).1,
            { w with
              ext := (d.prim drivers.Verb.Remove (api.Load n w.ext).2).2
              trace := w.trace ++ [Event.APILoad n, Event.Remove] })) ∧
    (∀ e w1, commands.removeRemoteMachine n api w = some (some e, w1) →
      commands.cmdRm.body deps false api n acc w
          = some (acc ++ ["Error removing host " ++ deps.Quote n ++ ": " ++ deps.Error e], w1) ∧
        (w1.trace = w.trace ++ [Event.APILoad n] ∨
          w1.trace = w.trace ++ [Event.APILoad n, Event.Remove])) ∧
    (∀ force r w1, commands.removeRemoteMachine n api w = some (r, w1) →
      (r = none ∨ force = true) →
      ∃ l w2, commands.removeLocalMachine n api w1 = some (l, w2) ∧
        (w2.trace = w1.trace ++ [Event.APIExists n] ∨
          w2.trace = w1.trace ++ [Event.APIExists n, Event.APIRemove n]) ∧
        commands.cmdRm.body deps force api n acc w
          = some (commands.withLocalFailure n l (commands.withRemoteFailure deps n r acc), w2)) ∧
    (∀ force args recs w', commands.rmRecords force api args w = some (recs, w') →
      ∀ r ∈ recs, (r.localRemoval ≠ none ↔ (r.remote = none ∨ force = true))) := by
  refine ⟨fun e he => commands.removeRemoteMachine_loadFailed api n w e he,
    fun h d he hh hd => commands.removeRemoteMachine_loaded api n w h d he hh hd, ?_, ?_, ?_⟩
  · intro e w1 hr
    exact ⟨commands.cmdRm.body_skips_local deps api n acc w w1 e hr,
      commands.removeRemoteMachine_trace api n w w1 _ hr⟩
  · intro force r w1 hr hc
    obtain ⟨l, w2, hl⟩ := commands.removeLocalMachine_total api n w1
    exact ⟨l, w2, hl, commands.removeLocalMachine_trace api n w1 w2 l hl,
      commands.cmdRm.body_runs_local deps force api n acc w w1 w2 r l hr hc hl⟩
  · intro force args recs w' hrec
    exact (commands.rmRecords_spec force api args w w' recs hrec).2.1

/-- Witness of C18: without force the host `A`, whose remote removal fails, stays in
the store: the pass ends after the driver's `Remove`. -/
theorem C18_local_removal_needs_remote_success_or_force_witness :
    commands.removeRemoteMachine "A" fixture.api (fixture.storeWorld ["A", "B"])
      = some (some (GoError.errorString "remote removal failed"),
          { fixture.storeWorld ["A", "B"] with trace := [Event.APILoad "A", Event.Remove] }) ∧
    commands.cmdRm.body fixture.deps false fixture.api "A" [] (fixture.storeWorld ["A", "B"])
      = some ([] ++ ["Error removing host " ++ fixture.deps.Quote "A" ++ ": " ++
            fixture.deps.Error (GoError.errorString "remote removal failed")],
          { fixture.storeWorld ["A", "B"] with trace := [Event.APILoad "A", Event.Remove] }) :=
  ⟨rfl, ((C18_local_removal_needs_remote_success_or_force fixture.deps fixture.api "A" []
    (fixture.storeWorld ["A", "B"])).2.2.1 (GoError.errorString "remote removal failed")
      { fixture.storeWorld ["A", "B"] with trace := [Event.APILoad "A", Event.Remove] } rfl).1⟩

end Rm

/-! ## The `create` command -/

section Create

variable {σ P : Type}

/-- C19: `cmdCreateInner` rejects configuration errors before any side effect,
whatever the API does. (1) With more than one argument it returns the "extra
arguments" error in an unchanged world. (2) With a missing (empty) machine name it
returns `errNoMachineName`; the only event is the help it shows. (3) With a name that
`ValidateHostName` rejects it returns the error whose message is "Error creating
machine: " followed by the message of `ErrInvalidHostname`, in an unchanged world. In
all three the external state is untouched and the trace holds no call of the API
(NewHost, Exists, Create, Save) or of a driver. -/
theorem C19_create_rejects_bad_command_line (deps : commands.Deps σ) (c : commands.CommandLine)
    (api : libmachine.API σ) (w : World σ P) :
    (1 < c.Args.length →
      commands.cmdCreateInner deps c api w
        = some (some (GoError.errorString
            ("Invalid command line. Found extra arguments " ++ deps.FormatV (c.Args.drop 1))),
            w)) ∧
    (c.Args.length ≤ 1 → c.Args.headD "" = "" →
      commands.cmdCreateInner deps c api w
        = some (some commands.errNoMachineName,
            { w with trace := w.trace ++ [Event.ShowHelp] })) ∧
    (c.Args.length ≤ 1 → c.Args.headD "" ≠ "" →
      host.ValidateHostName (c.Args.headD "") = false →
      commands.cmdCreateInner deps c api w
        = some (some (GoError.errorString
            ("Error creating machine: " ++
              "Invalid hostname specified. Allowed hostname chars are: 0-9a-zA-Z . -")),
            w)) := by
  refine ⟨?_, ?_, ?_⟩
  · intro h
    simp only [commands.cmdCreateInner, gt_iff_lt, h, if_true, Go.pure_run]
  · intro h hn
    have h' : ¬ 1 < c.Args.length := by omega
    simp only [commands.cmdCreateInner, gt_iff_lt, h', hn, if_false, if_true, Go.bind_run,
      commands.ShowHelp, Go.log, Go.pure_run]
  · intro h hn hv
    have h' : ¬ 1 < c.Args.length := by omega
    simp only [commands.cmdCreateInner, gt_iff_lt, h', hn, hv, if_false, if_true, Bool.not_false,
      Go.pure_run, commands.Deps.Error, GoError.Error, mcnerror.ErrInvalidHostname]

/-- Witness of C19: the name `-bad` is rejected by `ValidateHostName`. -/
theorem C19_create_rejects_bad_command_line_witness :
    (fixture.commandLine ["-bad"] false false).Args.length ≤ 1 ∧
    (fixture.commandLine ["-bad"] false false).Args.headD "" ≠ "" ∧
    host.ValidateHostName ((fixture.commandLine ["-bad"] false false).Args.headD "") = false ∧
    commands.cmdCreateInner fixture.deps (fixture.commandLine ["-bad"] false false) fixture.api
        (fixture.storeWorld [])
      = some (some (GoError.errorString
          ("Error creating machine: " ++
            "Invalid hostname specified. Allowed hostname chars are: 0-9a-zA-Z . -")),
          fixture.storeWorld []) :=
  ⟨by decide, by decide, by decide, (C19_create_rejects_bad_command_line fixture.deps
    (fixture.commandLine ["-bad"] false false) fixture.api (fixture.storeWorld [])).2.2
      (by decide) (by decide) (by decide)⟩

/-- C20: `cmdCreateInner` for a valid name `name`, once the bare driver data is
marshalled and `NewHost` has returned host `h0`. (1) If the store reports that a host
named `h0.Name` exists, the typed error `ErrHostAlreadyExists{Name: h0.Name}` is
returned. (2) If the existence check fails with `e`, the error "Error checking if host
exists: " followed by the text of `e` is returned. In both cases the trace ends with
the existence check: the driver is not configured from the flags and neither
`api.Create` nor `api.Save` is called. -/
theorem C20_create_rejects_existing_host (deps : commands.Deps σ) (c : commands.CommandLine)
    (api : libmachine.API σ) (w : World σ P) (name : String) (rawDriver : List UInt8)
    (h0 : host.Host σ) (s1 : σ) (hargs : c.Args.length ≤ 1) (hname : c.Args.headD "" = name)
    (hne : name ≠ "") (hvalid : host.ValidateHostName name = true)
    (hmarshal : deps.Marshal name (c.GlobalString "storage-path") = (rawDriver, none))
    (hnew : api.NewHost (c.StringFlag "driver") rawDriver w.ext = ((some h0, none), s1)) :
    (∀ s2, api.Exists h0.Name s1 = ((true, none), s2) →
      commands.cmdCreateInner deps c api w
        = some (some (GoError.ErrHostAlreadyExists h0.Name),
            { w with
              ext := s2
              trace := w.trace ++
                [Event.APINewHost (c.StringFlag "driver"), Event.APIExists h0.Name] })) ∧
    (∀ b e s2, api.Exists h0.Name s1 = ((b, some e), s2) →
      commands.cmdCreateInner deps c api w
        = some (some (GoError.errorString ("Error checking if host exists: " ++ deps.Error e)),
            { w with
              ext := s2
              trace := w.trace ++
                [Event.APINewHost (c.StringFlag "driver"), Event.APIExists h0.Name] })) := by
  have h' : ¬ 1 < c.Args.length := by omega
  have hstart : commands.cmdCreateInner deps c api w
      = commands.cmdCreateInner.newHost deps c api name w := by
    simp only [commands.cmdCreateInner, gt_iff_lt, h', hname, hne, hvalid, if_false,
      Bool.not_true, Bool.false_eq_true]
  constructor
  · intro s2 hex
    rw [hstart]
    simp [commands.cmdCreateInner.newHost, hmarshal, Go.bind_run, libmachine.API.callNewHost,
      libmachine.API.callExists, Go.log, Go.liftExt, hnew, hex, Go.pure_run]
  · intro b e s2 hex
    rw [hstart]
    simp [commands.cmdCreateInner.newHost, hmarshal, Go.bind_run, libmachine.API.callNewHost,
      libmachine.API.callExists, Go.log, Go.liftExt, hnew, hex, Go.pure_run]

/-- Witness of C20: creating `new` when the store already holds a host of that name. -/
theorem C20_create_rejects_existing_host_witness :
    host.ValidateHostName "new" = true ∧
    fixture.api.NewHost ((fixture.commandLine ["new"] false false).StringFlag "driver") []
        (fixture.storeWorld ["new"]).ext
      = ((some (fixture.storeHost "new"), none), ["new"]) ∧
    commands.cmdCreateInner fixture.deps (fixture.commandLine ["new"] false false) fixture.api
        (fixture.storeWorld ["new"])
      = some (some (GoError.ErrHostAlreadyExists "new"),
          { fixture.storeWorld ["new"] with
            trace := [Event.APINewHost "fakedriver", Event.APIExists "new"] }) :=
  ⟨by decide, rfl, (C20_create_rejects_existing_host fixture.deps
    (fixture.commandLine ["new"] false false) fixture.api (fixture.storeWorld ["new"]) "new" []
    (fixture.storeHost "new") ["new"] (by decide) rfl (by decide) (by decide) rfl rfl).1
      ["new"] rfl⟩

end Create

/-! ## Host names -/

section Hostname

theorem host.isAlphanum_iff (c : Char) :
    c.isAlphanum = true ↔ (host.isAsciiLetter c ∨ host.isAsciiDigit c) := by
  simp only [Char.isAlphanum, Char.isAlpha, Char.isUpper, Char.isLower, Char.isDigit,
    host.isAsciiLetter, host.isAsciiDigit, Char.le_def, Bool.or_eq_true, Bool.and_eq_true,
    decide_eq_true_eq, ge_iff_le]
  have e1 : ('a' : Char).val = 97 := rfl
  have e2 : ('z' : Char).val = 122 := rfl
  have e3 : ('A' : Char).val = 65 := rfl
  have e4 : ('Z' : Char).val = 90 := rfl
  have e5 : ('0' : Char).val = 48 := rfl
  have e6 : ('9' : Char).val = 57 := rfl
  rw [e1, e2, e3, e4, e5, e6]
  tauto

theorem host.isHostNameChar_iff (c : Char) :
    host.isHostNameChar c = true ↔ host.InAlphabet c := by
  simp only [host.isHostNameChar, host.InAlphabet, Bool.or_eq_true, beq_iff_eq,
    host.isAlphanum_iff]
  tauto

theorem host.ValidateHostName_iff (s : String) :
    host.ValidateHostName s = true ↔
      ∃ c cs, s.toList = c :: cs ∧ (host.isAsciiLetter c ∨ host.isAsciiDigit c) ∧
        ∀ x ∈ cs, host.InAlphabet x := by
  unfold host.ValidateHostName
  cases hl : s.toList with
  | nil => simp
  | cons c cs =>
    simp only [Bool.and_eq_true, List.all_eq_true, host.isAlphanum_iff, host.isHostNameChar_iff,
      List.cons.injEq]
    constructor
    · rintro ⟨h1, h2⟩
      exact ⟨c, cs, ⟨rfl, rfl⟩, h1, h2⟩
    · rintro ⟨c', cs', ⟨rfl, rfl⟩, h1, h2⟩
      exact ⟨h1, h2⟩

/-- C21: `ValidateHostName` accepts only names over the alphanumeric-plus-hyphen-dot
alphabet: if `ValidateHostName s` is true, every character of `s` is an ASCII letter,
an ASCII digit, `-` or `.`. -/
theorem C21_valid_name_alphabet (s : String) (h : host.ValidateHostName s = true) :
    ∀ c ∈ s.toList, host.InAlphabet c := by
  obtain ⟨c, cs, hs, h1, h2⟩ := (host.ValidateHostName_iff s).mp h
  intro x hx
  rw [hs] at hx
  rcases List.mem_cons.mp hx with rfl | hx
  · rcases h1 with h1 | h1
    · exact Or.inl h1
    · exact Or.inr (Or.inl h1)
  · exact h2 x hx

/-- Witness of C21: the accepted name `my-host.1`. -/
theorem C21_valid_name_alphabet_witness :
    host.ValidateHostName "my-host.1" = true ∧
    ∀ c ∈ "my-host.1".toList, host.InAlphabet c :=
  ⟨by decide, C21_valid_name_alphabet "my-host.1" (by decide)⟩

/-- C24: `ValidateHostName s` is true iff `s` is non-empty, its first character is an
ASCII letter or digit, and every remaining character is an ASCII letter, a digit, `-`
or `.`. Consequently the empty string, `-a`, `.a` (whose characters are all in the
alphabet the message of `ErrInvalidHostname` lists) and every name followed by a
newline are rejected. -/
theorem C24_valid_name_grammar :
    (∀ s : String, host.ValidateHostName s = true ↔
      ∃ c cs, s.toList = c :: cs ∧ (host.isAsciiLetter c ∨ host.isAsciiDigit c) ∧
        ∀ x ∈ cs, host.InAlphabet x) ∧
    host.ValidateHostName "" = false ∧
    (host.ValidateHostName "-a" = false ∧ ∀ c ∈ "-a".toList, host.InAlphabet c) ∧
    (host.ValidateHostName ".a" = false ∧ ∀ c ∈ ".a".toList, host.InAlphabet c) ∧
    (∀ s : String, host.ValidateHostName (s ++ "\n") = false) := by
  refine ⟨host.ValidateHostName_iff, by decide, ⟨by decide, ?_⟩, ⟨by decide, ?_⟩, ?_⟩
  · intro c hc
    have hc' : c = '-' ∨ c = 'a' := by simpa using hc
    rcases hc' with rfl | rfl
    · exact Or.inr (Or.inr (Or.inl rfl))
    · exact Or.inl (Or.inl (by decide))
  · intro c hc
    have hc' : c = '.' ∨ c = 'a' := by simpa using hc
    rcases hc' with rfl | rfl
    · exact Or.inr (Or.inr (Or.inr rfl))
    · exact Or.inl (Or.inl (by decide))
  · intro s
    have hnl : host.isHostNameChar '\n' = false := by decide
    have hnl' : Char.isAlphanum '\n' = false := by decide
    unfold host.ValidateHostName
    have hl : (s ++ "\n").toList = s.toList ++ ['\n'] := by simp
    rw [hl]
    cases s.toList with
    | nil => simp [hnl']
    | cons c cs => simp [hnl]

end Hostname

/-! ## The ISO version tag and the driver flag lookup -/

section Strings

theorem strings.indexOf_first (substr pre post l : List Char) (h : l = pre ++ substr ++ post)
    (hmin : ∀ pre' post', l = pre' ++ substr ++ post' → pre.length ≤ pre'.length) :
    strings.indexOf substr l = some pre.length := by
  induction pre generalizing l with
  | nil =>
    cases l with
    | nil =>
      have : substr = [] := by
        cases substr with
        | nil => rfl
        | cons a as => simp at h
      simp [strings.indexOf, this]
    | cons c cs =>
      have hp : substr.isPrefixOf (c :: cs) = true := by
        rw [List.isPrefixOf_iff_prefix, h]
        simp
      simp [strings.indexOf, hp]
  | cons p pre ih =>
    subst h
    have hnp : substr.isPrefixOf (p :: pre ++ substr ++ post) = false := by
      rw [Bool.eq_false_iff]
      intro hp
      rw [List.isPrefixOf_iff_prefix] at hp
      obtain ⟨t, ht⟩ := hp
      have := hmin [] t (by simpa using ht.symm)
      simp at this
    have hrec := ih (pre ++ substr ++ post) rfl (by
      intro pre' post' h'
      have := hmin (p :: pre') post' (by simp [h'])
      simpa using this)
    show strings.indexOf substr (p :: (pre ++ substr ++ post)) = _
    have hnp' : substr.isPrefixOf (p :: (pre ++ substr ++ post)) = false := hnp
    rw [strings.indexOf, hnp', hrec]
    rfl

theorem strings.indexOf_none (substr l : List Char) (h : ¬ substr <:+: l) :
    strings.indexOf substr l = none := by
  induction l with
  | nil =>
    have : substr ≠ [] := by
      rintro rfl
      exact h List.nil_infix
    simp [strings.indexOf, this]
  | cons c cs ih =>
    have hnp : substr.isPrefixOf (c :: cs) = false := by
      rw [Bool.eq_false_iff]
      intro hp
      rw [List.isPrefixOf_iff_prefix] at hp
      exact h hp.isInfix
    have hrec := ih (fun hi => h (hi.trans (List.suffix_cons c cs).isInfix))
    simp [strings.indexOf, hnp, hrec]

theorem strings.exists_first_occurrence (substr l : List Char) (h : substr <:+: l) :
    ∃ pre post, l = pre ++ substr ++ post ∧
      ∀ pre' post', l = pre' ++ substr ++ post' → pre.length ≤ pre'.length := by
  classical
  have hex : ∃ n, ∃ pre post, l = pre ++ substr ++ post ∧ pre.length = n := by
    obtain ⟨pre, post, hl⟩ := h
    exact ⟨pre.length, pre, post, hl.symm, rfl⟩
  obtain ⟨pre, post, hl, hn⟩ := Nat.find_spec hex
  refine ⟨pre, post, hl, ?_⟩
  intro pre' post' hl'
  rw [hn]
  exact Nat.find_min' hex ⟨pre', post', hl', rfl⟩

theorem mcnutils.b2pISO.version_readable {File : Type} (deps : mcnutils.FileDeps File)
    (b : mcnutils.b2pISO) (text : String) (h : mcnutils.b2pISO.Readable deps b text) :
    mcnutils.b2pISO.version deps (some b)
      = if strings.Index (deps.TrimSpace text) mcnutils.versionPrefix = -1 then
          some ("", some (GoError.errorString "Did not find prefix \"-v\" in version string"))
        else
          match goSliceFrom (deps.TrimSpace text)
              (strings.Index (deps.TrimSpace text) mcnutils.versionPrefix + 1) with
          | none => none
          | some vers => some (vers, none) := by
  obtain ⟨iso, hopen, hlen, hread⟩ := h
  have hlen' : ¬ b.volumeIDLength < 0 := by omega
  simp only [mcnutils.b2pISO.version, hopen, hlen', if_false, hread]

/-- C22: `b2pISO.version` for a readable ISO whose volume ID reads `text`. (1) If the
trimmed text is `pre ++ "-v" ++ post` and no occurrence of `-v` starts earlier, the
result is the text from the `v` of that occurrence on, `"v" ++ post`, with a nil error
and without panic. (2) If `-v` does not occur in the trimmed text the result is the
empty string and the "Did not find prefix" error. (3) A volume ID that trims to
`Boot2Podman-v0.1.0` yields `v0.1.0`. (4) If `-v` occurs in the trimmed text, there is
such a first occurrence, so the result is a text starting with `v` and a nil error. -/
theorem C22_iso_version {File : Type} (deps : mcnutils.FileDeps File)
    (b : mcnutils.b2pISO) (text : String) (h : mcnutils.b2pISO.Readable deps b text) :
    (∀ pre post : List Char,
      (deps.TrimSpace text).toList = pre ++ "-v".toList ++ post →
      (∀ pre' post' : List Char,
        (deps.TrimSpace text).toList = pre' ++ "-v".toList ++ post' → pre.length ≤ pre'.length) →
      mcnutils.b2pISO.version deps (some b) = some (String.mk ('v' :: post), none)) ∧
    ((¬ "-v".toList <:+: (deps.TrimSpace text).toList) →
      mcnutils.b2pISO.version deps (some b)
        = some ("", some (GoError.errorString "Did not find prefix \"-v\" in version string"))) ∧
    (deps.TrimSpace text = "Boot2Podman-v0.1.0" →
      mcnutils.b2pISO.version deps (some b) = some ("v0.1.0", none)) ∧
    ("-v".toList <:+: (deps.TrimSpace text).toList →
      ∃ pre post : List Char, (deps.TrimSpace text).toList = pre ++ "-v".toList ++ post ∧
        (∀ pre' post' : List Char,
          (deps.TrimSpace text).toList = pre' ++ "-v".toList ++ post' →
            pre.length ≤ pre'.length) ∧
        mcnutils.b2pISO.version deps (some b) = some (String.mk ('v' :: post), none)) := by
  have hfirst : ∀ pre post : List Char,
      (deps.TrimSpace text).toList = pre ++ "-v".toList ++ post →
      (∀ pre' post' : List Char,
        (deps.TrimSpace text).toList = pre' ++ "-v".toList ++ post' → pre.length ≤ pre'.length) →
      mcnutils.b2pISO.version deps (some b) = some (String.mk ('v' :: post), none) := by
    rw [mcnutils.b2pISO.version_readable deps b text h]
    intro pre post ht hmin
    have hi := strings.indexOf_first "-v".toList pre post _ ht hmin
    have hI : strings.Index (deps.TrimSpace text) mcnutils.versionPrefix = (pre.length : Int) := by
      simp only [strings.Index, mcnutils.versionPrefix, hi]
    rw [hI]
    have hne : ¬ ((pre.length : Int) = -1) := by omega
    rw [if_neg hne]
    have hlen : (deps.TrimSpace text).length = pre.length + 2 + post.length := by
      rw [String.length, ← String.toList, ht]
      simp
      omega
    have hs : goSliceFrom (deps.TrimSpace text) ((pre.length : Int) + 1)
        = some (String.mk ('v' :: post)) := by
      have hc : (0 : Int) ≤ (pre.length : Int) + 1 ∧
          (pre.length : Int) + 1 ≤ ((deps.TrimSpace text).length : Int) := by
        rw [hlen]
        constructor <;> push_cast <;> omega
      rw [goSliceFrom, if_pos hc, ht]
      have : ((pre.length : Int) + 1).toNat = pre.length + 1 := by omega
      rw [this]
      congr 2
      have : pre ++ "-v".toList ++ post = (pre ++ ['-']) ++ ('v' :: post) := by simp
      rw [this, List.drop_left' (by simp)]
    rw [hs]
  refine ⟨hfirst, ?_, ?_, ?_⟩
  · rw [mcnutils.b2pISO.version_readable deps b text h]
    intro hno
    have hi := strings.indexOf_none "-v".toList _ hno
    have hI : strings.Index (deps.TrimSpace text) mcnutils.versionPrefix = -1 := by
      simp only [strings.Index, mcnutils.versionPrefix, hi]
    rw [if_pos hI]
  · rw [mcnutils.b2pISO.version_readable deps b text h]
    intro ht
    rw [ht]
    decide
  · intro hocc
    obtain ⟨pre, post, ht, hmin⟩ := strings.exists_first_occurrence "-v".toList _ hocc
    exact ⟨pre, post, ht, hmin, hfirst pre post ht hmin⟩

/-- Witness of C22: the ISO of the fixture file system, whose volume ID is
`Boot2Podman-v0.1.0` padded with spaces. -/
theorem C22_iso_version_witness :
    mcnutils.b2pISO.Readable fixture.isoFiles fixture.iso "Boot2Podman-v0.1.0              " ∧
    mcnutils.b2pISO.version fixture.isoFiles (some fixture.iso) = some ("v0.1.0", none) :=
  ⟨⟨(), rfl, by decide, rfl⟩,
    (C22_iso_version fixture.isoFiles fixture.iso "Boot2Podman-v0.1.0              "
      ⟨(), rfl, by decide, rfl⟩).2.2.1 (by decide)⟩

theorem strings.splitLoop_equals (l piece : List Char) :
    strings.splitLoop ['='] l 0 piece
      = (piece ++ l.takeWhile (· ≠ '=')) ::
          (if '=' ∈ l then strings.splitLoop ['='] ((l.dropWhile (· ≠ '=')).drop 1) 0 [] else []) := by
  induction l generalizing piece with
  | nil => simp [strings.splitLoop]
  | cons c cs ih =>
    by_cases hc : c = '='
    · subst hc
      simp [strings.splitLoop, List.isPrefixOf]
    · have hp : List.isPrefixOf ['='] (c :: cs) = false := by
        simp [List.isPrefixOf, Ne.symm hc]
      rw [strings.splitLoop, hp]
      simp only [Bool.false_eq_true, if_false]
      rw [ih]
      simp [hc, Ne.symm hc]

theorem strings.Split_equals_get (s : String) (h : '=' ∈ s.toList) :
    (strings.Split s "=").get? 1 = some (commands.betweenEquals s) := by
  have e : ("=" : String).toList = ['='] := rfl
  have hne : ¬ (['='] : List Char) = [] := by simp
  rw [strings.Split, e, if_neg hne, strings.splitLoop_equals, if_pos h, strings.splitLoop_equals]
  simp [commands.betweenEquals]

theorem utf8Bytes_ascii (c : Char) (h : c.toNat < 128) : utf8Bytes c = [c.toNat] := by
  simp [utf8Bytes, h]

theorem utf8Bytes_high (c : Char) (h : ¬ c.toNat < 128) :
    ∃ b bs, utf8Bytes c = b :: bs ∧ 128 ≤ b := by
  unfold utf8Bytes
  rw [if_neg h]
  split
  · exact ⟨_, _, rfl, by omega⟩
  · split
    · exact ⟨_, _, rfl, by omega⟩
    · exact ⟨_, _, rfl, by omega⟩

theorem utf8_cons (c : Char) (l : List Char) : utf8 (c :: l) = utf8Bytes c ++ utf8 l := by
  simp [utf8]

theorem Char.eq_of_toNat_eq (a c : Char) (h : a.toNat = c.toNat) : a = c := by
  apply Char.ext
  apply UInt32.ext
  exact h

/-- An ASCII text starts a text exactly when its bytes start the bytes of that text. -/
theorem utf8_prefix_iff (p : List Char) (hp : ∀ a ∈ p, a.toNat < 128) (l : List Char) :
    utf8 p <+: utf8 l ↔ p <+: l := by
  induction p generalizing l with
  | nil => simp [utf8]
  | cons a p ih =>
    have ha : a.toNat < 128 := hp a (List.mem_cons_self _ _)
    have hp2 : ∀ b ∈ p, b.toNat < 128 := fun b hb => hp b (List.mem_cons_of_mem _ hb)
    cases l with
    | nil => simp [utf8, utf8Bytes_ascii a ha]
    | cons c l =>
      rw [utf8_cons a, utf8_cons c, utf8Bytes_ascii a ha]
      by_cases hc : c.toNat < 128
      · rw [utf8Bytes_ascii c hc]
        simp only [List.singleton_append, List.cons_prefix_cons, ih hp2 l]
        constructor
        · rintro ⟨h1, h2⟩
          exact ⟨Char.eq_of_toNat_eq a c h1, h2⟩
        · rintro ⟨h1, h2⟩
          exact ⟨by rw [h1], h2⟩
      · obtain ⟨b, bs, hb, hge⟩ := utf8Bytes_high c hc
        rw [hb]
        simp only [List.singleton_append, List.cons_append, List.cons_prefix_cons]
        constructor
        · rintro ⟨h1, _⟩
          omega
        · rintro ⟨h1, _⟩
          subst h1
          exact absurd ha hc

/-- A text has the bytes of an ASCII text exactly when it is that text. -/
theorem utf8_eq_iff (p : List Char) (hp : ∀ a ∈ p, a.toNat < 128) (l : List Char) :
    utf8 l = utf8 p ↔ l = p := by
  induction p generalizing l with
  | nil =>
    cases l with
    | nil => simp
    | cons c l =>
      constructor
      · intro h
        rw [utf8_cons] at h
        by_cases hc : c.toNat < 128
        · rw [utf8Bytes_ascii c hc] at h; simp [utf8] at h
        · obtain ⟨b, bs, hb, _⟩ := utf8Bytes_high c hc
          rw [hb] at h; simp [utf8] at h
      · intro h
        simp at h
  | cons a p ih =>
    have ha : a.toNat < 128 := hp a (List.mem_cons_self _ _)
    have hp2 : ∀ b ∈ p, b.toNat < 128 := fun b hb => hp b (List.mem_cons_of_mem _ hb)
    cases l with
    | nil => simp [utf8, utf8Bytes_ascii a ha]
    | cons c l =>
      rw [utf8_cons a, utf8_cons c, utf8Bytes_ascii a ha]
      by_cases hc : c.toNat < 128
      · rw [utf8Bytes_ascii c hc]
        simp only [List.singleton_append, List.cons.injEq, ih hp2 l]
        constructor
        · rintro ⟨h1, h2⟩
          exact ⟨Char.eq_of_toNat_eq c a h1, h2⟩
        · rintro ⟨h1, h2⟩
          exact ⟨by rw [h1], h2⟩
      · obtain ⟨b, bs, hb, hge⟩ := utf8Bytes_high c hc
        rw [hb]
        simp only [List.singleton_append, List.cons_append, List.cons.injEq]
        constructor
        · rintro ⟨h1, _⟩
          omega
        · rintro ⟨h1, _⟩
          subst h1
          exact absurd ha hc

theorem strings.Contains_of_prefix (s substr : List Nat) (h : substr <+: s) :
    strings.Contains s substr = true := by
  cases s with
  | nil =>
    have : substr = [] := List.prefix_nil.mp h
    subst this
    rfl
  | cons b bs =>
    rw [strings.Contains, List.isPrefixOf_iff_prefix.mpr h]
    rfl

theorem strings.Contains_driver (s : String) (h : "--driver=".toList <+: s.toList) :
    strings.Contains (goBytes s) (goBytes "-d") = true := by
  obtain ⟨t, ht⟩ := h
  have hs : goBytes s = 45 :: 45 :: 100 :: utf8 ("river=".toList ++ t) := by
    rw [goBytes, ← ht]
    have : "--driver=".toList ++ t = '-' :: '-' :: 'd' :: ("river=".toList ++ t) := rfl
    rw [this, utf8_cons, utf8_cons, utf8_cons]
    rfl
  have hd : goBytes "-d" = [45, 100] := by decide
  rw [hs, hd]
  simp [strings.Contains, List.isPrefixOf]

theorem strings.mem_of_prefix (c : Char) (p s : List Char) (hc : c ∈ p) (h : p <+: s) : c ∈ s :=
  h.subset hc

theorem commands.flagHackLookup.loop_driver (osArgs : List String) :
    commands.flagHackLookup.loop (goBytes "-d") "--driver" osArgs
      = some (commands.driverLookupSpec osArgs) := by
  induction osArgs with
  | nil => rfl
  | cons arg rest ih =>
    have e1 : goBytes "-d" ++ goBytes "=" = goBytes "-d=" := by decide
    have e2 : ("--driver" ++ "=" : String) = "--driver=" := rfl
    have hEq : goBytes arg = goBytes "-d" ↔ arg = "-d" := by
      rw [goBytes, goBytes, utf8_eq_iff "-d".toList (by decide) arg.toList]
      constructor
      · intro h
        exact String.ext h
      · intro h
        rw [h]
    have hP1 : strings.HasPrefix (goBytes arg) (goBytes "-d=") = true ↔
        "-d=".toList <+: arg.toList := by
      rw [strings.HasPrefix, List.isPrefixOf_iff_prefix, goBytes, goBytes,
        utf8_prefix_iff "-d=".toList (by decide) arg.toList]
    have hP2 : strings.HasPrefix (goBytes arg) (goBytes "--driver=") = true ↔
        "--driver=".toList <+: arg.toList := by
      rw [strings.HasPrefix, List.isPrefixOf_iff_prefix, goBytes, goBytes,
        utf8_prefix_iff "--driver=".toList (by decide) arg.toList]
    rw [commands.flagHackLookup.loop, commands.driverLookupSpec, e1, e2]
    by_cases hq1 : (arg = "-d" ∨ arg = "--driver") ∧ rest ≠ []
    · have hc : strings.Contains (goBytes arg) (goBytes "-d") = true := by
        rcases hq1.1 with rfl | rfl <;> decide
      obtain ⟨next, tl, rfl⟩ := List.exists_cons_of_ne_nil hq1.2
      have hb : (decide (goBytes arg = goBytes "-d") || decide (arg = "--driver")) = true := by
        rcases hq1.1 with rfl | rfl <;> decide
      simp only [hc, if_true, hb, List.head?_cons, if_pos hq1, List.headD_cons]
    · rw [if_neg hq1]
      have hhead : (if (decide (goBytes arg = goBytes "-d") || decide (arg = "--driver")) = true
          then rest.head? else none) = none := by
        by_cases hb : (decide (goBytes arg = goBytes "-d") || decide (arg = "--driver")) = true
        · have hr : rest = [] := by
            by_contra hr
            refine hq1 ⟨?_, hr⟩
            simp only [Bool.or_eq_true, decide_eq_true_eq] at hb
            exact hb.imp hEq.mp id
          simp [hr]
        · simp [hb]
      have hpre : (strings.HasPrefix (goBytes arg) (goBytes "-d=") ||
            strings.HasPrefix (goBytes arg) (goBytes "--driver=")) = true ↔
          ("-d=".toList <+: arg.toList ∨ "--driver=".toList <+: arg.toList) := by
        rw [Bool.or_eq_true, hP1, hP2]
      by_cases hq2 : "-d=".toList <+: arg.toList ∨ "--driver=".toList <+: arg.toList
      · have hc : strings.Contains (goBytes arg) (goBytes "-d") = true := by
          rcases hq2 with h | h
          · refine strings.Contains_of_prefix _ _ ?_
            rw [goBytes, goBytes, utf8_prefix_iff "-d".toList (by decide) arg.toList]
            exact (List.prefix_append "-d".toList ['=']).trans h
          · exact strings.Contains_driver arg h
        have hmem : '=' ∈ arg.toList := by
          rcases hq2 with h | h
          · exact strings.mem_of_prefix '=' _ _ (by decide) h
          · exact strings.mem_of_prefix '=' _ _ (by decide) h
        rw [if_pos hq2]
        simp only [hc, if_true, hhead, hpre.mpr hq2, strings.Split_equals_get arg hmem]
      · rw [if_neg hq2]
        have hnp : (strings.HasPrefix (goBytes arg) (goBytes "-d=") ||
            strings.HasPrefix (goBytes arg) (goBytes "--driver=")) = false := by
          rw [Bool.eq_false_iff]
          exact fun h => hq2 (hpre.mp h)
        by_cases hc : strings.Contains (goBytes arg) (goBytes "-d") = true
        · simp only [hc, if_true, hhead, hnp, Bool.false_eq_true, if_false, ih]
        · simp only [hc, Bool.false_eq_true, if_false, ih]

/-- The slice `flagName[1:3]` is taken on bytes: of `-é` (three bytes) it is the two
bytes of `é`, and the lookup of `-é` finds the argument after `-é`; of `éa` it is the
second byte of `é` and the byte of `a`, which encode no text; a name of fewer than
three bytes is a panic. -/
theorem commands.flagHackLookup_byte_slice :
    goSlice "-é" 1 3 = some (goBytes "é") ∧
    commands.flagHackLookup ["podman-machine", "create", "-é", "val"] "-é" = some "val" ∧
    goSlice "éa" 1 3 = some [0xA9, 0x61] ∧
    goSlice "-d" 1 3 = none ∧
    commands.flagHackLookup ["podman-machine", "create", "-d", "val"] "-d" = none := by
  decide

/-- C30: `flagHackLookup("--driver")` over an argument list never panics and returns
what the specification's scan returns: the first argument that equals `-d` or
`--driver` and has a following argument (the result is that argument), or that starts
with `-d=` or `--driver=` (the result is the text between its first and second `=`),
decides; without such an argument the result is the empty string. In particular a
value containing `=` is truncated, `--driver=` gives the empty string, a bare
`--driver` in last position gives the empty string, and `--debug` is skipped. -/
theorem C30_flag_lookup :
    (∀ osArgs : List String,
      commands.flagHackLookup osArgs "--driver" = some (commands.driverLookupSpec osArgs)) ∧
    commands.flagHackLookup ["podman-machine", "create", "--driver=a=b", "m"] "--driver"
      = some "a" ∧
    commands.flagHackLookup ["podman-machine", "create", "--driver=", "m"] "--driver"
      = some "" ∧
    commands.flagHackLookup ["podman-machine", "create", "m", "--driver"] "--driver"
      = some "" ∧
    commands.flagHackLookup ["podman-machine", "create", "--debug", "-d", "virtualbox", "m"]
        "--driver" = some "virtualbox" ∧
    commands.flagHackLookup ["podman-machine", "create", "--debug", "m"] "--driver"
      = some "" := by
  refine ⟨?_, by decide, by decide, by decide, by decide, by decide⟩
  intro osArgs
  have h : goSlice "--driver" 1 3 = some (goBytes "-d") := by decide
  rw [commands.flagHackLookup, h]
  exact commands.flagHackLookup.loop_driver osArgs

end Strings

/-! ## Restart: the remaining path and the repeated guest wait -/

section RestartPaths

variable {σ P : Type}

theorem provision.StandardDetector.detect_channel (env : Env σ P)
    (d : Option (drivers.Driver σ)) :
    Go.Appends (fun e => e.isChannel = true)
      (provision.StandardDetector.DetectProvisioner env d) := by
  unfold provision.StandardDetector.DetectProvisioner
  refine Go.Appends.bind (Go.Appends.log _ rfl) fun _ => ?_
  refine Go.Appends.bind (Go.Appends.liftExt _ _) fun err => ?_
  cases err with
  | some e => exact Go.Appends.pure _ _
  | none =>
    refine Go.Appends.bind (Go.Appends.log _ rfl) fun _ => ?_
    refine Go.Appends.bind (Go.Appends.liftExt _ _) fun r => ?_
    rcases r with ⟨out, _ | e⟩
    · dsimp only
      cases env.NewOsRelease out with
      | error e => exact Go.Appends.pure _ _
      | ok info => exact Go.Appends.bind (Go.Appends.get _) fun _ => Go.Appends.pure _ _
    · exact Go.Appends.pure _ _

theorem provision.DetectProvisioner_once (env : Env σ P) (d : Option (drivers.Driver σ))
    (w : World σ P) :
    ∃ r w1 evs, provision.DetectProvisioner env d w = some (r, w1) ∧
      w1.trace = w.trace ++ Event.DetectProvisioner :: evs ∧ ∀ e ∈ evs, e.isChannel = true := by
  have key : ∀ det : provision.Detector σ P, Go.Appends (fun e => e.isChannel = true)
      (match det with
        | .StandardDetector => provision.StandardDetector.DetectProvisioner env d
        | .FakeDetector p => provision.FakeDetector.DetectProvisioner p d
        | .custom detect => Go.liftExt (detect d)) := by
    intro det
    cases det with
    | StandardDetector => exact provision.StandardDetector.detect_channel env d
    | FakeDetector p => exact Go.Appends.pure _ _
    | custom detect => exact Go.Appends.liftExt _ _
  obtain ⟨r, w1, evs, hrun, htr, hok, _, _⟩ :=
    key w.detector { w with trace := w.trace ++ [Event.DetectProvisioner] }
  refine ⟨r, w1, evs, ?_, ?_, hok⟩
  · simpa [provision.DetectProvisioner, Go.bind_run, Go.log, Go.get] using hrun
  · simpa using htr

theorem host.Host.WaitForPodman_once (env : Env σ P) (h : host.Host σ) (w : World σ P) :
    ∃ res w' evs, h.WaitForPodman env w = some (res, w') ∧
      w'.trace = w.trace ++ Event.DetectProvisioner :: evs ∧
      evs.count Event.DetectProvisioner = 0 ∧
      evs.count Event.WaitForPodman ≤ 1 ∧
      (res = none → evs.count Event.WaitForPodman = 1) ∧
      ∀ e ∈ evs, e.isGuest = true := by
  obtain ⟨r, w1, evs, hrun, htr, hok⟩ := provision.DetectProvisioner_once env h.Driver w
  have hnd : evs.count Event.DetectProvisioner = 0 :=
    @Event.count_of_forall (fun e => e.isChannel = true) Event.DetectProvisioner (by decide) evs hok
  have hnw : evs.count Event.WaitForPodman = 0 :=
    @Event.count_of_forall (fun e => e.isChannel = true) Event.WaitForPodman (by decide) evs hok
  have hguest : ∀ e ∈ evs, e.isGuest = true := by
    intro e he
    have := hok e he
    cases e <;> simp_all [Event.isChannel, Event.isGuest]
  rcases r with ⟨p, _ | e⟩
  · refine ⟨(env.WaitForPodman p w1.ext).1,
      { w1 with
        ext := (env.WaitForPodman p w1.ext).2
        trace := w1.trace ++ [Event.WaitForPodman] },
      evs ++ [Event.WaitForPodman], ?_, ?_, ?_, ?_, ?_, ?_⟩
    · simp only [host.Host.WaitForPodman, Go.bind_run, hrun, provision.WaitForPodman, Go.log,
        Go.liftExt]
    · simp [htr]
    · simp [List.count_append, hnd]
    · simp [List.count_append, hnw]
    · intro _
      simp [List.count_append, hnw]
    · intro e he
      rcases List.mem_append.mp he with he | he
      · exact hguest e he
      · simp at he
        subst he
        rfl
  · refine ⟨some e, w1, evs, ?_, htr, hnd, by omega, ?_, hguest⟩
    · simp only [host.Host.WaitForPodman, Go.bind_run, hrun, Go.pure_run]
    · intro hc
      cases hc

theorem host.Host.Start_ok_trace (env : Env σ P) (h : host.Host σ) (d : drivers.Driver σ)
    (w w1 : World σ P) (hd : h.Driver = some d) (hrun : h.Start env w = some (none, w1)) :
    ∃ evs, w1.trace = w.trace ++ evs ∧ evs.count Event.DetectProvisioner = 1 ∧
      evs.count Event.WaitForPodman = 1 := by
  obtain ⟨r0, wA, evsA, hrunA, htrA, hokA, _, _⟩ :=
    host.Host.runActionForState_appends env h d drivers.Verb.Start state.State.Running hd w
  have hcA : ∀ e : Event, e.isGuest = true → evsA.count e = 0 := by
    intro e he
    refine @Event.count_of_forall (fun x => x.isGetState = true ∨ x = drivers.Verb.Start.event)
      e ?_ evsA hokA
    rintro (h1 | h1)
    · cases e <;> simp_all [Event.isGuest, Event.isGetState]
    · subst h1
      simp [Event.isGuest, drivers.Verb.event] at he
  simp only [host.Host.Start, Go.bind_run, hrunA] at hrun
  cases r0 with
  | some e => simp [Go.pure_run] at hrun
  | none =>
    simp only at hrun
    obtain ⟨res, w', evs, hw, htr, hnd, _, hone, _⟩ := host.Host.WaitForPodman_once env h wA
    rw [hw] at hrun
    simp only [Option.some.injEq, Prod.mk.injEq] at hrun
    obtain ⟨hres, rfl⟩ := hrun
    refine ⟨evsA ++ Event.DetectProvisioner :: evs, ?_, ?_, ?_⟩
    · rw [htr, htrA, List.append_assoc]
    · simp [List.count_append, List.count_cons, hcA Event.DetectProvisioner rfl, hnd]
    · simp [List.count_append, List.count_cons, hcA Event.WaitForPodman rfl, hone hres]

theorem host.Host.Restart_other (env : Env σ P) (h : host.Host σ) (d : drivers.Driver σ)
    (w : World σ P) (hd : h.Driver = some d)
    (h1 : (d.getState w.ext).1.1 ≠ state.State.Stopped)
    (h2 : (d.getState (d.getState w.ext).2).1.1 ≠ state.State.Running) :
    h.Restart env w = h.WaitForPodman env ((w.afterGetState d).afterGetState d) := by
  have hb1 : ((d.getState w.ext).1.1 == state.State.Stopped) = false := by simpa using h1
  have hb2 : ((d.getState (d.getState w.ext).2).1.1 == state.State.Running) = false := by
    simpa using h2
  have hext : (w.afterGetState d).ext = (d.getState w.ext).2 := rfl
  simp only [host.Host.Restart, Go.bind_run, hd, drivers.MachineInState_run, hb1,
    Bool.false_eq_true, if_false, hext, hb2]

/-- C25: `Host.Restart` on a host whose driver reports neither Stopped (at the first
query) nor Running (at the second). Restart is then exactly `WaitForPodman` run after
the two state queries: it returns that result and no error of its own, and what it
adds to the trace is the two queries followed by events of detection and of the guest
wait only, so neither the Start nor the Restart primitive (nor any other) is invoked. -/
theorem C25_restart_in_other_state (env : Env σ P) (h : host.Host σ) (d : drivers.Driver σ)
    (w : World σ P) (hd : h.Driver = some d)
    (h1 : (d.getState w.ext).1.1 ≠ state.State.Stopped)
    (h2 : (d.getState (d.getState w.ext).2).1.1 ≠ state.State.Running) :
    h.Restart env w = h.WaitForPodman env ((w.afterGetState d).afterGetState d) ∧
    ∃ res w' evs, h.Restart env w = some (res, w') ∧
      w'.trace = w.trace ++ (Event.GetState (d.getState w.ext).1.1 ::
        Event.GetState (d.getState (d.getState w.ext).2).1.1 :: evs) ∧
      (∀ e ∈ evs, e.isGuest = true) ∧ Event.Start ∉ evs ∧ Event.Restart ∉ evs := by
  have key := host.Host.Restart_other env h d w hd h1 h2
  refine ⟨key, ?_⟩
  obtain ⟨res, w', evs, hrun, htr, _, _, _, hguest⟩ :=
    host.Host.WaitForPodman_once env h ((w.afterGetState d).afterGetState d)
  have hg : ∀ e ∈ Event.DetectProvisioner :: evs, e.isGuest = true := by
    intro e he
    rcases List.mem_cons.mp he with rfl | he
    · rfl
    · exact hguest e he
  refine ⟨res, w', Event.DetectProvisioner :: evs, key.trans hrun, ?_, hg, ?_, ?_⟩
  · rw [htr]
    simp [World.afterGetState]
  · intro hm
    have := hg _ hm
    simp [Event.isGuest] at this
  · intro hm
    have := hg _ hm
    simp [Event.isGuest] at this

/-- Witness of C25: a paused machine. Restart returns nil after the two queries, the
detection and the guest wait, and the machine is still paused. -/
theorem C25_restart_in_other_state_witness :
    (fixture.hostOn "m" fixture.fakedriver).Restart (fixture.env 3 none)
        (fixture.world state.State.Paused fixture.fakeDetector)
      = some (none,
          { fixture.world state.State.Paused fixture.fakeDetector with
            trace := [Event.GetState state.State.Paused, Event.GetState state.State.Paused,
              Event.DetectProvisioner, Event.WaitForPodman] }) :=
  ((C25_restart_in_other_state (fixture.env 3 none) (fixture.hostOn "m" fixture.fakedriver)
    (drivers.Driver.backend fixture.fakedriver)
    (fixture.world state.State.Paused fixture.fakeDetector) rfl (by decide) (by decide)).1).trans
    rfl

/-- C26: how often `Host.Restart` runs `WaitForPodman` (provisioner detection, then the
guest wait). (1) On a host reporting Stopped, when the inner `Start` returns nil (in
world `w1`), Restart goes on to run `WaitForPodman` once more from `w1` and returns
that second run's result; its trace then holds exactly two detections and at least one
guest wait, two when Restart returns nil. (2) On a host reporting Running at the
second query, the trace holds at most one detection and one guest wait; when the
Restart primitive and the wait for Running succeed, Restart is `WaitForPodman` run
after them, and the trace holds exactly one detection. -/
theorem C26_restart_guest_wait_runs (env : Env σ P) (h : host.Host σ) (d : drivers.Driver σ)
    (w : World σ P) (hd : h.Driver = some d) :
    ((d.getState w.ext).1.1 = state.State.Stopped →
      ∀ w1, h.Start env (w.afterGetState d) = some (none, w1) →
        h.Restart env w = h.WaitForPodman env w1 ∧
        ∃ res w' evs, h.Restart env w = some (res, w') ∧ w'.trace = w.trace ++ evs ∧
          evs.count Event.DetectProvisioner = 2 ∧
          1 ≤ evs.count Event.WaitForPodman ∧ evs.count Event.WaitForPodman ≤ 2 ∧
          (res = none → evs.count Event.WaitForPodman = 2)) ∧
    ((d.getState w.ext).1.1 ≠ state.State.Stopped →
      (d.getState (d.getState w.ext).2).1.1 = state.State.Running →
      (∃ res w' evs, h.Restart env w = some (res, w') ∧ w'.trace = w.trace ++ evs ∧
          evs.count Event.DetectProvisioner ≤ 1 ∧ evs.count Event.WaitForPodman ≤ 1) ∧
      ((d.prim drivers.Verb.Restart (d.getState (d.getState w.ext).2).2).1 = none →
        state.State.Running ∈ drivers.pollTrace d state.State.Running env.maxAttempts
          (d.prim drivers.Verb.Restart (d.getState (d.getState w.ext).2).2).2 →
        h.Restart env w = h.WaitForPodman env
          ((((w.afterGetState d).afterGetState d).afterPrim d drivers.Verb.Restart).afterWait d
            state.State.Running env.maxAttempts) ∧
        ∃ res w' evs, h.Restart env w = some (res, w') ∧ w'.trace = w.trace ++ evs ∧
          evs.count Event.DetectProvisioner = 1)) := by
  constructor
  · intro hs w1 hstart
    have key := host.Host.Restart_stopped env h d w hd hs
    rw [hstart] at key
    simp only at key
    refine ⟨key, ?_⟩
    obtain ⟨evs1, htr1, hd1, hw1⟩ := host.Host.Start_ok_trace env h d _ w1 hd hstart
    obtain ⟨res, w', evs, hrun, htr, hnd, hle, hone, _⟩ := host.Host.WaitForPodman_once env h w1
    refine ⟨res, w', Event.GetState (d.getState w.ext).1.1 :: (evs1 ++ Event.DetectProvisioner :: evs),
      key.trans hrun, ?_, ?_, ?_, ?_, ?_⟩
    · rw [htr, htr1]
      simp [World.afterGetState]
    · simp [List.count_cons, List.count_append, hd1, hnd]
    · simp [List.count_cons, List.count_append, hw1]
    · simp only [List.count_cons, List.count_append, hw1]
      simp
      omega
    · intro hres
      simp [List.count_cons, List.count_append, hw1, hone hres]
  · intro hs hr
    have key := host.Host.Restart_running env h d w hd hs hr
    have hW : ∃ pre, ((((w.afterGetState d).afterGetState d).afterPrim d
        drivers.Verb.Restart).afterWait d state.State.Running env.maxAttempts).trace
          = w.trace ++ pre ∧ ∀ e : Event, e.isGuest = true → pre.count e = 0 := by
      refine ⟨[Event.GetState (d.getState w.ext).1.1,
          Event.GetState (d.getState (d.getState w.ext).2).1.1, Event.Restart] ++
          (drivers.pollTrace d state.State.Running env.maxAttempts
            (d.prim drivers.Verb.Restart (d.getState (d.getState w.ext).2).2).2).map
              Event.GetState, ?_, ?_⟩
      · simp [World.afterWait, World.afterPrim, World.afterGetState, drivers.Verb.event]
      · intro e he
        rw [List.count_eq_zero]
        intro hm
        rcases List.mem_append.mp hm with hm | hm
        · simp at hm
          rcases hm with rfl | rfl | rfl <;> simp [Event.isGuest] at he
        · obtain ⟨st, _, rfl⟩ := List.mem_map.mp hm
          simp [Event.isGuest] at he
    obtain ⟨pre, htrW, hpre⟩ := hW
    have hok : (d.prim drivers.Verb.Restart (d.getState (d.getState w.ext).2).2).1 = none →
        state.State.Running ∈ drivers.pollTrace d state.State.Running env.maxAttempts
          (d.prim drivers.Verb.Restart (d.getState (d.getState w.ext).2).2).2 →
        h.Restart env w = h.WaitForPodman env
          ((((w.afterGetState d).afterGetState d).afterPrim d drivers.Verb.Restart).afterWait d
            state.State.Running env.maxAttempts) ∧
        ∃ res w' evs, h.Restart env w = some (res, w') ∧ w'.trace = w.trace ++ evs ∧
          evs.count Event.DetectProvisioner = 1 ∧ evs.count Event.WaitForPodman ≤ 1 := by
      intro hp hwait
      rw [hp] at key
      simp only [hwait, if_true] at key
      refine ⟨key, ?_⟩
      obtain ⟨res, w', evs, hrun, htr, hnd, hle, _, _⟩ := host.Host.WaitForPodman_once env h
        ((((w.afterGetState d).afterGetState d).afterPrim d drivers.Verb.Restart).afterWait d
          state.State.Running env.maxAttempts)
      refine ⟨res, w', pre ++ Event.DetectProvisioner :: evs, key.trans hrun, ?_, ?_, ?_⟩
      · rw [htr, htrW, List.append_assoc]
      · rw [List.count_append, hpre Event.DetectProvisioner rfl]
        simp [List.count_cons, hnd]
      · rw [List.count_append, hpre Event.WaitForPodman rfl]
        simpa [List.count_cons] using hle
    constructor
    · cases hp : (d.prim drivers.Verb.Restart (d.getState (d.getState w.ext).2).2).1 with
      | some e =>
        rw [hp] at key
        simp only at key
        refine ⟨_, _, [Event.GetState (d.getState w.ext).1.1,
          Event.GetState (d.getState (d.getState w.ext).2).1.1, Event.Restart], key, ?_, ?_, ?_⟩
        · simp [World.afterPrim, World.afterGetState, drivers.Verb.event]
        · simp [List.count_cons]
        · simp [List.count_cons]
      | none =>
        by_cases hwait : state.State.Running ∈ drivers.pollTrace d state.State.Running
            env.maxAttempts (d.prim drivers.Verb.Restart (d.getState (d.getState w.ext).2).2).2
        · obtain ⟨_, res, w', evs, hrun, htr, hc1, hc2⟩ := hok hp hwait
          exact ⟨res, w', evs, hrun, htr, by omega, hc2⟩
        · rw [hp] at key
          simp only [hwait, if_false] at key
          refine ⟨_, _, pre, key, htrW, ?_, ?_⟩
          · rw [hpre Event.DetectProvisioner rfl]
            omega
          · rw [hpre Event.WaitForPodman rfl]
            omega
    · intro hp hwait
      obtain ⟨heq, res, w', evs, hrun, htr, hc1, _⟩ := hok hp hwait
      exact ⟨heq, res, w', evs, hrun, htr, hc1⟩

/-- Witness of C26: restarting a stopped machine on the fake driver: detection and the
guest wait appear twice in the trace, once from the inner Start and once from Restart. -/
theorem C26_restart_guest_wait_runs_witness :
    (fixture.hostOn "m" fixture.fakedriver).Restart (fixture.env 3 none)
        (fixture.world state.State.Stopped fixture.fakeDetector)
      = some (none,
          { fixture.world state.State.Running fixture.fakeDetector with
            trace := [Event.GetState state.State.Stopped, Event.GetState state.State.Stopped,
              Event.Start, Event.GetState state.State.Running,
              Event.DetectProvisioner, Event.WaitForPodman,
              Event.DetectProvisioner, Event.WaitForPodman] }) :=
  (((C26_restart_guest_wait_runs (fixture.env 3 none) (fixture.hostOn "m" fixture.fakedriver)
    (drivers.Driver.backend fixture.fakedriver)
    (fixture.world state.State.Stopped fixture.fakeDetector) rfl).1 (by decide)
      { fixture.world state.State.Running fixture.fakeDetector with
        trace := [Event.GetState state.State.Stopped, Event.GetState state.State.Stopped,
          Event.Start, Event.GetState state.State.Running,
          Event.DetectProvisioner, Event.WaitForPodman] } rfl).1).trans rfl

end RestartPaths

/-! ## Repeated generation of the engine configuration -/

section Regenerate

variable {σ P : Type}

theorem provision.engineConfigTmpl_split (quote : String → String) (a : auth.Options)
    (e : engine.Options) (extra : List String) :
    provision.engineConfigTmpl quote
        { AuthOptions := a
          EngineOptions := { e with Labels := e.Labels ++ extra }
          EngineOptionsDir := "" }
      = provision.engineConfigHead a e ++
          String.join (extra.map fun l => "--label " ++ l ++ " ") ++
          provision.engineConfigTail quote e := by
  simp only [provision.engineConfigTmpl, provision.engineConfigHead, provision.engineConfigTail,
    List.map_append, String.join_append_lists, String.append_assoc]

theorem provision.SystemdProvisioner.GenerateEngineOptions_run (quote : String → String)
    (p : provision.SystemdProvisioner σ) (d : drivers.Driver σ) (w : World σ P)
    (hd : p.Driver = some d) :
    p.GenerateEngineOptions quote w
      = some (((some { EngineOptionsString := provision.engineConfigTmpl quote
                          { AuthOptions := p.AuthOptions
                            EngineOptions := (p.withLabels ("provider=" ++ d.driverName w.ext)
                              1).EngineOptions
                            EngineOptionsDir := "" }
                       EngineOptionsPath := p.DaemonOptionsFile }, none),
                p.withLabels ("provider=" ++ d.driverName w.ext) 1), w) := by
  simp only [provision.SystemdProvisioner.GenerateEngineOptions, hd, Go.bind_run, Go.get,
    Go.pure_run, provision.SystemdProvisioner.withLabels, List.replicate]

theorem provision.SystemdProvisioner.withLabels_succ (p : provision.SystemdProvisioner σ)
    (label : String) (k : Nat) :
    (p.withLabels label k).withLabels label 1 = p.withLabels label (k + 1) := by
  simp [provision.SystemdProvisioner.withLabels, List.replicate_succ', List.append_assoc]

theorem provision.SystemdProvisioner.generated_run (quote : String → String)
    (p : provision.SystemdProvisioner σ) (d : drivers.Driver σ) (w : World σ P)
    (hd : p.Driver = some d) (k : Nat) :
    provision.SystemdProvisioner.generated quote k p w
      = some (p.withLabels ("provider=" ++ d.driverName w.ext) k, w) := by
  induction k with
  | zero =>
    simp [provision.SystemdProvisioner.generated, Go.pure_run,
      provision.SystemdProvisioner.withLabels]
  | succ k ih =>
    have hdk : (p.withLabels ("provider=" ++ d.driverName w.ext) k).Driver = some d := hd
    simp only [provision.SystemdProvisioner.generated, Go.bind_run, ih,
      provision.SystemdProvisioner.GenerateEngineOptions_run quote _ d w hdk, Go.pure_run,
      provision.SystemdProvisioner.withLabels_succ]

/-- C27: `GenerateEngineOptions` is not idempotent on the provisioner. With `label` the
text `provider=<driver name>`: (1) `k` successive calls leave the provisioner with its
original labels followed by `k` copies of `label`, everything else unchanged; (2) the
next call, the `k+1`-th, returns a nil error, and its rendered string is the rendering
of the original options up to their labels, then `k+1` copies of `--label <label> `,
then the rest of the rendering; (3) with no copy in between, that is the rendering of
the original options. -/
theorem C27_generate_appends_label (quote : String → String)
    (p : provision.SystemdProvisioner σ) (d : drivers.Driver σ) (w : World σ P)
    (hd : p.Driver = some d) (k : Nat) :
    provision.SystemdProvisioner.generated quote k p w
      = some (p.withLabels ("provider=" ++ d.driverName w.ext) k, w) ∧
    (p.withLabels ("provider=" ++ d.driverName w.ext) k).EngineOptions.Labels
      = p.EngineOptions.Labels ++ List.replicate k ("provider=" ++ d.driverName w.ext) ∧
    (p.withLabels ("provider=" ++ d.driverName w.ext) k).GenerateEngineOptions quote w
      = some (((some { EngineOptionsString :=
                          provision.engineConfigHead p.AuthOptions p.EngineOptions ++
                          String.join (List.replicate (k + 1)
                            ("--label " ++ ("provider=" ++ d.driverName w.ext) ++ " ")) ++
                          provision.engineConfigTail quote p.EngineOptions
                       EngineOptionsPath := p.DaemonOptionsFile }, none),
                p.withLabels ("provider=" ++ d.driverName w.ext) (k + 1)), w) ∧
    provision.engineConfigHead p.AuthOptions p.EngineOptions ++
        provision.engineConfigTail quote p.EngineOptions
      = provision.engineConfigTmpl quote
          { AuthOptions := p.AuthOptions, EngineOptions := p.EngineOptions,
            EngineOptionsDir := "" } := by
  refine ⟨provision.SystemdProvisioner.generated_run quote p d w hd k, rfl, ?_, ?_⟩
  · have hdk : (p.withLabels ("provider=" ++ d.driverName w.ext) k).Driver = some d := hd
    rw [provision.SystemdProvisioner.GenerateEngineOptions_run quote _ d w hdk,
      provision.SystemdProvisioner.withLabels_succ]
    have hsplit := provision.engineConfigTmpl_split quote p.AuthOptions p.EngineOptions
      (List.replicate (k + 1) ("provider=" ++ d.driverName w.ext))
    rw [List.map_replicate] at hsplit
    exact congrArg (fun str => some (((some
      ({ EngineOptionsString := str, EngineOptionsPath := p.DaemonOptionsFile } :
        provision.EngineOptions), (none : error)),
      p.withLabels ("provider=" ++ d.driverName w.ext) (k + 1)), w)) hsplit
  · have hsplit := provision.engineConfigTmpl_split quote p.AuthOptions p.EngineOptions []
    simp only [List.append_nil, List.map_nil] at hsplit
    rw [hsplit]
    apply String.ext
    simp [String.data_join, String.data_append]

/-- Witness of C27: two calls on the fixture provisioner leave the label twice. -/
theorem C27_generate_appends_label_witness :
    provision.SystemdProvisioner.generated fixture.quote 2 (fixture.systemd "")
        (fixture.world state.State.Running fixture.fakeDetector)
      = some ((fixture.systemd "").withLabels "provider=Driver" 2,
          fixture.world state.State.Running fixture.fakeDetector) ∧
    ((fixture.systemd "").withLabels "provider=Driver" 2).EngineOptions.Labels
      = ["a", "provider=Driver", "provider=Driver"] :=
  ⟨(C27_generate_appends_label fixture.quote (fixture.systemd "")
      (drivers.Driver.backend fixture.fakedriver)
      (fixture.world state.State.Running fixture.fakeDetector) rfl 2).1, by decide⟩

end Regenerate

/-! ## Authorisation of a removal -/

section RmAuthorisation

variable {σ P : Type}

/-- C28: `cmdRm` removes nothing unless removal is authorised. (1) With no arguments it
shows the help and returns `ErrNoMachineSpecified`: no host is loaded, no driver or
store is called. (2) With arguments and neither `-y` nor force, when the confirmation
prompt fails or is declined, it returns nil and the prompt is the only event: no host
load, no driver `Remove`, no store `Remove`. (3) With `-y` or force, `userConfirm`
returns true without a prompt and `cmdRm` is the removal loop run from the world it was
called in; with an API whose successful loads yield a host with a driver it returns,
and every named host has been loaded. -/
theorem C28_rm_needs_authorisation (deps : commands.Deps σ) (c : commands.CommandLine)
    (api : libmachine.API σ) (w : World σ P) :
    (c.Args = [] →
      commands.cmdRm deps c api w
        = some (some deps.ErrNoMachineSpecified,
            { w with trace := w.trace ++ [Event.ShowHelp] })) ∧
    (c.Args ≠ [] → c.BoolFlag "y" = false → c.BoolFlag "force" = false →
      ((deps.confirmInput "Are you sure?" w.ext).1.2 ≠ none ∨
        (deps.confirmInput "Are you sure?" w.ext).1.1 = false) →
      commands.cmdRm deps c api w
        = some (none,
            { w with
              ext := (deps.confirmInput "Are you sure?" w.ext).2
              trace := w.trace ++ [Event.ConfirmInput] })) ∧
    (c.Args ≠ [] → (c.BoolFlag "y" = true ∨ c.BoolFlag "force" = true) →
      commands.userConfirm deps (c.BoolFlag "y") (c.BoolFlag "force") w = some (true, w) ∧
      commands.cmdRm deps c api w
        = (match commands.cmdRm.loop deps (c.BoolFlag "force") api c.Args [] w with
          | none => none
          | some (errorOccurred, w') =>
            some (if (errorOccurred.length > 0 && !c.BoolFlag "force") = true then
                some (GoError.errorString (String.intercalate "\n" errorOccurred))
              else none, w')) ∧
      (api.LoadsLive →
        ∃ res w' evs, commands.cmdRm deps c api w = some (res, w') ∧
          w'.trace = w.trace ++ evs ∧ ∀ n ∈ c.Args, Event.APILoad n ∈ evs)) := by
  refine ⟨?_, ?_, ?_⟩
  · intro hargs
    simp only [commands.cmdRm, hargs, List.length_nil, if_true, Go.bind_run, commands.ShowHelp,
      Go.log, Go.pure_run]
  · intro hargs hy hf hdecl
    have hlen : ¬ c.Args.length = 0 := fun h => hargs (List.length_eq_zero.mp h)
    have hconf : commands.userConfirm deps false false w
        = some (false,
            { w with
              ext := (deps.confirmInput "Are you sure?" w.ext).2
              trace := w.trace ++ [Event.ConfirmInput] }) := by
      simp only [commands.userConfirm, Bool.or_self, Bool.false_eq_true, if_false, Go.bind_run,
        Go.log, Go.liftExt]
      cases he : (deps.confirmInput "Are you sure?" w.ext).1.2 with
      | some e => simp [Go.pure_run]
      | none =>
        rcases hdecl with h | h
        · exact absurd he h
        · simp [Go.pure_run, h]
    simp only [commands.cmdRm, hlen, if_false, Go.bind_run, hy, hf, hconf, Bool.not_false,
      if_true, Go.pure_run]
  · intro hargs hflag
    have hlen : ¬ c.Args.length = 0 := fun h => hargs (List.length_eq_zero.mp h)
    have hor : (c.BoolFlag "y" || c.BoolFlag "force") = true := by
      rcases hflag with h | h <;> simp [h]
    have hconf : commands.userConfirm deps (c.BoolFlag "y") (c.BoolFlag "force") w
        = some (true, w) := by
      simp only [commands.userConfirm, hor, if_true, Go.pure_run]
    have hrun : commands.cmdRm deps c api w
        = (match commands.cmdRm.loop deps (c.BoolFlag "force") api c.Args [] w with
          | none => none
          | some (errorOccurred, w') =>
            some (if (errorOccurred.length > 0 && !c.BoolFlag "force") = true then
                some (GoError.errorString (String.intercalate "\n" errorOccurred))
              else none, w')) := by
      simp only [commands.cmdRm, hlen, if_false, Go.bind_run, hconf, Bool.not_true,
        Bool.false_eq_true]
      cases commands.cmdRm.loop deps (c.BoolFlag "force") api c.Args [] w with
      | none => rfl
      | some r =>
        obtain ⟨errs, w'⟩ := r
        simp only
        split <;> rfl
    refine ⟨hconf, hrun, ?_⟩
    intro hlive
    obtain ⟨recs, w', hrec⟩ := commands.rmRecords_total (c.BoolFlag "force") api hlive c.Args w
    obtain ⟨hnames, _, evs, htr, hev⟩ :=
      commands.rmRecords_spec (c.BoolFlag "force") api c.Args w w' recs hrec
    rw [hrun, commands.cmdRm.loop_eq_records, hrec]
    refine ⟨_, w', evs, rfl, htr, ?_⟩
    intro n hn
    rw [← hnames] at hn
    obtain ⟨r, hr, rfl⟩ := List.mem_map.mp hn
    exact (hev r hr).1

/-- Witness of C28: the user declines the removal of `A`: nil is returned, the store
still holds `A`, and the prompt is the only event. -/
theorem C28_rm_needs_authorisation_witness :
    commands.cmdRm fixture.depsDeclining (fixture.commandLine ["A"] false false) fixture.api
        (fixture.storeWorld ["A"])
      = some (none, { fixture.storeWorld ["A"] with trace := [Event.ConfirmInput] }) :=
  (C28_rm_needs_authorisation fixture.depsDeclining (fixture.commandLine ["A"] false false)
    fixture.api (fixture.storeWorld ["A"])).2.1 (by decide) rfl rfl (Or.inr rfl)

end RmAuthorisation

/-! ## Creation of a machine by the client -/

section ClientCreate

variable {σ P α β : Type}

theorem Go.Extends.ret_extends (a : α) : Go.Extends (pure a : Go σ P α) := by
  intro w b w' h
  simp only [Go.pure_run, Option.some.injEq, Prod.mk.injEq] at h
  exact ⟨[], by rw [← h.2]; simp⟩

theorem Go.Extends.seq_extends {x : Go σ P α} {f : α → Go σ P β}
    (hx : Go.Extends x) (hf : ∀ a, Go.Extends (f a)) : Go.Extends (x >>= f) := by
  intro w b w' h
  simp only [Go.bind_run] at h
  cases hxw : x w with
  | none => rw [hxw] at h; simp at h
  | some r =>
    obtain ⟨a, w1⟩ := r
    rw [hxw] at h
    obtain ⟨evs1, h1⟩ := hx w a w1 hxw
    obtain ⟨evs2, h2⟩ := hf a w1 b w' h
    exact ⟨evs1 ++ evs2, by rw [h2, h1, List.append_assoc]⟩

theorem Go.Extends.panic_extends : Go.Extends (Go.panic : Go σ P α) := by
  intro w b w' h
  simp [Go.panic] at h

theorem Go.Extends.from_appends {ok : Event → Prop} {x : Go σ P α} (hx : Go.Appends ok x) :
    Go.Extends x := by
  intro w b w' h
  obtain ⟨a, w1, evs, hrun, htr, _⟩ := hx w
  rw [hrun] at h
  simp only [Option.some.injEq, Prod.mk.injEq] at h
  exact ⟨evs, by rw [← h.2]; exact htr⟩

theorem libmachine.Client.finishCreate_extends (env : Env σ P) (h : host.Host σ)
    (d : drivers.Driver σ) (hd : h.Driver = some d) :
    Go.Extends (libmachine.Client.finishCreate env h) := by
  have hlog : ∀ e : Event, Go.Extends (Go.log e : Go σ P Unit) := fun e =>
    Go.Extends.from_appends (@Go.Appends.log σ P (fun _ => True) e trivial)
  have hlift : ∀ {γ : Type} (f : σ → γ × σ), Go.Extends (Go.liftExt f : Go σ P γ) := fun f =>
    Go.Extends.from_appends (Go.Appends.liftExt (fun _ => True) f)
  unfold libmachine.Client.finishCreate
  rw [hd]
  refine Go.Extends.seq_extends (Go.Extends.from_appends (Go.Appends.get (fun _ => True))) fun w0 => ?_
  split
  · exact Go.Extends.ret_extends _
  · refine Go.Extends.seq_extends (Go.Extends.from_appends (mcnutils.WaitFor_appends env d _)) fun r => ?_
    cases r with
    | some e => exact Go.Extends.ret_extends _
    | none =>
      refine Go.Extends.seq_extends
        (Go.Extends.from_appends (provision.DetectProvisioner_appends env _)) fun r => ?_
      rcases r with ⟨p, _ | e⟩
      · dsimp only
        cases h.HostOptions with
        | none => exact Go.Extends.panic_extends
        | some o =>
          dsimp only
          refine Go.Extends.seq_extends ?_ fun r => ?_
          · unfold libmachine.Client.provision
            split
            · exact Go.Extends.seq_extends (hlog _) fun _ => hlift _
            · exact Go.Extends.panic_extends
          · cases r with
            | some e => exact Go.Extends.ret_extends _
            | none =>
              unfold libmachine.Client.checkConnection
              refine Go.Extends.seq_extends (hlog _) fun _ => ?_
              refine Go.Extends.seq_extends (hlift _) fun r => ?_
              cases r with
              | some e => exact Go.Extends.ret_extends _
              | none =>
                refine Go.Extends.seq_extends (hlog _) fun _ => ?_
                refine Go.Extends.seq_extends (hlift _) fun r => ?_
                rcases r with ⟨out, _ | e⟩ <;> exact Go.Extends.ret_extends _
      · exact Go.Extends.ret_extends _

theorem libmachine.Client.performCreate_extends (env : Env σ P) (api : libmachine.Client σ)
    (h : host.Host σ) (d : drivers.Driver σ) (hd : h.Driver = some d) (w : World σ P)
    (res : error) (w' : World σ P) (hrun : api.performCreate env h w = some (res, w')) :
    ∃ evs, w'.trace = w.trace ++ Event.Create :: evs := by
  simp only [libmachine.Client.performCreate, Go.bind_run, hd, drivers.Driver.call_run] at hrun
  cases hp : (d.prim drivers.Verb.Create w.ext).1 with
  | some e =>
    rw [hp] at hrun
    simp only [Go.pure_run, Option.some.injEq, Prod.mk.injEq] at hrun
    refine ⟨[], ?_⟩
    rw [← hrun.2]
    simp [World.afterPrim, drivers.Verb.event]
  | none =>
    rw [hp] at hrun
    simp only at hrun
    have hrest : Go.Extends (api.Save h >>= fun r =>
        match r with
        | some err => (pure (some (GoError.errorString
            ("Error saving host to store after attempting creation: " ++ env.ErrorText err))) :
              Go σ P error)
        | none => libmachine.Client.finishCreate env h) := by
      refine Go.Extends.seq_extends ?_ fun r => ?_
      · unfold libmachine.Client.Save
        exact Go.Extends.seq_extends
          (Go.Extends.from_appends (@Go.Appends.log σ P (fun _ => True) _ trivial))
          fun _ => Go.Extends.from_appends (Go.Appends.liftExt (fun _ => True) _)
      · cases r with
        | some e => exact Go.Extends.ret_extends _
        | none => exact libmachine.Client.finishCreate_extends env h d hd
    obtain ⟨evs, hevs⟩ := hrest (w.afterPrim d drivers.Verb.Create) res w' (by
      simpa only [Go.bind_run] using hrun)
    refine ⟨evs, ?_⟩
    rw [hevs]
    simp [World.afterPrim, drivers.Verb.event]

/-- C29: `Client.Create` on a host with driver `d`, after the certificates bootstrapped
without error. (1) If `PreCreateCheck` fails with `e`, the result is
`ErrDuringPreCreate{Cause: e}` and the trace ends with the check: the host is not
saved and the driver's `Create` is not invoked. (2) If the check succeeds and the save
fails, the save's error is reported and `Create` is not invoked. (3) If the check and
the save succeed and the driver's `Create` fails with `e`, the trace is the check, the
save, then `Create`, nothing follows (the saved host is not removed), and the error
wraps `e`. (4) If the check and the save succeed, `Create` is `performCreate` run after
the save, whose first call is the driver's `Create`. -/
theorem C29_client_create_order (env : Env σ P) (api : libmachine.Client σ)
    (h : host.Host σ) (d : drivers.Driver σ) (w : World σ P) (hd : h.Driver = some d)
    (hcert : (env.BootstrapCertificates h.AuthOptions w.ext).1 = none) :
    (∀ e, (d.prim drivers.Verb.PreCreateCheck
          (env.BootstrapCertificates h.AuthOptions w.ext).2).1 = some e →
      api.Create env h w
        = some (some (GoError.ErrDuringPreCreate e),
            { w with
              ext := (d.prim drivers.Verb.PreCreateCheck
                (env.BootstrapCertificates h.AuthOptions w.ext).2).2
              trace := w.trace ++ [Event.BootstrapCertificates, Event.PreCreateCheck] })) ∧
    ((d.prim drivers.Verb.PreCreateCheck
          (env.BootstrapCertificates h.AuthOptions w.ext).2).1 = none →
      (∀ e, (api.FilestoreSave h (d.prim drivers.Verb.PreCreateCheck
            (env.BootstrapCertificates h.AuthOptions w.ext).2).2).1 = some e →
        api.Create env h w
          = some (some (GoError.errorString
                ("Error saving host to store before attempting creation: " ++ env.ErrorText e)),
              { w with
                ext := (api.FilestoreSave h (d.prim drivers.Verb.PreCreateCheck
                  (env.BootstrapCertificates h.AuthOptions w.ext).2).2).2
                trace := w.trace ++ [Event.BootstrapCertificates, Event.PreCreateCheck,
                  Event.APISave h.Name] })) ∧
      ((api.FilestoreSave h (d.prim drivers.Verb.PreCreateCheck
            (env.BootstrapCertificates h.AuthOptions w.ext).2).2).1 = none →
        (∀ e, (d.prim drivers.Verb.Create (api.FilestoreSave h (d.prim drivers.Verb.PreCreateCheck
              (env.BootstrapCertificates h.AuthOptions w.ext).2).2).2).1 = some e →
          api.Create env h w
            = some (some (GoError.errorString ("Error creating machine: " ++
                  env.ErrorText (GoError.errorString
                    ("Error in driver during machine creation: " ++ env.ErrorText e)))),
                { w with
                  ext := (d.prim drivers.Verb.Create (api.FilestoreSave h
                    (d.prim drivers.Verb.PreCreateCheck
                      (env.BootstrapCertificates h.AuthOptions w.ext).2).2).2).2
                  trace := w.trace ++ [Event.BootstrapCertificates, Event.PreCreateCheck,
                    Event.APISave h.Name, Event.Create] })) ∧
        (∀ res w', api.Create env h w = some (res, w') →
          ∃ evs, w'.trace = w.trace ++ (Event.BootstrapCertificates :: Event.PreCreateCheck ::
            Event.APISave h.Name :: Event.Create :: evs)))) := by
  have hpre : api.Create env h w
      = match (d.prim drivers.Verb.PreCreateCheck
            (env.BootstrapCertificates h.AuthOptions w.ext).2).1 with
        | some e => some (some (GoError.ErrDuringPreCreate e),
            { w with
              ext := (d.prim drivers.Verb.PreCreateCheck
                (env.BootstrapCertificates h.AuthOptions w.ext).2).2
              trace := w.trace ++ [Event.BootstrapCertificates, Event.PreCreateCheck] })
        | none =>
          match (api.FilestoreSave h (d.prim drivers.Verb.PreCreateCheck
              (env.BootstrapCertificates h.AuthOptions w.ext).2).2).1 with
          | some e => some (some (GoError.errorString
                ("Error saving host to store before attempting creation: " ++ env.ErrorText e)),
              { w with
                ext := (api.FilestoreSave h (d.prim drivers.Verb.PreCreateCheck
                  (env.BootstrapCertificates h.AuthOptions w.ext).2).2).2
                trace := w.trace ++ [Event.BootstrapCertificates, Event.PreCreateCheck,
                  Event.APISave h.Name] })
          | none =>
            match api.performCreate env h
                { w with
                  ext := (api.FilestoreSave h (d.prim drivers.Verb.PreCreateCheck
                    (env.BootstrapCertificates h.AuthOptions w.ext).2).2).2
                  trace := w.trace ++ [Event.BootstrapCertificates, Event.PreCreateCheck,
                    Event.APISave h.Name] } with
            | none => none
            | some (some err, w') =>
              some (some (GoError.errorString ("Error creating machine: " ++ env.ErrorText err)), w')
            | some (none, w') => some (none, w') := by
    simp only [libmachine.Client.Create, Go.bind_run, Go.log, Go.liftExt, hcert, hd,
      drivers.Driver.call_run, World.afterPrim, drivers.Verb.event, libmachine.Client.Save]
    cases hp : (d.prim drivers.Verb.PreCreateCheck
        (env.BootstrapCertificates h.AuthOptions w.ext).2).1 with
    | some e => simp [Go.pure_run]
    | none =>
      simp only [Go.bind_run, Go.log, Go.liftExt, List.append_assoc, List.singleton_append,
        List.cons_append, List.nil_append]
      cases hsv : (api.FilestoreSave h (d.prim drivers.Verb.PreCreateCheck
          (env.BootstrapCertificates h.AuthOptions w.ext).2).2).1 with
      | some e => simp [Go.pure_run]
      | none =>
        simp only [Go.bind_run]
        cases api.performCreate env h _ with
        | none => rfl
        | some r =>
          obtain ⟨res, w'⟩ := r
          cases res <;> rfl
  have hperf : ∀ w3 : World σ P, ∀ res w', api.performCreate env h w3 = some (res, w') →
      ∃ evs, w'.trace = w3.trace ++ Event.Create :: evs := by
    intro w3 res w' hrun
    obtain ⟨evs, hevs⟩ := libmachine.Client.performCreate_extends env api h d hd w3 res w' hrun
    exact ⟨evs, hevs⟩
  refine ⟨?_, ?_⟩
  · intro e he
    rw [hpre, he]
  · intro hp
    rw [hp] at hpre
    simp only at hpre
    refine ⟨?_, ?_⟩
    · intro e he
      rw [hpre, he]
    · intro hsv
      rw [hsv] at hpre
      simp only at hpre
      refine ⟨?_, ?_⟩
      · intro e he
        rw [hpre]
        simp only [libmachine.Client.performCreate, Go.bind_run, hd, drivers.Driver.call_run, he,
          Go.pure_run, World.afterPrim, drivers.Verb.event, List.append_assoc,
          List.cons_append, List.nil_append]
      · intro res w' hrun
        rw [hpre] at hrun
        cases hpc : api.performCreate env h
            { w with
              ext := (api.FilestoreSave h (d.prim drivers.Verb.PreCreateCheck
                (env.BootstrapCertificates h.AuthOptions w.ext).2).2).2
              trace := w.trace ++ [Event.BootstrapCertificates, Event.PreCreateCheck,
                Event.APISave h.Name] } with
        | none => rw [hpc] at hrun; simp at hrun
        | some r =>
          obtain ⟨res1, w1⟩ := r
          obtain ⟨evs, hevs⟩ := hperf _ res1 w1 hpc
          rw [hpc] at hrun
          have hw : w' = w1 := by
            cases res1 <;> simp at hrun <;> exact hrun.2.symm
          subst hw
          refine ⟨evs, ?_⟩
          rw [hevs]
          simp

/-- Witness of C29: a driver whose pre-create check fails: the typed error carries the
cause, and neither a save nor the driver's `Create` appears in the trace. -/
theorem C29_client_create_order_witness :
    fixture.client.Create (fixture.env 3 none) (fixture.hostOn "m" fixture.precheckFailing)
        (fixture.world state.State.None fixture.fakeDetector)
      = some (some (GoError.ErrDuringPreCreate (GoError.errorString "VT-x is not available")),
          { fixture.world state.State.None fixture.fakeDetector with
            trace := [Event.BootstrapCertificates, Event.PreCreateCheck] }) :=
  ((C29_client_create_order (fixture.env 3 none) fixture.client
    (fixture.hostOn "m" fixture.precheckFailing)
    (drivers.Driver.backend fixture.precheckFailing)
    (fixture.world state.State.None fixture.fakeDetector) rfl rfl).1
      (GoError.errorString "VT-x is not available") rfl).trans rfl

end ClientCreate

/-! ## Mutual exclusion of calls through the serial wrapper -/

section Serial

variable {σ P ι : Type}

theorem serial.lockOwned_start (calls : ι → serial.Call σ) (s0 : σ) :
    serial.LockOwned calls (serial.start s0 : serial.System σ ι) := by
  intro i
  simp [serial.start, serial.Phase.holds]

theorem serial.lockOwned_advance [DecidableEq ι] (calls : ι → serial.Call σ) (i : ι)
    (s : serial.System σ ι) (hs : serial.LockOwned calls s) :
    serial.LockOwned calls (serial.advance calls i s) := by
  have hi := hs i
  unfold serial.advance
  cases hd : (calls i).driver with
  | serial inner =>
    have hser : (calls i).driver.isSerial = true := by rw [hd]; rfl
    simp only
    cases hp : s.phase i with
    | idle =>
      simp only
      by_cases hl : s.lock = none
      · rw [if_pos hl]
        intro j
        by_cases hj : j = i
        · subst hj
          simp [hser, serial.Phase.holds]
        · have hjs := hs j
          rw [hl] at hjs
          simp only [Function.update_noteq hj]
          constructor
          · intro h
            exact absurd (Option.some.inj h).symm hj
          · intro h
            simpa using hjs.mpr h
      · rw [if_neg hl]
        exact hs
    | holding =>
      intro j
      by_cases hj : j = i
      · subst hj
        have := hs j
        simp [hp, serial.Phase.holds] at this ⊢
        simpa [hser] using this
      · simpa [Function.update_noteq hj] using hs j
    | running =>
      intro j
      by_cases hj : j = i
      · subst hj
        have := hs j
        simp [hp, serial.Phase.holds] at this ⊢
        simpa [hser] using this
      · simpa [Function.update_noteq hj] using hs j
    | finished r =>
      have hown : s.lock = some i := hi.mpr ⟨hser, by rw [hp]; rfl⟩
      intro j
      by_cases hj : j = i
      · subst hj
        simp [serial.Phase.holds]
      · have hjs := hs j
        rw [hown] at hjs
        simp only [Function.update_noteq hj]
        constructor
        · intro h
          cases h
        · intro h
          exact absurd (Option.some.inj (hjs.mpr h)).symm hj
    | returned r => exact hs
  | backend ops =>
    have hser : (calls i).driver.isSerial = false := by rw [hd]; rfl
    simp only
    cases hp : s.phase i with
    | idle =>
      intro j
      by_cases hj : j = i
      · subst hj
        have := hs j
        simp [hser] at this ⊢
        exact this
      · simpa [Function.update_noteq hj] using hs j
    | running =>
      intro j
      by_cases hj : j = i
      · subst hj
        have := hs j
        simp [hser] at this ⊢
        exact this
      · simpa [Function.update_noteq hj] using hs j
    | holding => exact hs
    | finished r => exact hs
    | returned r => exact hs
  | errdriver n =>
    have hser : (calls i).driver.isSerial = false := by rw [hd]; rfl
    simp only
    cases hp : s.phase i with
    | idle =>
      intro j
      by_cases hj : j = i
      · subst hj
        have := hs j
        simp [hser] at this ⊢
        exact this
      · simpa [Function.update_noteq hj] using hs j
    | running =>
      intro j
      by_cases hj : j = i
      · subst hj
        have := hs j
        simp [hser] at this ⊢
        exact this
      · simpa [Function.update_noteq hj] using hs j
    | holding => exact hs
    | finished r => exact hs
    | returned r => exact hs

theorem serial.lockOwned_run [DecidableEq ι] (calls : ι → serial.Call σ) (schedule : List ι)
    (s : serial.System σ ι) (hs : serial.LockOwned calls s) :
    serial.LockOwned calls (serial.run calls schedule s) := by
  induction schedule generalizing s with
  | nil => exact hs
  | cons i rest ih => exact ih _ (serial.lockOwned_advance calls i s hs)

theorem serial.advance_phase_other [DecidableEq ι] (calls : ι → serial.Call σ) (i j : ι)
    (s : serial.System σ ι) (hji : j ≠ i) :
    (serial.advance calls i s).phase j = s.phase j := by
  unfold serial.advance
  cases (calls i).driver <;> simp only <;> cases s.phase i <;> simp only <;>
    first
      | rfl
      | exact Function.update_noteq hji _ _
      | (by_cases hl : s.lock = none
         · rw [if_pos hl]
           exact Function.update_noteq hji _ _
         · rw [if_neg hl])

theorem serial.directPhases_advance [DecidableEq ι] (calls : ι → serial.Call σ) (i : ι)
    (s : serial.System σ ι) (hs : serial.DirectPhases calls s) :
    serial.DirectPhases calls (serial.advance calls i s) := by
  intro j hj
  have hsj := hs j hj
  by_cases hji : j = i
  · subst hji
    unfold serial.advance
    cases hd : (calls j).driver with
    | serial inner => rw [hd] at hj; cases hj
    | backend ops =>
      simp only
      cases hp : s.phase j <;> simp_all
    | errdriver n =>
      simp only
      cases hp : s.phase j <;> simp_all
  · rw [serial.advance_phase_other calls i j s hji]
    exact hsj

theorem serial.directPhases_run [DecidableEq ι] (calls : ι → serial.Call σ) (schedule : List ι)
    (s : serial.System σ ι) (hs : serial.DirectPhases calls s) :
    serial.DirectPhases calls (serial.run calls schedule s) := by
  induction schedule generalizing s with
  | nil => exact hs
  | cons i rest ih => exact ih _ (serial.directPhases_advance calls i s hs)

theorem serial.directPhases_start (calls : ι → serial.Call σ) (s0 : σ) :
    serial.DirectPhases calls (serial.start s0 : serial.System σ ι) := by
  intro i _
  simp [serial.start]

theorem serial.advance_moves [DecidableEq ι] (calls : ι → serial.Call σ) (i : ι)
    (s : serial.System σ ι) (hdir : serial.DirectPhases calls s)
    (hnr : ∀ r, s.phase i ≠ serial.Phase.returned r)
    (hfree : (calls i).driver.isSerial = true → s.phase i = serial.Phase.idle → s.lock = none) :
    (serial.advance calls i s).phase i ≠ s.phase i := by
  have hdi := hdir i
  unfold serial.advance
  cases hd : (calls i).driver with
  | serial inner =>
    have hser : (calls i).driver.isSerial = true := by rw [hd]; rfl
    simp only
    cases hp : s.phase i with
    | idle =>
      simp only [if_pos (hfree hser hp), Function.update_same]
      simp
    | holding => simp
    | running => simp
    | finished r => simp
    | returned r => exact absurd hp (hnr r)
  | backend ops =>
    have hser : (calls i).driver.isSerial = false := by rw [hd]; rfl
    simp only
    cases hp : s.phase i with
    | idle => simp
    | running => simp
    | holding => exact absurd hp (hdi hser).1
    | finished r => exact absurd hp ((hdi hser).2 r)
    | returned r => exact absurd hp (hnr r)
  | errdriver n =>
    have hser : (calls i).driver.isSerial = false := by rw [hd]; rfl
    simp only
    cases hp : s.phase i with
    | idle => simp
    | running => simp
    | holding => exact absurd hp (hdi hser).1
    | finished r => exact absurd hp ((hdi hser).2 r)
    | returned r => exact absurd hp (hnr r)

theorem serial.progress [DecidableEq ι] (calls : ι → serial.Call σ) (s : serial.System σ ι)
    (hown : serial.LockOwned calls s) (hdir : serial.DirectPhases calls s)
    (hleft : ∃ i, ∀ r, s.phase i ≠ serial.Phase.returned r) :
    ∃ j, serial.advance calls j s ≠ s := by
  obtain ⟨i, hi⟩ := hleft
  by_cases hblocked : (calls i).driver.isSerial = true ∧ s.phase i = serial.Phase.idle ∧
      s.lock ≠ none
  · obtain ⟨_, _, hl⟩ := hblocked
    obtain ⟨j, hj⟩ := Option.ne_none_iff_exists'.mp hl
    have hjown := (hown j).mp hj
    refine ⟨j, fun heq => ?_⟩
    have hmove := serial.advance_moves calls j s hdir
      (fun r hr => by rw [hr] at hjown; simp [serial.Phase.holds] at hjown)
      (fun _ hidle => by rw [hidle] at hjown; simp [serial.Phase.holds] at hjown)
    exact hmove (by rw [heq])
  · refine ⟨i, fun heq => ?_⟩
    have hmove := serial.advance_moves calls i s hdir hi
      (fun hser hidle => by
        by_contra hl
        exact hblocked ⟨hser, hidle, hl⟩)
    exact hmove (by rw [heq])

theorem libmachine.Client.Load_virtualbox (api : libmachine.Client σ) (name : String)
    (w w' : World σ P) (hst : host.Host σ) (e : error)
    (hrun : api.Load name w = some ((some hst, e), w'))
    (hvb : hst.DriverName = "virtualbox") :
    (∃ n, hst.Driver = some (drivers.Driver.errdriver n)) ∨
    (∃ drv, hst.Driver = some (drivers.Driver.serial (drivers.Driver.backend drv))) := by
  simp only [libmachine.Client.Load, Go.bind_run, Go.liftExt] at hrun
  rcases hload : api.FilestoreLoad name w.ext with ⟨r, s1⟩
  rw [hload] at hrun
  cases r with
  | error err => simp [Go.pure_run] at hrun
  | ok h =>
    simp only [Go.bind_run, Go.liftExt] at hrun
    rcases hres : api.NewRPCClientDriver h.DriverName h.RawDriver s1 with ⟨r2, s2⟩
    rw [hres] at hrun
    cases r2 with
    | error err =>
      cases err <;> simp [Go.pure_run] at hrun
      obtain ⟨⟨rfl, _⟩, _⟩ := hrun
      exact Or.inl ⟨_, rfl⟩
    | ok drv =>
      simp only at hrun
      by_cases hv : h.DriverName = "virtualbox"
      · simp only [Go.pure_run, hv, if_true, Option.some.injEq, Prod.mk.injEq] at hrun
        obtain ⟨⟨rfl, _⟩, _⟩ := hrun
        exact Or.inr ⟨drv, rfl⟩
      · simp only [Go.pure_run, hv, if_false, Option.some.injEq, Prod.mk.injEq] at hrun
        obtain ⟨⟨rfl, _⟩, _⟩ := hrun
        exact absurd hvb hv

/-- C23: two hosts returned by `Client.Load` whose `DriverName` is "virtualbox" and
whose driver resolved (it is not the error stand-in) carry the serial wrapper. For one
capability call on each, made concurrently, and for every interleaving `schedule` of
their steps: (1) the two underlying driver calls are never executing at the same time;
(2) a call is between acquiring and releasing exactly when it owns the single lock, so
the lock is held throughout the delegation; (3) a call that has returned, with an error
or without, no longer owns the lock, and when both have returned the lock is free;
(4) as long as a call has not returned, some call can take a step: the lock never
blocks both. -/
theorem C23_serial_calls_never_overlap (api : libmachine.Client σ) (n1 n2 : String)
    (w1 w1' w2 w2' : World σ P) (h1 h2 : host.Host σ) (e1 e2 : error)
    (hl1 : api.Load n1 w1 = some ((some h1, e1), w1'))
    (hl2 : api.Load n2 w2 = some ((some h2, e2), w2'))
    (hv1 : h1.DriverName = "virtualbox") (hv2 : h2.DriverName = "virtualbox")
    (hr1 : ∀ n, h1.Driver ≠ some (drivers.Driver.errdriver n))
    (hr2 : ∀ n, h2.Driver ≠ some (drivers.Driver.errdriver n))
    (m1 m2 : drivers.Driver σ → σ → error × σ) (s0 : σ) (schedule : List Bool) :
    ∃ d1 d2, h1.Driver = some d1 ∧ h2.Driver = some d2 ∧
      ∀ s, s = serial.run (serial.twoCalls d1 d2 m1 m2) schedule (serial.start s0) →
        ¬ (s.phase false = serial.Phase.running ∧ s.phase true = serial.Phase.running) ∧
        (∀ b, (s.phase b).holds = true ↔ s.lock = some b) ∧
        (∀ b r, s.phase b = serial.Phase.returned r → s.lock ≠ some b) ∧
        ((∀ b, ∃ r, s.phase b = serial.Phase.returned r) → s.lock = none) ∧
        ((∃ b, ∀ r, s.phase b ≠ serial.Phase.returned r) →
          ∃ b, serial.advance (serial.twoCalls d1 d2 m1 m2) b s ≠ s) := by
  obtain ⟨drv1, hd1⟩ : ∃ drv, h1.Driver = some (drivers.Driver.serial (drivers.Driver.backend drv)) := by
    rcases libmachine.Client.Load_virtualbox api n1 w1 w1' h1 e1 hl1 hv1 with ⟨n, hn⟩ | hs
    · exact absurd hn (hr1 n)
    · exact hs
  obtain ⟨drv2, hd2⟩ : ∃ drv, h2.Driver = some (drivers.Driver.serial (drivers.Driver.backend drv)) := by
    rcases libmachine.Client.Load_virtualbox api n2 w2 w2' h2 e2 hl2 hv2 with ⟨n, hn⟩ | hs
    · exact absurd hn (hr2 n)
    · exact hs
  refine ⟨_, _, hd1, hd2, ?_⟩
  intro s hs
  have hser : ∀ b, ((serial.twoCalls (drivers.Driver.serial (drivers.Driver.backend drv1))
      (drivers.Driver.serial (drivers.Driver.backend drv2)) m1 m2) b).driver.isSerial = true := by
    intro b
    cases b <;> rfl
  have hown : serial.LockOwned (serial.twoCalls (drivers.Driver.serial (drivers.Driver.backend drv1))
      (drivers.Driver.serial (drivers.Driver.backend drv2)) m1 m2) s := by
    rw [hs]
    exact serial.lockOwned_run _ schedule _ (serial.lockOwned_start _ s0)
  have hdir : serial.DirectPhases (serial.twoCalls (drivers.Driver.serial (drivers.Driver.backend drv1))
      (drivers.Driver.serial (drivers.Driver.backend drv2)) m1 m2) s := by
    rw [hs]
    exact serial.directPhases_run _ schedule _ (serial.directPhases_start _ s0)
  have hiff : ∀ b, (s.phase b).holds = true ↔ s.lock = some b := by
    intro b
    rw [hown b]
    simp [hser b]
  refine ⟨?_, hiff, ?_, ?_, ?_⟩
  · rintro ⟨hf, ht⟩
    have h0 := (hiff false).mp (by rw [hf]; rfl)
    have h1' := (hiff true).mp (by rw [ht]; rfl)
    rw [h0] at h1'
    cases h1'
  · intro b r hb hl
    have := (hiff b).mpr hl
    rw [hb] at this
    simp [serial.Phase.holds] at this
  · intro hall
    cases hl : s.lock with
    | none => rfl
    | some b =>
      obtain ⟨r, hr⟩ := hall b
      have := (hiff b).mpr hl
      rw [hr] at this
      simp [serial.Phase.holds] at this
  · intro hleft
    exact serial.progress _ s hown hdir hleft

/-- Witness of C23: the hosts `vm1` and `vm2` of the family "virtualbox", a `Start` on
the first and a `Stop` on the second; the second caller tries to enter while the first
holds the lock and stays blocked until the first has returned. -/
theorem C23_serial_calls_never_overlap_witness :
    (serial.run (serial.twoCalls (drivers.Driver.serial (drivers.Driver.backend fixture.fakedriver))
        (drivers.Driver.serial (drivers.Driver.backend fixture.fakedriver))
        (fun d => d.prim drivers.Verb.Start) (fun d => d.prim drivers.Verb.Stop))
      [false, true, false, true] (serial.start state.State.Stopped)).phase false
        = serial.Phase.running ∧
    (serial.run (serial.twoCalls (drivers.Driver.serial (drivers.Driver.backend fixture.fakedriver))
        (drivers.Driver.serial (drivers.Driver.backend fixture.fakedriver))
        (fun d => d.prim drivers.Verb.Start) (fun d => d.prim drivers.Verb.Stop))
      [false, true, false, true] (serial.start state.State.Stopped)).phase true
        = serial.Phase.idle ∧
    ∃ d1 d2, (fixture.vboxHost "vm1").Driver = some d1 ∧ (fixture.vboxHost "vm2").Driver = some d2 ∧
      ∀ s, s = serial.run (serial.twoCalls d1 d2 (fun d => d.prim drivers.Verb.Start)
          (fun d => d.prim drivers.Verb.Stop)) [false, true, false, true]
          (serial.start state.State.Stopped) →
        ¬ (s.phase false = serial.Phase.running ∧ s.phase true = serial.Phase.running) ∧
        (∀ b, (s.phase b).holds = true ↔ s.lock = some b) ∧
        (∀ b r, s.phase b = serial.Phase.returned r → s.lock ≠ some b) ∧
        ((∀ b, ∃ r, s.phase b = serial.Phase.returned r) → s.lock = none) ∧
        ((∃ b, ∀ r, s.phase b ≠ serial.Phase.returned r) →
          ∃ b, serial.advance (serial.twoCalls d1 d2 (fun d => d.prim drivers.Verb.Start)
            (fun d => d.prim drivers.Verb.Stop)) b s ≠ s) :=
  ⟨rfl, rfl, C23_serial_calls_never_overlap fixture.vboxClient "vm1" "vm2"
    (fixture.world state.State.Stopped fixture.fakeDetector)
    (fixture.world state.State.Stopped fixture.fakeDetector)
    (fixture.world state.State.Stopped fixture.fakeDetector)
    (fixture.world state.State.Stopped fixture.fakeDetector)
    (fixture.vboxHost "vm1") (fixture.vboxHost "vm2") none none rfl rfl rfl rfl
    (fun n hn => by cases hn) (fun n hn => by cases hn)
    (fun d => d.prim drivers.Verb.Start) (fun d => d.prim drivers.Verb.Stop)
    state.State.Stopped [false, true, false, true]⟩

end Serial
